import Mathlib

/-!
Verification of render.c: ray/box, ray/sphere and scene intersection, reflection, trace.

A shallow embedding of `src/render.c`, with two models of its arithmetic.

The exact model (`Render.dot`, `Render.box_intersect`, `Render.sphere_intersect`,
`Render.scene_intersect`, `Render.reflect`, `Render.trace`, `Render.render`).

* C `float` arithmetic is idealised as exact arithmetic in a linearly
  ordered field `K`; every literal of the source is the rational it
  denotes (`1e-3` is `1/1000`, `1e30` is `10^30`, `.4` is `2/5`, ...).
  The definitions are generic in `K` and are computable; the theorems
  are stated over `ℝ`. This model carries the statements about the control
  flow of the program and the statements that are made over real arithmetic.
* `sqrt` of `<math.h>` is a parameter `sqrt : K → K` of every function
  that calls it; the theorems instantiate it with `Real.sqrt`.
* `cos`, `sin` of `<math.h>` and `M_PI` are parameters of `render`; the
  theorems instantiate them with `Real.cos`, `Real.sin`, `Real.pi`.

The binary32 model (`Render.F32.dot`, `Render.F32.distance2`, `Render.F32.box_intersect`,
`Render.F32.sphere_intersect`, `Render.F32.scene_intersect`, `Render.F32.normalize`).

* A `float` or `double` value is the rational number it denotes, and every
  arithmetic operation of the source is the exact operation followed by
  rounding to nearest, ties to even: to IEEE 754 binary32 (`F32.f32`) when
  both operands are `float`, to binary64 (`F32.f64`) when the usual
  arithmetic conversions of C make it a `double` operation (`sqrt`,
  `proj - sqrt(delta)`, `1.0/sqrt(...)`, the comparison with `1e-3`). Each
  operation is rounded on its own (no fused multiply-add, no excess
  precision); `sqrt` is correctly rounded (`F32.sqrt`).
* A decimal constant of the source is a `double` literal converted to
  `float` (`F32.lit`).
* The rounding functions are specified by theorems (`fround_spec`,
  `sqrt_spec`): the result is the multiple of the spacing of the format
  nearest to the exact value, the even one in a tie.
* Infinities and NaN are not modelled: the exponent range is unbounded
  above. The statements that evaluate this model do so at concrete inputs,
  where every intermediate value is far below `2^128`; the statements made
  for every input are about what a successful test has checked and
  assigned, not about the values computed.
* This model carries the statements about what the compiled program
  returns at a given input.

Both models.

* A `float[3]` is a `Vec K`; `v[i]` is `v.get i` and `v[i] = a` is
  `v.set i a`.
* An output buffer of a C function is an argument (its content at
  the call) and a component of the result (its content at the return).
* Locals that the source leaves uninitialised (`p`, `N` in
  `scene_intersect`; `point`, `normal`, `color` in `trace`) are
  arguments holding their indeterminate initial content.
* `int` is `Int`; `depth + 1` in `trace` is only evaluated when
  `depth ≤ maxdepth`, so it never exceeds `maxdepth + 1`. The conversion
  `(float)X` of a pixel coordinate is the exact cast.
-/

namespace Render

/-- A `float[3]`. -/
structure Vec (K : Type) where
  x : K
  y : K
  z : K
deriving DecidableEq, Repr

namespace Vec

variable {K : Type}

/-- The C expression `v[i]` for `i` in `0..2`. -/
def get (v : Vec K) (i : Nat) : K :=
  if i = 0 then v.x else if i = 1 then v.y else v.z

/-- The C assignment `v[i] = a` for `i` in `0..2`. -/
def set (v : Vec K) (i : Nat) (a : K) : Vec K :=
  if i = 0 then { v with x := a } else if i = 1 then { v with y := a } else { v with z := a }

end Vec

section Defs

variable {K : Type} [LinearOrderedField K]

/-- The function `dot` of render.c, line 12. -/
def dot (u v : Vec K) : K := u.x * v.x + u.y * v.y + u.z * v.z

/-- The function `distance2` of render.c, lines 13-15. -/
def distance2 (p1 p2 : Vec K) : K :=
  (p1.x - p2.x) * (p1.x - p2.x) + (p1.y - p2.y) * (p1.y - p2.y) + (p1.z - p2.z) * (p1.z - p2.z)

/-- The parameter `d` of line 27 for axis `i`. -/
def box_d (bmin bmax ray_origin ray_direction : Vec K) (i : Nat) : K :=
  ((if ray_direction.get i > 0 then bmin.get i else bmax.get i) - ray_origin.get i)
    / ray_direction.get i

/-- The content of `normal` after lines 25-26 for axis `i`. -/
def box_normal (ray_direction : Vec K) (i : Nat) : Vec K :=
  (Vec.mk 0 0 0).set i (if ray_direction.get i > 0 then -1 else 1)

/-- The content of `point` after line 28 for axis `i`, in exact arithmetic
(`F32.box_point` rounds each operation to `float`). -/
def box_point (bmin bmax ray_origin ray_direction : Vec K) (i : Nat) : Vec K :=
  let d := box_d bmin bmax ray_origin ray_direction i
  Vec.mk (ray_origin.x + ray_direction.x * d) (ray_origin.y + ray_direction.y * d)
    (ray_origin.z + ray_direction.z * d)

/-- The acceptance test of lines 29-30 for axis `i`, on the exact values of `d` and `point`
(`F32.box_accept` tests the `float` values). -/
def box_accept (bmin bmax ray_origin ray_direction : Vec K) (i : Nat) : Bool :=
  let d := box_d bmin bmax ray_origin ray_direction i
  let point := box_point bmin bmax ray_origin ray_direction i
  decide (d > 0 ∧ point.get ((i + 1) % 3) > bmin.get ((i + 1) % 3)
    ∧ point.get ((i + 1) % 3) < bmax.get ((i + 1) % 3)
    ∧ point.get ((i + 2) % 3) > bmin.get ((i + 2) % 3)
    ∧ point.get ((i + 2) % 3) < bmax.get ((i + 2) % 3))

/-- The loop of `box_intersect` (lines 23-34) over the axes still to be visited.
The result is the returned flag and the final contents of `normal` and `point`. -/
def box_loop (bmin bmax ray_origin ray_direction : Vec K) :
    List Nat → Vec K → Vec K → Bool × Vec K × Vec K
  | [], normal, point => (false, normal, point)
  | i :: rest, normal, point =>
    if |ray_direction.get i| < 1 / 1000 then
      box_loop bmin bmax ray_origin ray_direction rest normal point
    else if box_accept bmin bmax ray_origin ray_direction i then
      (true, box_normal ray_direction i, box_point bmin bmax ray_origin ray_direction i)
    else
      box_loop bmin bmax ray_origin ray_direction rest (box_normal ray_direction i)
        (box_point bmin bmax ray_origin ray_direction i)

/-- The function `box_intersect` of render.c, lines 19-35: `for(int i=0; i<3; ++i)`. -/
def box_intersect (bmin bmax ray_origin ray_direction normal point : Vec K) :
    Bool × Vec K × Vec K :=
  box_loop bmin bmax ray_origin ray_direction [0, 1, 2] normal point

/-- The local `V` of `sphere_intersect`, line 41. -/
def sphere_V (center ray_origin : Vec K) : Vec K :=
  Vec.mk (center.x - ray_origin.x) (center.y - ray_origin.y) (center.z - ray_origin.z)

/-- The function `sphere_intersect` of render.c, lines 37-53, in exact arithmetic
(`F32.sphere_intersect` rounds each operation to `float`). The result is the returned
flag and the final contents of `normal` and `point`. -/
def sphere_intersect (sqrt : K → K) (center : Vec K) (radius : K)
    (ray_origin ray_direction normal point : Vec K) : Bool × Vec K × Vec K :=
  let V : Vec K := sphere_V center ray_origin
  let proj := dot ray_direction V
  let delta := radius * radius + proj * proj - dot V V
  if delta > 0 then
    let d := proj - sqrt delta
    if d > 0 then
      let point1 : Vec K :=
        Vec.mk (ray_origin.x + ray_direction.x * d) (ray_origin.y + ray_direction.y * d)
          (ray_origin.z + ray_direction.z * d)
      let normal1 : Vec K :=
        Vec.mk ((point1.x - center.x) / radius) ((point1.y - center.y) / radius)
          ((point1.z - center.z) / radius)
      (true, normal1, point1)
    else (false, normal, point)
  else (false, normal, point)

/-- The normalisation that `render` applies to its ray, lines 116-117:
`s = 1.0/sqrt(dot(ray,ray))`, then `ray[c] = s * ray[c]`. -/
def normalize (sqrt : K → K) (ray : Vec K) : Vec K :=
  let s := 1 / sqrt (dot ray ray)
  Vec.mk (s * ray.x) (s * ray.y) (s * ray.z)

/-- An element of the table `O` of `scene_intersect` (line 60). -/
structure Obj (K : Type) where
  color : Vec K
  p1 : Vec K
  p2 : Vec K
  radius : K

/-- The table `O` of render.c, lines 60-66. -/
def O : List (Obj K) :=
  [ ⟨⟨1, 2 / 5, 3 / 5⟩, ⟨6, 0, 7⟩, ⟨0, 0, 0⟩, 2⟩,
    ⟨⟨1, 1, 3 / 10⟩, ⟨14 / 5, 11 / 10, 7⟩, ⟨0, 0, 0⟩, 9 / 10⟩,
    ⟨⟨2, 2, 2⟩, ⟨5, -10, -7⟩, ⟨0, 0, 0⟩, 8⟩,
    ⟨⟨2 / 5, 7 / 10, 1⟩, ⟨3, -4, 11⟩, ⟨7, 2, 13⟩, 0⟩,
    ⟨⟨3 / 5, 7 / 10, 3 / 5⟩, ⟨0, 2, 6⟩, ⟨11, 11 / 5, 16⟩, 0⟩ ]

/-- The variables of `scene_intersect` that change in its loop: the locals `nearest`, `p`,
`N`, `scene_has_isect` and the output buffers `point`, `normal`, `color`. -/
structure SceneState (K : Type) where
  nearest : K
  p : Vec K
  N : Vec K
  scene_has_isect : Bool
  point : Vec K
  normal : Vec K
  color : Vec K

/-- The primitive test of lines 73-77 on the object `o`, called as in the source with the
buffers `p, N` in this order: the result is the flag and the new contents of `p` and `N`. -/
def obj_intersect (sqrt : K → K) (ray_origin ray_direction : Vec K) (o : Obj K)
    (p N : Vec K) : Bool × Vec K × Vec K :=
  if o.radius = 0 then box_intersect o.p1 o.p2 ray_origin ray_direction p N
  else sphere_intersect sqrt o.p1 o.radius ray_origin ray_direction p N

/-- One iteration of the loop of `scene_intersect`, lines 72-82. -/
def scene_step (sqrt : K → K) (ray_origin ray_direction : Vec K)
    (s : SceneState K) (o : Obj K) : SceneState K :=
  let r := obj_intersect sqrt ray_origin ray_direction o s.p s.N
  let s1 : SceneState K := { s with p := r.2.1, N := r.2.2 }
  if r.1 then
    let d := distance2 ray_origin s1.p
    if d < s1.nearest then
      { s1 with scene_has_isect := true, nearest := d, point := s1.p, normal := s1.N,
                color := o.color }
    else { s1 with scene_has_isect := true }
  else s1

/-- The loop of `scene_intersect` over the objects `objs`, from the state `s`. -/
def scene_loop (sqrt : K → K) (ray_origin ray_direction : Vec K)
    (objs : List (Obj K)) (s : SceneState K) : SceneState K :=
  objs.foldl (scene_step sqrt ray_origin ray_direction) s

/-- The function `scene_intersect` of render.c, lines 55-85. The arguments `point`,
`normal`, `color` are the contents of the output buffers at the call, `p` and `N` the
indeterminate initial contents of the locals; the result is the returned flag and the
final `point`, `normal`, `color`. -/
def scene_intersect (sqrt : K → K) (ray_origin ray_direction point normal color p N : Vec K) :
    Bool × Vec K × Vec K × Vec K :=
  let s := scene_loop sqrt ray_origin ray_direction O
    { nearest := 10 ^ 30, p := p, N := N, scene_has_isect := false,
      point := point, normal := normal, color := color }
  (s.scene_has_isect, s.point, s.normal, s.color)

/-- The function `reflect` of render.c, lines 89-94; the result is the content of `R`. -/
def reflect (sqrt : K → K) (I N : Vec K) : Vec K :=
  let w := 2 * dot I N
  let R : Vec K := Vec.mk (I.x - w * N.x) (I.y - w * N.y) (I.z - w * N.z)
  let l := sqrt (dot R R)
  Vec.mk (R.x * l) (R.y * l) (R.z * l)

/-- The global `ambient_color` of render.c, line 96. -/
def ambient_color : Vec K := ⟨1 / 2, 1 / 2, 1 / 2⟩

/-- The global `light_color` of render.c, line 97. -/
def light_color : Vec K := ⟨1, 1, 1⟩

/-- The indeterminate contents of the uninitialised locals of one activation of `trace`
(`point`, `normal`, `color`) and of the `scene_intersect` it calls (`p`, `N`). -/
structure Frame (K : Type) where
  point : Vec K
  normal : Vec K
  color : Vec K
  p : Vec K
  N : Vec K

/-- The function `trace` of render.c, lines 101-110; the result is the content of `rgb`.
`junk depth` is the indeterminate stack content met by the activation at `depth`. -/
def trace (sqrt : K → K) (junk : Int → Frame K) (eye ray : Vec K) (depth maxdepth : Int) :
    Vec K :=
  if depth > maxdepth then ambient_color
  else
    let f := junk depth
    let r := scene_intersect sqrt eye ray f.point f.normal f.color f.p f.N
    if !r.1 then ambient_color
    else
      let point := r.2.1
      let normal := r.2.2.1
      let color := r.2.2.2
      if color.x > 1 then light_color
      else
        let ray2 := reflect sqrt ray normal
        let color2 := trace sqrt junk point ray2 (depth + 1) maxdepth
        Vec.mk (color.x * color2.x) (color.y * color2.y) (color.z * color2.z)
termination_by (maxdepth + 1 - depth).toNat
decreasing_by omega

/-- The invocations of `trace` that the call `trace(eye, ray, depth, maxdepth, _)` causes,
itself included, in the order in which they start; each is given by its arguments
`(depth, eye, ray)`. The recursion is that of `trace`; an invocation with
`depth ≤ maxdepth` passes its `eye` and `ray` to `scene_intersect` (line 104). -/
def trace_calls (sqrt : K → K) (junk : Int → Frame K) (eye ray : Vec K)
    (depth maxdepth : Int) : List (Int × Vec K × Vec K) :=
  if depth > maxdepth then [(depth, eye, ray)]
  else
    let f := junk depth
    let r := scene_intersect sqrt eye ray f.point f.normal f.color f.p f.N
    if !r.1 then [(depth, eye, ray)]
    else
      let point := r.2.1
      let normal := r.2.2.1
      let color := r.2.2.2
      if color.x > 1 then [(depth, eye, ray)]
      else
        let ray2 := reflect sqrt ray normal
        (depth, eye, ray) :: trace_calls sqrt junk point ray2 (depth + 1) maxdepth
termination_by (maxdepth + 1 - depth).toNat
decreasing_by omega

/-- The divisors of the divisions that the loop of `box_intersect` performs at line 27,
in the order in which it performs them, over the axes still to be visited. -/
def box_divisors (bmin bmax ray_origin ray_direction : Vec K) : List Nat → List K
  | [] => []
  | i :: rest =>
    if |ray_direction.get i| < 1 / 1000 then
      box_divisors bmin bmax ray_origin ray_direction rest
    else if box_accept bmin bmax ray_origin ray_direction i then
      [ray_direction.get i]
    else
      ray_direction.get i :: box_divisors bmin bmax ray_origin ray_direction rest

/-- The macro `GL_width` of render.c, line 4. -/
def GL_width : Int := 80

/-- The macro `GL_height` of render.c, line 5. -/
def GL_height : Int := 50

/-- The global `focal` of render.c, line 98. -/
def focal : K := 60

/-- The global `azimuth` of render.c, line 98: `30.*M_PI/180.`, with `pi` for `M_PI`. -/
def azimuth (pi : K) : K := 30 * pi / 180

/-- The global `nrays` of render.c, line 99. -/
def nrays : Int := 1

/-- The global `maxdepth` of render.c, line 99. -/
def maxdepth : Int := 3

/-- The content of `ray` in `render` after line 120, for the pixel `(X, Y)`: the vector
of line 115, normalised (lines 116-117) and rotated by `azimuth` about the y axis (lines
118-120). The functions `cos`, `sin` of `<math.h>` and the constant `M_PI` are
parameters. -/
def render_ray (sqrt cos sin : K → K) (pi : K) (X Y : Int) : Vec K :=
  let ray0 : Vec K :=
    Vec.mk ((X : K) - (GL_width : K) / 2) ((Y : K) - (GL_height : K) / 2) focal
  let ray := normalize sqrt ray0
  let x := cos (azimuth pi) * ray.x + sin (azimuth pi) * ray.z
  let z := -sin (azimuth pi) * ray.x + cos (azimuth pi) * ray.z
  Vec.mk x ray.y z

/-- The function `render` of render.c, lines 112-129; the result is `(*r, *g, *b)`.
The stack content met by the `trace` of sample `r` is `junk r`. -/
def render (sqrt cos sin : K → K) (pi : K) (junk : Nat → Int → Frame K) (X Y : Int) :
    K × K × K :=
  let ray := render_ray sqrt cos sin pi X Y
  let rgb := (List.range nrays.toNat).foldl
    (fun (rgb : Vec K) (r : Nat) =>
      let rgb_ray := trace sqrt (junk r) (Vec.mk 0 0 0) ray 0 maxdepth
      Vec.mk (rgb.x + rgb_ray.x) (rgb.y + rgb_ray.y) (rgb.z + rgb_ray.z))
    (Vec.mk 0 0 0)
  (rgb.x / (nrays : K), rgb.y / (nrays : K), rgb.z / (nrays : K))

/-- The local `delta` of `sphere_intersect`, line 43. -/
def sphere_delta (center : Vec K) (radius : K) (ray_origin ray_direction : Vec K) : K :=
  radius * radius
    + dot ray_direction (sphere_V center ray_origin)
      * dot ray_direction (sphere_V center ray_origin)
    - dot (sphere_V center ray_origin) (sphere_V center ray_origin)

/-- The local `d` of `sphere_intersect`, line 45. -/
def sphere_d (sqrt : K → K) (center : Vec K) (radius : K) (ray_origin ray_direction : Vec K) :
    K :=
  dot ray_direction (sphere_V center ray_origin)
    - sqrt (sphere_delta center radius ray_origin ray_direction)

/-- The content of `point` after line 47 of `sphere_intersect`. -/
def sphere_point (sqrt : K → K) (center : Vec K) (radius : K)
    (ray_origin ray_direction : Vec K) : Vec K :=
  Vec.mk (ray_origin.x + ray_direction.x * sphere_d sqrt center radius ray_origin ray_direction)
    (ray_origin.y + ray_direction.y * sphere_d sqrt center radius ray_origin ray_direction)
    (ray_origin.z + ray_direction.z * sphere_d sqrt center radius ray_origin ray_direction)

/-- The content of `normal` after line 48 of `sphere_intersect`. -/
def sphere_normal (sqrt : K → K) (center : Vec K) (radius : K)
    (ray_origin ray_direction : Vec K) : Vec K :=
  Vec.mk
    (((sphere_point sqrt center radius ray_origin ray_direction).x - center.x) / radius)
    (((sphere_point sqrt center radius ray_origin ray_direction).y - center.y) / radius)
    (((sphere_point sqrt center radius ray_origin ray_direction).z - center.z) / radius)

/-- What the proofs about `render` use of a primary ray of direction `u` that hits a
primitive other than the lamp, `n` and `P` being the normal and the point written by the
primitive test: `n` has squared length 1 and `n.u < 0`, `u` points towards positive `z`
and has non-negative products with the centres of `O[0]` and `O[1]`, and `P = t * u`
with `2 ≤ t ≤ 20`. -/
def first_hit_facts (u n P : Vec K) : Prop :=
  dot n n = 1 ∧ dot n u < 0 ∧ u.z > 0 ∧ 6 * u.x + 7 * u.z ≥ 0
    ∧ 14 / 5 * u.x + 11 / 10 * u.y + 7 * u.z ≥ 0
    ∧ ∃ t : K, 2 ≤ t ∧ t ≤ 20 ∧ P = Vec.mk (0 + u.x * t) (0 + u.y * t) (0 + u.z * t)

/-! ### Definitions that follow the specification

The two definitions below are not translated from the source: they state, in the words
of the specification, which colour `scene_intersect` is meant to return. -/

/-- Following the specification: the intersection point that the primitive test of `o`
computes for the ray (the buffer the test itself calls `point`), if the test reports a
hit. -/
def spec_hit_point (sqrt : K → K) (ray_origin ray_direction : Vec K) (o : Obj K) :
    Option (Vec K) :=
  let r := if o.radius = 0
    then box_intersect o.p1 o.p2 ray_origin ray_direction (Vec.mk 0 0 0) (Vec.mk 0 0 0)
    else sphere_intersect sqrt o.p1 o.radius ray_origin ray_direction (Vec.mk 0 0 0)
      (Vec.mk 0 0 0)
  if r.1 then some r.2.2 else none

/-- Following the specification: among the primitives of `objs` that the ray hits, the
squared distance from the ray origin to the intersection point and the colour of the one
for which it is smallest, the earliest primitive winning an exact tie; `none` when no
primitive is hit. -/
def spec_nearest_color (sqrt : K → K) (ray_origin ray_direction : Vec K) :
    List (Obj K) → Option (K × Vec K)
  | [] => none
  | o :: rest =>
    match spec_hit_point sqrt ray_origin ray_direction o,
        spec_nearest_color sqrt ray_origin ray_direction rest with
    | none, best => best
    | some q, none => some (distance2 ray_origin q, o.color)
    | some q, some (d, c) =>
      if distance2 ray_origin q ≤ d then some (distance2 ray_origin q, o.color)
      else some (d, c)

end Defs

/-! ## The primitive tests and the scene loop in `float` arithmetic

The namespace `F32` translates `dot`, `distance2`, `box_intersect`, `sphere_intersect`,
`scene_intersect` and the normalisation of `render` once more, with the arithmetic of the
compiled program: the values are rationals, and each operation of the source is followed
by the rounding that C prescribes for it. -/

namespace F32

/-- The power `2^e` for an integer exponent `e`. -/
def pow2 (e : ℤ) : ℚ :=
  if 0 ≤ e then ((2 ^ e.toNat : ℕ) : ℚ) else 1 / ((2 ^ (-e).toNat : ℕ) : ℚ)

/-- The number of binary digits of `m`, computed in at most `k` halvings: for `k ≥ m` it is
the least `n` with `m < 2^n`. -/
def bits : ℕ → ℕ → ℕ
  | 0, _ => 0
  | k + 1, m => if m = 0 then 0 else bits k (m / 2) + 1

/-- The binary exponent of a non-zero rational `x`: the integer `e` with
`2^e ≤ |x| < 2^(e+1)`. -/
def ilog2 (x : ℚ) : ℤ :=
  let a : ℤ := (bits x.num.natAbs x.num.natAbs : ℤ) - (bits x.den x.den : ℤ)
  if pow2 a ≤ (if x < 0 then -x else x) then a else a - 1

/-- The integer nearest to `x`, the even one of the two when `x` is half-way. -/
def round_even (x : ℚ) : ℤ :=
  let f : ℤ := Rat.floor x
  let r : ℚ := x - f
  if r < 1 / 2 then f else if 1 / 2 < r then f + 1 else if f % 2 = 0 then f else f + 1

/-- Rounding to nearest, ties to even, in the binary floating-point format with `p` digits
of precision and least normal exponent `emin` (below `2^emin` the spacing stays
`2^(emin - p + 1)`: the subnormal numbers). The exponent is not bounded above. -/
def fround (p : ℕ) (emin : ℤ) (x : ℚ) : ℚ :=
  if x = 0 then 0
  else
    let e : ℤ := max (ilog2 x) emin
    let q : ℚ := pow2 (e - ((p : ℤ) - 1))
    (round_even (x / q) : ℚ) * q

/-- Rounding to `float` (IEEE 754 binary32). -/
def f32 (x : ℚ) : ℚ := fround 24 (-126) x

/-- Rounding to `double` (IEEE 754 binary64). -/
def f64 (x : ℚ) : ℚ := fround 53 (-1022) x

/-- A decimal constant of the source stored in a `float`: the literal is a `double`, the
initialisation converts it to `float`. -/
def lit (x : ℚ) : ℚ := f32 (f64 x)

/-- Bisection for the integer square root: `lo * lo ≤ n < hi * hi` is kept, `k` bounds the
number of steps. -/
def isqrt_loop : ℕ → ℕ → ℕ → ℕ → ℕ
  | 0, _, lo, _ => lo
  | k + 1, n, lo, hi =>
    if hi ≤ lo + 1 then lo
    else if (lo + hi) / 2 * ((lo + hi) / 2) ≤ n then isqrt_loop k n ((lo + hi) / 2) hi
    else isqrt_loop k n lo ((lo + hi) / 2)

/-- The integer square root: the `s` with `s * s ≤ n < (s + 1) * (s + 1)`. -/
def isqrt (n : ℕ) : ℕ := isqrt_loop (n + 1) n 0 (n + 1)

/-- The function `sqrt` of `<math.h>` on a `double` argument `x > 0`: the square root
rounded to nearest `double`. The argument is scaled by `4^k` so that its root lies in
`[2^52, 2^53)`, where the doubles are the integers. The result is `0` for `x ≤ 0`; the
functions below call `sqrt` with a positive argument only, but for the normalisation of the
zero vector. -/
def sqrt (x : ℚ) : ℚ :=
  if x ≤ 0 then 0
  else
    let k : ℤ := 52 - ilog2 x / 2
    let X : ℚ := x * pow2 (2 * k)
    let s : ℕ := isqrt (Rat.floor X).toNat
    let h : ℚ := ((s : ℚ) + 1 / 2) * ((s : ℚ) + 1 / 2)
    let m : ℕ := if X < h then s else if h < X then s + 1 else if s % 2 = 0 then s else s + 1
    (m : ℚ) * pow2 (-k)

/-- The function `dot` of render.c, line 12, in `float` arithmetic. -/
def dot (u v : Vec ℚ) : ℚ :=
  f32 (f32 (f32 (u.x * v.x) + f32 (u.y * v.y)) + f32 (u.z * v.z))

/-- The function `distance2` of render.c, lines 13-15, in `float` arithmetic. -/
def distance2 (p1 p2 : Vec ℚ) : ℚ :=
  f32 (f32 (f32 (f32 (p1.x - p2.x) * f32 (p1.x - p2.x))
        + f32 (f32 (p1.y - p2.y) * f32 (p1.y - p2.y)))
    + f32 (f32 (p1.z - p2.z) * f32 (p1.z - p2.z)))

/-- The parameter `d` of line 27 for axis `i`, in `float` arithmetic. -/
def box_d (bmin bmax ray_origin ray_direction : Vec ℚ) (i : Nat) : ℚ :=
  f32 (f32 ((if ray_direction.get i > 0 then bmin.get i else bmax.get i) - ray_origin.get i)
    / ray_direction.get i)

/-- The content of `point` after line 28 for axis `i`, in `float` arithmetic. -/
def box_point (bmin bmax ray_origin ray_direction : Vec ℚ) (i : Nat) : Vec ℚ :=
  let d := box_d bmin bmax ray_origin ray_direction i
  Vec.mk (f32 (ray_origin.x + f32 (ray_direction.x * d)))
    (f32 (ray_origin.y + f32 (ray_direction.y * d)))
    (f32 (ray_origin.z + f32 (ray_direction.z * d)))

/-- The acceptance test of lines 29-30 for axis `i`, on the `float` values of `d` and
`point`. -/
def box_accept (bmin bmax ray_origin ray_direction : Vec ℚ) (i : Nat) : Bool :=
  let d := box_d bmin bmax ray_origin ray_direction i
  let point := box_point bmin bmax ray_origin ray_direction i
  decide (d > 0 ∧ point.get ((i + 1) % 3) > bmin.get ((i + 1) % 3)
    ∧ point.get ((i + 1) % 3) < bmax.get ((i + 1) % 3)
    ∧ point.get ((i + 2) % 3) > bmin.get ((i + 2) % 3)
    ∧ point.get ((i + 2) % 3) < bmax.get ((i + 2) % 3))

/-- The loop of `box_intersect` (lines 23-34) over the axes still to be visited, in `float`
arithmetic; the comparison of line 24 is made in `double` with the `double` constant
`1e-3`. -/
def box_loop (bmin bmax ray_origin ray_direction : Vec ℚ) :
    List Nat → Vec ℚ → Vec ℚ → Bool × Vec ℚ × Vec ℚ
  | [], normal, point => (false, normal, point)
  | i :: rest, normal, point =>
    if |ray_direction.get i| < f64 (1 / 1000) then
      box_loop bmin bmax ray_origin ray_direction rest normal point
    else if box_accept bmin bmax ray_origin ray_direction i then
      (true, box_normal ray_direction i, box_point bmin bmax ray_origin ray_direction i)
    else
      box_loop bmin bmax ray_origin ray_direction rest (box_normal ray_direction i)
        (box_point bmin bmax ray_origin ray_direction i)

/-- The function `box_intersect` of render.c, lines 19-35, in `float` arithmetic. -/
def box_intersect (bmin bmax ray_origin ray_direction normal point : Vec ℚ) :
    Bool × Vec ℚ × Vec ℚ :=
  box_loop bmin bmax ray_origin ray_direction [0, 1, 2] normal point

/-- The local `V` of `sphere_intersect`, line 41, in `float` arithmetic. -/
def sphere_V (center ray_origin : Vec ℚ) : Vec ℚ :=
  Vec.mk (f32 (center.x - ray_origin.x)) (f32 (center.y - ray_origin.y))
    (f32 (center.z - ray_origin.z))

/-- The local `delta` of `sphere_intersect`, line 43, in `float` arithmetic. -/
def sphere_delta (center : Vec ℚ) (radius : ℚ) (ray_origin ray_direction : Vec ℚ) : ℚ :=
  let V := sphere_V center ray_origin
  let proj := dot ray_direction V
  f32 (f32 (f32 (radius * radius) + f32 (proj * proj)) - dot V V)

/-- The local `d` of `sphere_intersect`, line 45: `proj` is converted to `double`, the
subtraction is made in `double` and its result converted to `float`. -/
def sphere_d (center : Vec ℚ) (radius : ℚ) (ray_origin ray_direction : Vec ℚ) : ℚ :=
  f32 (f64 (dot ray_direction (sphere_V center ray_origin)
    - sqrt (sphere_delta center radius ray_origin ray_direction)))

/-- The function `sphere_intersect` of render.c, lines 37-53, in `float` arithmetic. -/
def sphere_intersect (center : Vec ℚ) (radius : ℚ)
    (ray_origin ray_direction normal point : Vec ℚ) : Bool × Vec ℚ × Vec ℚ :=
  if sphere_delta center radius ray_origin ray_direction > 0 then
    let d := sphere_d center radius ray_origin ray_direction
    if d > 0 then
      let point1 : Vec ℚ :=
        Vec.mk (f32 (ray_origin.x + f32 (ray_direction.x * d)))
          (f32 (ray_origin.y + f32 (ray_direction.y * d)))
          (f32 (ray_origin.z + f32 (ray_direction.z * d)))
      let normal1 : Vec ℚ :=
        Vec.mk (f32 (f32 (point1.x - center.x) / radius))
          (f32 (f32 (point1.y - center.y) / radius))
          (f32 (f32 (point1.z - center.z) / radius))
      (true, normal1, point1)
    else (false, normal, point)
  else (false, normal, point)

/-- The normalisation of render.c, lines 116-117, in machine arithmetic:
`s = 1.0/sqrt(dot(ray,ray))` is computed in `double` and stored in a `float`, the
products `s * ray[c]` are `float` products. The zero vector, which `render` never
normalises, is outside the model (the source divides by zero there). -/
def normalize (ray : Vec ℚ) : Vec ℚ :=
  let s := f32 (f64 (1 / sqrt (dot ray ray)))
  Vec.mk (f32 (s * ray.x)) (f32 (s * ray.y)) (f32 (s * ray.z))

/-- The table `O` of render.c, lines 60-66, as `float` values. -/
def O : List (Obj ℚ) :=
  [ ⟨⟨1, lit (2 / 5), lit (3 / 5)⟩, ⟨6, 0, 7⟩, ⟨0, 0, 0⟩, 2⟩,
    ⟨⟨1, 1, lit (3 / 10)⟩, ⟨lit (14 / 5), lit (11 / 10), 7⟩, ⟨0, 0, 0⟩, lit (9 / 10)⟩,
    ⟨⟨2, 2, 2⟩, ⟨5, -10, -7⟩, ⟨0, 0, 0⟩, 8⟩,
    ⟨⟨lit (2 / 5), lit (7 / 10), 1⟩, ⟨3, -4, 11⟩, ⟨7, 2, 13⟩, 0⟩,
    ⟨⟨lit (3 / 5), lit (7 / 10), lit (3 / 5)⟩, ⟨0, 2, 6⟩, ⟨11, lit (11 / 5), 16⟩, 0⟩ ]

/-- The primitive test of lines 73-77 on the object `o`, called as in the source with the
buffers `p, N` in this order, in `float` arithmetic. -/
def obj_intersect (ray_origin ray_direction : Vec ℚ) (o : Obj ℚ) (p N : Vec ℚ) :
    Bool × Vec ℚ × Vec ℚ :=
  if o.radius = 0 then box_intersect o.p1 o.p2 ray_origin ray_direction p N
  else sphere_intersect o.p1 o.radius ray_origin ray_direction p N

/-- One iteration of the loop of `scene_intersect`, lines 72-82, in `float` arithmetic. -/
def scene_step (ray_origin ray_direction : Vec ℚ) (s : SceneState ℚ) (o : Obj ℚ) :
    SceneState ℚ :=
  let r := obj_intersect ray_origin ray_direction o s.p s.N
  let s1 : SceneState ℚ := { s with p := r.2.1, N := r.2.2 }
  if r.1 then
    let d := distance2 ray_origin s1.p
    if d < s1.nearest then
      { s1 with scene_has_isect := true, nearest := d, point := s1.p, normal := s1.N,
                color := o.color }
    else { s1 with scene_has_isect := true }
  else s1

/-- The function `scene_intersect` of render.c, lines 55-85, in `float` arithmetic. -/
def scene_intersect (ray_origin ray_direction point normal color p N : Vec ℚ) :
    Bool × Vec ℚ × Vec ℚ × Vec ℚ :=
  let s := O.foldl (scene_step ray_origin ray_direction)
    { nearest := lit (10 ^ 30), p := p, N := N, scene_has_isect := false,
      point := point, normal := normal, color := color }
  (s.scene_has_isect, s.point, s.normal, s.color)

end F32

section Theorems

/-! ## Binary32 model: the rounding functions at known values -/

/-- The `float` nearest to `0.1` is `13421773 * 2^-27` (bit pattern `3DCCCCCD`) and the
`double` nearest to `0.1` is `3602879701896397 * 2^-55` (bit pattern `3FB999999999999A`). -/
theorem f32_f64_tenth :
    F32.f32 (1 / 10) = 13421773 / 134217728
    ∧ F32.f64 (1 / 10) = 3602879701896397 / 36028797018963968 := by
  decide!

/-- Rounding to `float` resolves ties to the even significand: `2^24 + 1` is rounded down
to `2^24` and `2^24 + 3` up to `2^24 + 4`; a `float` is left unchanged. -/
theorem f32_ties_to_even :
    F32.f32 16777217 = 16777216 ∧ F32.f32 16777219 = 16777220
    ∧ F32.f32 (16777217 + 1 / 100) = 16777218 ∧ F32.f32 (3 / 8) = 3 / 8 := by
  decide!

/-- Below `2^-126` the spacing of the `float` values stays `2^-149`: the `float` nearest to
`1e-40` is `71362 * 2^-149`. -/
theorem f32_subnormal : F32.f32 (1 / 10 ^ 40) = 71362 / 2 ^ 149 := by
  decide!

/-- The constants `1e30` (line 67, stored in a `float`) and `1e-3` (line 24, a `double`) of
the source. -/
theorem lit_constants :
    F32.lit (10 ^ 30) = 1000000015047466219876688855040
    ∧ F32.f64 (1 / 1000) = 1152921504606847 / 1152921504606846976 := by
  decide!

/-- The correctly rounded `double` square roots of 2, of 4 and of `2^-23`. -/
theorem sqrt_known_values :
    F32.sqrt 2 = 6369051672525773 / 4503599627370496 ∧ F32.sqrt 4 = 2
    ∧ F32.sqrt (1 / 8388608) = 6369051672525773 / 18446744073709551616 := by
  decide!

/-! ## Binary32 model: what the rounding functions compute -/

/-- The integer `round_even x` is at distance at most `1/2` from `x`. -/
theorem round_even_near (x : ℚ) : |x - (F32.round_even x : ℚ)| ≤ 1 / 2 := by
  have h1 : ((Rat.floor x : ℤ) : ℚ) ≤ x := Rat.le_floor.1 (le_refl _)
  have h2 : x < ((Rat.floor x : ℤ) : ℚ) + 1 := by
    by_contra hc
    have h3 : ((Rat.floor x + 1 : ℤ) : ℚ) ≤ x := by
      push_cast
      exact not_lt.1 hc
    have h4 := Rat.le_floor.2 h3
    omega
  simp only [F32.round_even]
  rw [abs_le]
  split_ifs with c1 c2 c3
  · constructor <;> linarith
  · push_cast
    constructor <;> linarith
  · constructor <;> linarith
  · push_cast
    have c4 : x - ((Rat.floor x : ℤ) : ℚ) = 1 / 2 :=
      le_antisymm (not_lt.1 c2) (not_lt.1 c1)
    constructor <;> linarith

/-- The bisection of `isqrt_loop` keeps `lo * lo ≤ n < hi * hi` and ends with the integer
square root when the number of steps allowed is at least `hi - lo - 1`. -/
theorem isqrt_loop_spec :
    ∀ (k n lo hi : ℕ), lo * lo ≤ n → n < hi * hi → hi ≤ lo + k + 1 →
      F32.isqrt_loop k n lo hi * F32.isqrt_loop k n lo hi ≤ n
      ∧ n < (F32.isqrt_loop k n lo hi + 1) * (F32.isqrt_loop k n lo hi + 1) := by
  intro k
  induction k with
  | zero =>
    intro n lo hi h1 h2 h3
    simp only [F32.isqrt_loop]
    refine ⟨h1, lt_of_lt_of_le h2 ?_⟩
    exact Nat.mul_le_mul (by omega) (by omega)
  | succ k ih =>
    intro n lo hi h1 h2 h3
    simp only [F32.isqrt_loop]
    split_ifs with c1 c2
    · refine ⟨h1, lt_of_lt_of_le h2 ?_⟩
      exact Nat.mul_le_mul c1 c1
    · exact ih n ((lo + hi) / 2) hi c2 h2 (by omega)
    · exact ih n lo ((lo + hi) / 2) h1 (not_le.1 c2) (by omega)

/-- The function `isqrt` is the integer square root. -/
theorem isqrt_spec (n : ℕ) :
    F32.isqrt n * F32.isqrt n ≤ n ∧ n < (F32.isqrt n + 1) * (F32.isqrt n + 1) := by
  apply isqrt_loop_spec (n + 1) n 0 (n + 1) (by omega) _ (by omega)
  nlinarith

/-- The function `bits` gives 0 on 0. -/
theorem bits_zero (k : ℕ) : F32.bits k 0 = 0 := by
  cases k <;> simp [F32.bits]

/-- For `m ≤ k`, `bits k m` is the number of binary digits of `m`: `m < 2^(bits k m)`, and
`2^(bits k m) ≤ 2 * m` when `m` is not zero. -/
theorem bits_spec : ∀ (k m : ℕ), m ≤ k →
    m < 2 ^ F32.bits k m ∧ (m ≠ 0 → 2 ^ F32.bits k m ≤ 2 * m) := by
  intro k
  induction k with
  | zero =>
    intro m hm
    have : m = 0 := by omega
    subst this
    simp [F32.bits]
  | succ k ih =>
    intro m hm
    simp only [F32.bits]
    split_ifs with c
    · subst c
      simp
    · obtain ⟨i1, i2⟩ := ih (m / 2) (by omega)
      rw [pow_succ]
      constructor
      · omega
      · intro _
        by_cases c2 : m / 2 = 0
        · have hm1 : m = 1 := by omega
          rw [c2, bits_zero]
          omega
        · have := i2 c2
          omega

/-- When `x` is half-way between two integers, `round_even x` is the even one. -/
theorem round_even_tie (x : ℚ) (h : |x - (F32.round_even x : ℚ)| = 1 / 2) :
    Even (F32.round_even x) := by
  have h1 : ((Rat.floor x : ℤ) : ℚ) ≤ x := Rat.le_floor.1 (le_refl _)
  have h2 : x < ((Rat.floor x : ℤ) : ℚ) + 1 := by
    by_contra hc
    have h3 : ((Rat.floor x + 1 : ℤ) : ℚ) ≤ x := by
      push_cast
      exact not_lt.1 hc
    have h4 := Rat.le_floor.2 h3
    omega
  simp only [F32.round_even] at h ⊢
  split_ifs at h ⊢ with c1 c2 c3
  · rw [abs_of_nonneg (by linarith)] at h
    linarith
  · push_cast at h
    rw [abs_of_nonpos (by linarith)] at h
    linarith
  · exact Int.even_iff.2 c3
  · exact Int.even_add_one.2 (fun he => c3 (Int.even_iff.1 he))

/-- The function `pow2` is the power of 2 with an integer exponent. -/
theorem pow2_eq (e : ℤ) : F32.pow2 e = (2 : ℚ) ^ e := by
  simp only [F32.pow2]
  split_ifs with h
  · obtain ⟨n, rfl⟩ := Int.eq_ofNat_of_zero_le h
    simp
  · obtain ⟨n, hn⟩ := Int.eq_ofNat_of_zero_le (show 0 ≤ -e by omega)
    have he : e = -(n : ℤ) := by omega
    rw [hn, he]
    simp [zpow_neg]

/-- The binary exponent: `2^(ilog2 x) ≤ |x| < 2^(ilog2 x + 1)` for `x ≠ 0`. -/
theorem ilog2_spec (x : ℚ) (hx : x ≠ 0) :
    (2 : ℚ) ^ F32.ilog2 x ≤ |x| ∧ |x| < (2 : ℚ) ^ (F32.ilog2 x + 1) := by
  have hn0 : x.num.natAbs ≠ 0 := by
    rw [Ne, Int.natAbs_eq_zero, Rat.num_eq_zero]
    exact hx
  have hd0 : x.den ≠ 0 := x.den_nz
  obtain ⟨n1, n2⟩ := bits_spec x.num.natAbs x.num.natAbs (le_refl _)
  obtain ⟨d1, d2⟩ := bits_spec x.den x.den (le_refl _)
  have n2 := n2 hn0
  have d2 := d2 hd0
  have habs : |x| = (x.num.natAbs : ℚ) / (x.den : ℚ) := by
    conv_lhs => rw [← Rat.num_div_den x]
    rw [abs_div, Nat.abs_cast, Nat.cast_natAbs, Int.cast_abs]
  have hN : (0 : ℚ) < (x.num.natAbs : ℚ) := by exact_mod_cast Nat.pos_of_ne_zero hn0
  have hD : (0 : ℚ) < (x.den : ℚ) := by exact_mod_cast Nat.pos_of_ne_zero hd0
  have qn1 : (x.num.natAbs : ℚ) < (2 : ℚ) ^ F32.bits x.num.natAbs x.num.natAbs := by
    exact_mod_cast n1
  have qn2 : (2 : ℚ) ^ F32.bits x.num.natAbs x.num.natAbs ≤ 2 * (x.num.natAbs : ℚ) := by
    exact_mod_cast n2
  have qd1 : (x.den : ℚ) < (2 : ℚ) ^ F32.bits x.den x.den := by
    exact_mod_cast d1
  have qd2 : (2 : ℚ) ^ F32.bits x.den x.den ≤ 2 * (x.den : ℚ) := by
    exact_mod_cast d2
  have hif : (if x < 0 then -x else x) = |x| := by
    split_ifs with c
    · rw [abs_of_neg c]
    · rw [abs_of_nonneg (not_lt.1 c)]
  have hQ : (0 : ℚ) < (2 : ℚ) ^ F32.bits x.den x.den := by positivity
  have hz : ∀ k : ℤ,
      (2 : ℚ) ^ ((F32.bits x.num.natAbs x.num.natAbs : ℤ) - (F32.bits x.den x.den : ℤ) + k)
        = (2 : ℚ) ^ F32.bits x.num.natAbs x.num.natAbs / (2 : ℚ) ^ F32.bits x.den x.den
          * (2 : ℚ) ^ k := by
    intro k
    rw [zpow_add₀ (by norm_num), zpow_sub₀ (by norm_num), zpow_natCast, zpow_natCast]
  have hlow : (2 : ℚ) ^ ((F32.bits x.num.natAbs x.num.natAbs : ℤ)
      - (F32.bits x.den x.den : ℤ) + (-1)) ≤ |x| := by
    rw [hz, habs, zpow_neg, zpow_one, div_mul_eq_mul_div, div_le_div_iff₀ hQ hD]
    nlinarith
  have hup : |x| < (2 : ℚ) ^ ((F32.bits x.num.natAbs x.num.natAbs : ℤ)
      - (F32.bits x.den x.den : ℤ) + 1) := by
    rw [hz, habs, zpow_one, div_mul_eq_mul_div, div_lt_div_iff₀ hD hQ]
    nlinarith
  simp only [F32.ilog2, hif, pow2_eq]
  split_ifs with c
  · exact ⟨c, hup⟩
  · constructor
    · rw [sub_eq_add_neg]
      exact hlow
    · rw [sub_add_cancel]
      exact not_le.1 c

/-- The rounding `fround p emin x` of a non-zero `x` is an integer multiple `m * q` of the
spacing `q = 2^(e - (p - 1))` of the format at `x`, where `e` is the binary exponent of
`x` or `emin` if that is larger; it is at distance at most `q / 2` from `x`, it is the
multiple with `m` even when `x` is half-way between two multiples, and `|m| ≤ 2^p`. -/
theorem fround_spec (p : ℕ) (emin : ℤ) (x : ℚ) (hx : x ≠ 0) :
    ∃ m : ℤ,
      F32.fround p emin x = (m : ℚ) * (2 : ℚ) ^ (max (F32.ilog2 x) emin - ((p : ℤ) - 1))
      ∧ |F32.fround p emin x - x| ≤ (2 : ℚ) ^ (max (F32.ilog2 x) emin - ((p : ℤ) - 1)) / 2
      ∧ (|F32.fround p emin x - x| = (2 : ℚ) ^ (max (F32.ilog2 x) emin - ((p : ℤ) - 1)) / 2
          → Even m)
      ∧ |m| ≤ 2 ^ p := by
  have hq : (0 : ℚ) < (2 : ℚ) ^ (max (F32.ilog2 x) emin - ((p : ℤ) - 1)) := by positivity
  generalize hqq : (2 : ℚ) ^ (max (F32.ilog2 x) emin - ((p : ℤ) - 1)) = q at hq
  have hf : F32.fround p emin x = (F32.round_even (x / q) : ℚ) * q := by
    simp only [F32.fround, if_neg hx, pow2_eq, hqq]
  have hdist : |F32.fround p emin x - x| = |x / q - (F32.round_even (x / q) : ℚ)| * q := by
    rw [hf, ← abs_of_pos hq, ← abs_mul, abs_of_pos hq, abs_sub_comm]
    congr 1
    field_simp
    ring
  refine ⟨F32.round_even (x / q), hf, ?_, ?_, ?_⟩
  · rw [hdist]
    have := round_even_near (x / q)
    nlinarith
  · intro h
    apply round_even_tie
    rw [hdist] at h
    have h2 : |x / q - (F32.round_even (x / q) : ℚ)| * q = 1 / 2 * q := by linarith
    exact mul_right_cancel₀ (ne_of_gt hq) h2
  · have hxq : |x / q| < (2 : ℚ) ^ p := by
      rw [abs_div, abs_of_pos hq, div_lt_iff₀ hq, ← hqq, ← zpow_natCast, ← zpow_add₀ (by norm_num)]
      refine lt_of_lt_of_le (ilog2_spec x hx).2 ?_
      apply zpow_le_zpow_right₀ (by norm_num)
      have := le_max_left (F32.ilog2 x) emin
      omega
    have hnear := round_even_near (x / q)
    have h3 : |((F32.round_even (x / q) : ℤ) : ℚ)| < (2 : ℚ) ^ p + 1 := by
      have := abs_sub_abs_le_abs_sub ((F32.round_even (x / q) : ℤ) : ℚ) (x / q)
      rw [abs_sub_comm] at this
      linarith
    have h4 : ((|F32.round_even (x / q)| : ℤ) : ℚ) < ((2 ^ p + 1 : ℤ) : ℚ) := by
      push_cast
      exact h3
    have h5 : |F32.round_even (x / q)| < 2 ^ p + 1 := by exact_mod_cast h4
    omega

/-- If `s * s ≤ X ≤ (s + 1/2)^2` with `s ≥ 1`, then `s` is an integer nearest to the square
root of `X`. -/
theorem nearest_root_low (s X : ℚ) (hs : 1 ≤ s) (h1 : s * s ≤ X)
    (h2 : X ≤ (s + 1 / 2) * (s + 1 / 2)) :
    (2 * s - 1) ^ 2 ≤ 4 * X ∧ 4 * X ≤ (2 * s + 1) ^ 2 := by
  constructor <;> nlinarith

/-- If `(s + 1/2)^2 ≤ X < (s + 1)^2`, then `s + 1` is an integer nearest to
the square root of `X`. -/
theorem nearest_root_high (s X : ℚ) (h1 : (s + 1 / 2) * (s + 1 / 2) ≤ X)
    (h2 : X < (s + 1) * (s + 1)) :
    (2 * (s + 1) - 1) ^ 2 ≤ 4 * X ∧ 4 * X ≤ (2 * (s + 1) + 1) ^ 2 := by
  constructor <;> nlinarith

/-- The function `sqrt` on `x > 0`: with `k = 52 - ilog2 x / 2` and `X = x * 4^k`, the
result is `m * 2^(-k)` for the integer `m` nearest to the square root of `X`, that is
`(2m - 1)^2 ≤ 4X ≤ (2m + 1)^2`, and `2^52 ≤ m ≤ 2^53`, so that `m` has the 53 digits of a
`double`. -/
theorem sqrt_spec (x : ℚ) (hx : 0 < x) :
    ∃ m : ℕ, F32.sqrt x = (m : ℚ) * (2 : ℚ) ^ (-(52 - F32.ilog2 x / 2))
      ∧ (2 * (m : ℚ) - 1) ^ 2 ≤ 4 * (x * (2 : ℚ) ^ (2 * (52 - F32.ilog2 x / 2)))
      ∧ 4 * (x * (2 : ℚ) ^ (2 * (52 - F32.ilog2 x / 2))) ≤ (2 * (m : ℚ) + 1) ^ 2
      ∧ 2 ^ 52 ≤ m ∧ m ≤ 2 ^ 53 := by
  obtain ⟨e1, e2⟩ := ilog2_spec x (ne_of_gt hx)
  rw [abs_of_pos hx] at e1 e2
  have hp : (0 : ℚ) < (2 : ℚ) ^ (2 * (52 - F32.ilog2 x / 2)) := by positivity
  have hX1 : (2 : ℚ) ^ (104 : ℤ) ≤ x * (2 : ℚ) ^ (2 * (52 - F32.ilog2 x / 2)) := by
    calc (2 : ℚ) ^ (104 : ℤ)
        ≤ (2 : ℚ) ^ (F32.ilog2 x + 2 * (52 - F32.ilog2 x / 2)) :=
          zpow_le_zpow_right₀ (by norm_num) (by omega)
      _ = (2 : ℚ) ^ F32.ilog2 x * (2 : ℚ) ^ (2 * (52 - F32.ilog2 x / 2)) :=
          zpow_add₀ (by norm_num) _ _
      _ ≤ x * (2 : ℚ) ^ (2 * (52 - F32.ilog2 x / 2)) :=
          mul_le_mul_of_nonneg_right e1 (le_of_lt hp)
  have hX2 : x * (2 : ℚ) ^ (2 * (52 - F32.ilog2 x / 2)) < (2 : ℚ) ^ (106 : ℤ) := by
    calc x * (2 : ℚ) ^ (2 * (52 - F32.ilog2 x / 2))
        < (2 : ℚ) ^ (F32.ilog2 x + 1) * (2 : ℚ) ^ (2 * (52 - F32.ilog2 x / 2)) :=
          mul_lt_mul_of_pos_right e2 hp
      _ = (2 : ℚ) ^ (F32.ilog2 x + 1 + 2 * (52 - F32.ilog2 x / 2)) :=
          (zpow_add₀ (by norm_num) _ _).symm
      _ ≤ (2 : ℚ) ^ (106 : ℤ) := zpow_le_zpow_right₀ (by norm_num) (by omega)
  generalize hXX : x * (2 : ℚ) ^ (2 * (52 - F32.ilog2 x / 2)) = X at hX1 hX2
  have f1 : ((Rat.floor X : ℤ) : ℚ) ≤ X := Rat.le_floor.1 (le_refl _)
  have f2 : X < ((Rat.floor X : ℤ) : ℚ) + 1 := by
    by_contra hc
    have h3 : ((Rat.floor X + 1 : ℤ) : ℚ) ≤ X := by
      push_cast
      exact not_lt.1 hc
    have h4 := Rat.le_floor.2 h3
    omega
  have f3 : (2 : ℤ) ^ 104 ≤ Rat.floor X := by
    apply Rat.le_floor.2
    have : (((2 : ℤ) ^ 104 : ℤ) : ℚ) = (2 : ℚ) ^ (104 : ℤ) := by norm_num
    rw [this]
    exact hX1
  have f4 : Rat.floor X < (2 : ℤ) ^ 106 := by
    have : ((Rat.floor X : ℤ) : ℚ) < (((2 : ℤ) ^ 106 : ℤ) : ℚ) := by
      have h106 : (((2 : ℤ) ^ 106 : ℤ) : ℚ) = (2 : ℚ) ^ (106 : ℤ) := by norm_num
      rw [h106]
      exact lt_of_le_of_lt f1 hX2
    exact_mod_cast this
  have hcast : ((Rat.floor X).toNat : ℤ) = Rat.floor X := Int.toNat_of_nonneg (by omega)
  obtain ⟨s1, s2⟩ := isqrt_spec (Rat.floor X).toNat
  generalize hs : F32.isqrt (Rat.floor X).toNat = s at s1 s2
  have n1 : (2 : ℕ) ^ 104 ≤ (Rat.floor X).toNat := by omega
  have n2 : (Rat.floor X).toNat < (2 : ℕ) ^ 106 := by omega
  have r1 : 2 ^ 52 ≤ s := by
    by_contra hc
    have : (s + 1) * (s + 1) ≤ 2 ^ 52 * 2 ^ 52 := Nat.mul_le_mul (by omega) (by omega)
    omega
  have r2 : s < 2 ^ 53 := by
    by_contra hc
    have : 2 ^ 53 * 2 ^ 53 ≤ s * s := Nat.mul_le_mul (by omega) (by omega)
    omega
  have q1 : (s : ℚ) * (s : ℚ) ≤ X := by
    have : ((s * s : ℕ) : ℚ) ≤ (((Rat.floor X).toNat : ℕ) : ℚ) := by exact_mod_cast s1
    have hc2 : (((Rat.floor X).toNat : ℕ) : ℚ) = ((Rat.floor X : ℤ) : ℚ) := by
      exact_mod_cast congrArg (fun z : ℤ => (z : ℚ)) hcast
    push_cast at this
    linarith
  have q2 : X < ((s : ℚ) + 1) * ((s : ℚ) + 1) := by
    have : (((Rat.floor X).toNat + 1 : ℕ) : ℚ) ≤ (((s + 1) * (s + 1) : ℕ) : ℚ) := by
      exact_mod_cast s2
    have hc2 : (((Rat.floor X).toNat : ℕ) : ℚ) = ((Rat.floor X : ℤ) : ℚ) := by
      exact_mod_cast congrArg (fun z : ℤ => (z : ℚ)) hcast
    push_cast at this
    linarith
  have hs1 : (1 : ℚ) ≤ (s : ℚ) := by
    have : 1 ≤ s := by omega
    exact_mod_cast this
  have hsq : F32.sqrt x
      = ((if X < ((s : ℚ) + 1 / 2) * ((s : ℚ) + 1 / 2) then s
          else if ((s : ℚ) + 1 / 2) * ((s : ℚ) + 1 / 2) < X then s + 1
          else if s % 2 = 0 then s else s + 1 : ℕ) : ℚ)
        * (2 : ℚ) ^ (-(52 - F32.ilog2 x / 2)) := by
    simp only [F32.sqrt, if_neg (not_le.2 hx), pow2_eq, hXX, hs]
  have r3 : s ≤ 2 ^ 53 := le_of_lt r2
  have r4 : 2 ^ 52 ≤ s + 1 := le_trans r1 (Nat.le_succ s)
  have r5 : s + 1 ≤ 2 ^ 53 := r2
  rw [hsq]
  split_ifs with c1 c2 c3
  · obtain ⟨a, b⟩ := nearest_root_low s X hs1 q1 (le_of_lt c1)
    exact ⟨s, rfl, a, b, r1, r3⟩
  · obtain ⟨a, b⟩ := nearest_root_high s X (le_of_lt c2) q2
    refine ⟨s + 1, rfl, ?_, ?_, r4, r5⟩
    · push_cast; exact a
    · push_cast; exact b
  · obtain ⟨a, b⟩ := nearest_root_low s X hs1 q1 (not_lt.1 c2)
    exact ⟨s, rfl, a, b, r1, r3⟩
  · obtain ⟨a, b⟩ := nearest_root_high s X (not_lt.1 c1) q2
    refine ⟨s + 1, rfl, ?_, ?_, r4, r5⟩
    · push_cast; exact a
    · push_cast; exact b

/-! ## Sphere test -/

/-- C7, amended: in exact real arithmetic, a ray with unit direction whose perpendicular
offset from the centre exceeds the radius (`dot V V - (dot direction V)^2 > radius^2`,
`V = center - origin`) is reported as a miss by `sphere_intersect`. The unit-length
hypothesis is the claim's; the proof does not need it. -/
theorem sphere_intersect_miss (center : Vec ℝ) (radius : ℝ) (ray_origin ray_direction : Vec ℝ)
    (normal point : Vec ℝ)
    (hunit : dot ray_direction ray_direction = 1)
    (hoff : dot (sphere_V center ray_origin) (sphere_V center ray_origin)
      - (dot ray_direction (sphere_V center ray_origin)) ^ 2 > radius ^ 2) :
    (sphere_intersect Real.sqrt center radius ray_origin ray_direction normal point).1
      = false := by
  have hdelta : ¬ (radius * radius
      + dot ray_direction (sphere_V center ray_origin)
        * dot ray_direction (sphere_V center ray_origin)
      - dot (sphere_V center ray_origin) (sphere_V center ray_origin) > 0) := by
    nlinarith [hoff, hunit]
  simp only [sphere_intersect]
  rw [if_neg hdelta]

/-- Witness of the amended C7: centre `(0,0,5)`, radius `1`, a ray from the origin along
the x axis. -/
theorem sphere_intersect_miss_witness :
    dot (Vec.mk (1 : ℝ) 0 0) (Vec.mk 1 0 0) = 1
    ∧ dot (sphere_V (Vec.mk (0 : ℝ) 0 5) (Vec.mk 0 0 0)) (sphere_V (Vec.mk 0 0 5) (Vec.mk 0 0 0))
        - (dot (Vec.mk 1 0 0) (sphere_V (Vec.mk 0 0 5) (Vec.mk 0 0 0))) ^ 2 > (1 : ℝ) ^ 2
    ∧ (sphere_intersect Real.sqrt (Vec.mk 0 0 5) 1 (Vec.mk 0 0 0) (Vec.mk 1 0 0)
        (Vec.mk 0 0 0) (Vec.mk 0 0 0)).1 = false :=
  ⟨by norm_num [dot], by norm_num [dot, sphere_V],
   sphere_intersect_miss (Vec.mk 0 0 5) 1 (Vec.mk 0 0 0) (Vec.mk 1 0 0) (Vec.mk 0 0 0)
    (Vec.mk 0 0 0) (by norm_num [dot]) (by norm_num [dot, sphere_V])⟩

/-- C7 as stated fails in `float` arithmetic: the sphere of centre
`(4096, 0.94868f, 0.94868f)` and radius `1.1f`, the ray from the origin along `(1,0,0)`.
The direction has length 1 and the squared offset `dot V V - (dot direction V)^2` is
about `1.79999`, above `radius^2`, about `1.21`. At line 43 the `float` sum
`radius*radius + proj*proj` is `2^24 + 2` and the `float` value of `dot(V,V)` is `2^24`,
so `delta = 2 > 0`, `d = 4096 - sqrt(2) > 0` and `sphere_intersect` returns true. -/
theorem float_sphere_false_hit :
    dot (Vec.mk (1 : ℚ) 0 0) (Vec.mk 1 0 0) = 1
    ∧ dot (sphere_V (Vec.mk 4096 (F32.f32 (94868 / 100000)) (F32.f32 (94868 / 100000)))
          (Vec.mk 0 0 0))
        (sphere_V (Vec.mk 4096 (F32.f32 (94868 / 100000)) (F32.f32 (94868 / 100000)))
          (Vec.mk 0 0 0))
      - (dot (Vec.mk 1 0 0)
          (sphere_V (Vec.mk 4096 (F32.f32 (94868 / 100000)) (F32.f32 (94868 / 100000)))
            (Vec.mk 0 0 0))) ^ 2
      > (F32.f32 (11 / 10)) ^ 2
    ∧ F32.dot
        (F32.sphere_V (Vec.mk 4096 (F32.f32 (94868 / 100000)) (F32.f32 (94868 / 100000)))
          (Vec.mk 0 0 0))
        (F32.sphere_V (Vec.mk 4096 (F32.f32 (94868 / 100000)) (F32.f32 (94868 / 100000)))
          (Vec.mk 0 0 0))
      = 16777216
    ∧ F32.sphere_delta (Vec.mk 4096 (F32.f32 (94868 / 100000)) (F32.f32 (94868 / 100000)))
        (F32.f32 (11 / 10)) (Vec.mk 0 0 0) (Vec.mk 1 0 0) = 2
    ∧ (F32.sphere_intersect
        (Vec.mk 4096 (F32.f32 (94868 / 100000)) (F32.f32 (94868 / 100000)))
        (F32.f32 (11 / 10)) (Vec.mk 0 0 0) (Vec.mk 1 0 0) (Vec.mk 0 0 0) (Vec.mk 0 0 0)).1
      = true := by
  decide!

/-- C8, amended: in exact real arithmetic, for a sphere of radius `> 0` and any direction,
`sphere_intersect` returns false when the ray origin is inside or on the sphere
(`distance2 origin center ≤ radius^2`) or the centre is behind the origin
(`dot direction (center - origin) ≤ 0`); a ray that starts on the surface is the case
`distance2 origin center = radius^2` of the first alternative. The hypothesis
`radius > 0` is the claim's; the proof does not need it. -/
theorem sphere_intersect_inside_or_behind (center : Vec ℝ) (radius : ℝ)
    (ray_origin ray_direction : Vec ℝ) (normal point : Vec ℝ)
    (hr : radius > 0)
    (h : distance2 ray_origin center ≤ radius ^ 2
      ∨ dot ray_direction (sphere_V center ray_origin) ≤ 0) :
    (sphere_intersect Real.sqrt center radius ray_origin ray_direction normal point).1
      = false := by
  simp only [sphere_intersect]
  split_ifs with hdelta hd
  · exfalso
    rcases h with h | h
    · have hVV : dot (sphere_V center ray_origin) (sphere_V center ray_origin)
          = distance2 ray_origin center := by
        simp only [dot, distance2, sphere_V]; ring
      have h1 := Real.abs_le_sqrt (x := dot ray_direction (sphere_V center ray_origin))
          (y := radius * radius
            + dot ray_direction (sphere_V center ray_origin)
              * dot ray_direction (sphere_V center ray_origin)
            - dot (sphere_V center ray_origin) (sphere_V center ray_origin))
          (by rw [hVV]; nlinarith)
      have h2 := le_abs_self (dot ray_direction (sphere_V center ray_origin))
      linarith
    · have h1 := Real.sqrt_nonneg (radius * radius
            + dot ray_direction (sphere_V center ray_origin)
              * dot ray_direction (sphere_V center ray_origin)
            - dot (sphere_V center ray_origin) (sphere_V center ray_origin))
      linarith
  · rfl
  · rfl

/-- Witness of the amended C8: a ray that starts on the surface of the unit sphere centred
at `(0,0,5)` and points at its centre. -/
theorem sphere_intersect_inside_or_behind_witness :
    (1 : ℝ) > 0
    ∧ distance2 (Vec.mk (0 : ℝ) 0 4) (Vec.mk 0 0 5) ≤ 1 ^ 2
    ∧ (sphere_intersect Real.sqrt (Vec.mk 0 0 5) 1 (Vec.mk 0 0 4) (Vec.mk 0 0 1)
        (Vec.mk 0 0 0) (Vec.mk 0 0 0)).1 = false :=
  ⟨by norm_num, by norm_num [distance2],
   sphere_intersect_inside_or_behind (Vec.mk 0 0 5) 1 (Vec.mk 0 0 4) (Vec.mk 0 0 1)
    (Vec.mk 0 0 0) (Vec.mk 0 0 0) (by norm_num) (Or.inl (by norm_num [distance2]))⟩

/-- C8 as stated fails in `float` arithmetic: the sphere of centre `(1,0,0)` and radius
1, the ray from `(0,0,0)`, a point of its surface (`distance2 origin center = 1`), along
`(0.0004f, 0, 1)`. At line 43 the `float` sum `radius*radius + proj*proj` is `1 + 2^-23`,
so `delta = 2^-23 > 0`, and `d = proj - sqrt(delta)` is `7522447 * 2^-37`, about
`5.47e-5 > 0`: `sphere_intersect` returns true, the ray hits again the sphere it starts
on. -/
theorem float_sphere_surface_rehit :
    (1 : ℚ) > 0
    ∧ distance2 (Vec.mk (0 : ℚ) 0 0) (Vec.mk 1 0 0) ≤ 1 ^ 2
    ∧ F32.sphere_delta (Vec.mk 1 0 0) 1 (Vec.mk 0 0 0) (Vec.mk (F32.f32 (4 / 10000)) 0 1)
      = 1 / 8388608
    ∧ F32.sphere_d (Vec.mk 1 0 0) 1 (Vec.mk 0 0 0) (Vec.mk (F32.f32 (4 / 10000)) 0 1)
      = 7522447 / 137438953472
    ∧ (F32.sphere_intersect (Vec.mk 1 0 0) 1 (Vec.mk 0 0 0)
        (Vec.mk (F32.f32 (4 / 10000)) 0 1) (Vec.mk 0 0 0) (Vec.mk 0 0 0)).1 = true := by
  decide!

/-- Algebra of the hit of a ray aimed at the centre: with `L` the distance from the origin
to the centre, the normal `(origin + (1/L) * (center - origin) * (L - r) - center)/r` has
squared length 1 and the hit point is at squared distance `r^2` from the centre. -/
theorem aimed_algebra (ox oy oz cx cy cz r L : ℝ) (hLpos : 0 < L) (hr : 0 < r)
    (hL : L * L = (cx - ox) * (cx - ox) + (cy - oy) * (cy - oy) + (cz - oz) * (cz - oz)) :
    ((ox + 1 / L * (cx - ox) * (L - r) - cx) / r) * ((ox + 1 / L * (cx - ox) * (L - r) - cx) / r)
      + ((oy + 1 / L * (cy - oy) * (L - r) - cy) / r)
        * ((oy + 1 / L * (cy - oy) * (L - r) - cy) / r)
      + ((oz + 1 / L * (cz - oz) * (L - r) - cz) / r)
        * ((oz + 1 / L * (cz - oz) * (L - r) - cz) / r)
      = 1
    ∧ (ox + 1 / L * (cx - ox) * (L - r) - cx) * (ox + 1 / L * (cx - ox) * (L - r) - cx)
      + (oy + 1 / L * (cy - oy) * (L - r) - cy) * (oy + 1 / L * (cy - oy) * (L - r) - cy)
      + (oz + 1 / L * (cz - oz) * (L - r) - cz) * (oz + 1 / L * (cz - oz) * (L - r) - cz)
      = r ^ 2 := by
  have hL0 : L ≠ 0 := ne_of_gt hLpos
  have hr0 : r ≠ 0 := ne_of_gt hr
  have ex : ox + 1 / L * (cx - ox) * (L - r) - cx = -((cx - ox) * r) / L := by
    field_simp; ring
  have ey : oy + 1 / L * (cy - oy) * (L - r) - cy = -((cy - oy) * r) / L := by
    field_simp; ring
  have ez : oz + 1 / L * (cz - oz) * (L - r) - cz = -((cz - oz) * r) / L := by
    field_simp; ring
  rw [ex, ey, ez]
  constructor
  · have h1 : -((cx - ox) * r) / L / r * (-((cx - ox) * r) / L / r)
        + -((cy - oy) * r) / L / r * (-((cy - oy) * r) / L / r)
        + -((cz - oz) * r) / L / r * (-((cz - oz) * r) / L / r)
        = ((cx - ox) * (cx - ox) + (cy - oy) * (cy - oy) + (cz - oz) * (cz - oz))
          / (L * L) := by
      field_simp; ring
    rw [h1, ← hL]
    field_simp
  · have h1 : -((cx - ox) * r) / L * (-((cx - ox) * r) / L)
        + -((cy - oy) * r) / L * (-((cy - oy) * r) / L)
        + -((cz - oz) * r) / L * (-((cz - oz) * r) / L)
        = ((cx - ox) * (cx - ox) + (cy - oy) * (cy - oy) + (cz - oz) * (cz - oz))
          / (L * L) * r ^ 2 := by
      field_simp; ring
    rw [h1, ← hL]
    field_simp

/-- The sphere test on a ray aimed at the centre from outside: `proj` is the distance `L`
to the centre, `delta` is `radius^2` and `d = L - radius > 0`, so the test succeeds; the
normal it writes has squared length 1 and the point it writes is on the sphere. -/
theorem aimed_sphere_hit (center : Vec ℝ) (radius : ℝ) (ray_origin normal point : Vec ℝ)
    (hr : radius > 0)
    (hout : dot (sphere_V center ray_origin) (sphere_V center ray_origin) > radius ^ 2) :
    (sphere_intersect Real.sqrt center radius ray_origin
        (normalize Real.sqrt (sphere_V center ray_origin)) normal point).1 = true
    ∧ dot
        (sphere_intersect Real.sqrt center radius ray_origin
          (normalize Real.sqrt (sphere_V center ray_origin)) normal point).2.1
        (sphere_intersect Real.sqrt center radius ray_origin
          (normalize Real.sqrt (sphere_V center ray_origin)) normal point).2.1 = 1
    ∧ distance2
        (sphere_intersect Real.sqrt center radius ray_origin
          (normalize Real.sqrt (sphere_V center ray_origin)) normal point).2.2 center
        = radius ^ 2 := by
  have hr2 : (0 : ℝ) < radius ^ 2 := by positivity
  have hD : 0 < dot (sphere_V center ray_origin) (sphere_V center ray_origin) :=
    lt_trans hr2 hout
  have hLpos : 0 < Real.sqrt (dot (sphere_V center ray_origin) (sphere_V center ray_origin)) :=
    Real.sqrt_pos.2 hD
  have hL : Real.sqrt (dot (sphere_V center ray_origin) (sphere_V center ray_origin))
      * Real.sqrt (dot (sphere_V center ray_origin) (sphere_V center ray_origin))
      = dot (sphere_V center ray_origin) (sphere_V center ray_origin) :=
    Real.mul_self_sqrt (le_of_lt hD)
  have hLr : radius
      < Real.sqrt (dot (sphere_V center ray_origin) (sphere_V center ray_origin)) := by
    by_contra hcon
    push_neg at hcon
    nlinarith
  have hproj : dot (normalize Real.sqrt (sphere_V center ray_origin))
      (sphere_V center ray_origin)
      = Real.sqrt (dot (sphere_V center ray_origin) (sphere_V center ray_origin)) := by
    have h3 : dot (normalize Real.sqrt (sphere_V center ray_origin))
        (sphere_V center ray_origin)
        = dot (sphere_V center ray_origin) (sphere_V center ray_origin)
          / Real.sqrt (dot (sphere_V center ray_origin) (sphere_V center ray_origin)) := by
      simp only [dot, normalize]; ring
    rw [h3]
    field_simp
  have hdelta : radius * radius
      + dot (normalize Real.sqrt (sphere_V center ray_origin)) (sphere_V center ray_origin)
        * dot (normalize Real.sqrt (sphere_V center ray_origin)) (sphere_V center ray_origin)
      - dot (sphere_V center ray_origin) (sphere_V center ray_origin) = radius * radius := by
    rw [hproj, hL]; ring
  have hsq : Real.sqrt (radius * radius) = radius := Real.sqrt_mul_self (le_of_lt hr)
  have hrr : radius * radius > 0 := by positivity
  have hd : Real.sqrt (dot (sphere_V center ray_origin) (sphere_V center ray_origin))
      - radius > 0 := by linarith
  have halg := aimed_algebra ray_origin.x ray_origin.y ray_origin.z center.x center.y center.z
    radius (Real.sqrt (dot (sphere_V center ray_origin) (sphere_V center ray_origin)))
    hLpos hr hL
  simp only [sphere_intersect]
  rw [hdelta, hproj, hsq, if_pos hrr, if_pos hd]
  exact ⟨rfl, halg.1, halg.2⟩

/-- C6: for a sphere of radius `> 0` and a ray whose origin is strictly outside it and
whose direction is the unit vector from the origin towards the centre (`center - origin`
normalised), `sphere_intersect` returns true, the returned normal has length 1 and the
returned point is on the sphere (`distance2 point center = radius^2`). -/
theorem sphere_intersect_aimed_at_center (center : Vec ℝ) (radius : ℝ) (ray_origin : Vec ℝ)
    (normal point : Vec ℝ)
    (hr : radius > 0)
    (hout : distance2 ray_origin center > radius ^ 2) :
    (sphere_intersect Real.sqrt center radius ray_origin
        (normalize Real.sqrt (sphere_V center ray_origin)) normal point).1 = true
    ∧ Real.sqrt (dot
        (sphere_intersect Real.sqrt center radius ray_origin
          (normalize Real.sqrt (sphere_V center ray_origin)) normal point).2.1
        (sphere_intersect Real.sqrt center radius ray_origin
          (normalize Real.sqrt (sphere_V center ray_origin)) normal point).2.1) = 1
    ∧ distance2
        (sphere_intersect Real.sqrt center radius ray_origin
          (normalize Real.sqrt (sphere_V center ray_origin)) normal point).2.2 center
        = radius ^ 2 := by
  have hVV : dot (sphere_V center ray_origin) (sphere_V center ray_origin)
      = distance2 ray_origin center := by
    simp only [dot, distance2, sphere_V]; ring
  obtain ⟨hres, hn, hq⟩ :=
    aimed_sphere_hit center radius ray_origin normal point hr (by rw [hVV]; exact hout)
  exact ⟨hres, by rw [hn, Real.sqrt_one], hq⟩

/-- Witness of C6: the unit sphere centred at `(0,0,5)` seen from the origin. -/
theorem sphere_intersect_aimed_at_center_witness :
    (1 : ℝ) > 0
    ∧ distance2 (Vec.mk (0 : ℝ) 0 0) (Vec.mk 0 0 5) > 1 ^ 2
    ∧ ((sphere_intersect Real.sqrt (Vec.mk 0 0 5) 1 (Vec.mk 0 0 0)
          (normalize Real.sqrt (sphere_V (Vec.mk 0 0 5) (Vec.mk 0 0 0)))
          (Vec.mk 0 0 0) (Vec.mk 0 0 0)).1 = true
      ∧ Real.sqrt (dot
          (sphere_intersect Real.sqrt (Vec.mk 0 0 5) 1 (Vec.mk 0 0 0)
            (normalize Real.sqrt (sphere_V (Vec.mk 0 0 5) (Vec.mk 0 0 0)))
            (Vec.mk 0 0 0) (Vec.mk 0 0 0)).2.1
          (sphere_intersect Real.sqrt (Vec.mk 0 0 5) 1 (Vec.mk 0 0 0)
            (normalize Real.sqrt (sphere_V (Vec.mk 0 0 5) (Vec.mk 0 0 0)))
            (Vec.mk 0 0 0) (Vec.mk 0 0 0)).2.1) = 1
      ∧ distance2
          (sphere_intersect Real.sqrt (Vec.mk 0 0 5) 1 (Vec.mk 0 0 0)
            (normalize Real.sqrt (sphere_V (Vec.mk 0 0 5) (Vec.mk 0 0 0)))
            (Vec.mk 0 0 0) (Vec.mk 0 0 0)).2.2 (Vec.mk 0 0 5) = 1 ^ 2) :=
  ⟨by norm_num, by norm_num [distance2],
   sphere_intersect_aimed_at_center (Vec.mk 0 0 5) 1 (Vec.mk 0 0 0) (Vec.mk 0 0 0)
    (Vec.mk 0 0 0) (by norm_num) (by norm_num [distance2])⟩

/-! ## Box test -/

/-- On an axis where the origin is strictly between the two faces, the parameter `d` of
line 27 is not positive, so the acceptance test of lines 29-30 fails. -/
theorem box_accept_inside (bmin bmax ray_origin ray_direction : Vec ℝ) (i : Nat)
    (hlo : bmin.get i < ray_origin.get i) (hhi : ray_origin.get i < bmax.get i) :
    box_accept bmin bmax ray_origin ray_direction i = false := by
  have hd : ¬ (box_d bmin bmax ray_origin ray_direction i > 0) := by
    unfold box_d
    split_ifs with hpos
    · have : (bmin.get i - ray_origin.get i) / ray_direction.get i < 0 :=
        div_neg_of_neg_of_pos (by linarith) hpos
      linarith
    · have : (bmax.get i - ray_origin.get i) / ray_direction.get i ≤ 0 :=
        div_nonpos_of_nonneg_of_nonpos (by linarith) (not_lt.1 hpos)
      linarith
  simp [box_accept, hd]

/-- C10: for a box with `bmin[i] < bmax[i]` on all axes and a ray origin strictly inside
it, `box_intersect` returns false for every direction. The hypothesis `hbox` is the
claim's; it follows from `hin`. -/
theorem box_intersect_from_inside (bmin bmax ray_origin ray_direction normal point : Vec ℝ)
    (hbox : bmin.x < bmax.x ∧ bmin.y < bmax.y ∧ bmin.z < bmax.z)
    (hin : (bmin.x < ray_origin.x ∧ ray_origin.x < bmax.x)
      ∧ (bmin.y < ray_origin.y ∧ ray_origin.y < bmax.y)
      ∧ (bmin.z < ray_origin.z ∧ ray_origin.z < bmax.z)) :
    (box_intersect bmin bmax ray_origin ray_direction normal point).1 = false := by
  have h0 := box_accept_inside bmin bmax ray_origin ray_direction 0
    (by simpa [Vec.get] using hin.1.1) (by simpa [Vec.get] using hin.1.2)
  have h1 := box_accept_inside bmin bmax ray_origin ray_direction 1
    (by simpa [Vec.get] using hin.2.1.1) (by simpa [Vec.get] using hin.2.1.2)
  have h2 := box_accept_inside bmin bmax ray_origin ray_direction 2
    (by simpa [Vec.get] using hin.2.2.1) (by simpa [Vec.get] using hin.2.2.2)
  simp only [box_intersect, box_loop, h0, h1, h2, Bool.false_eq_true, if_false]
  split_ifs <;> rfl

/-- Witness of C10: the box `O[3]` of the scene and a ray from its centre `(5,-1,12)`. -/
theorem box_intersect_from_inside_witness :
    ((3 : ℝ) < 7 ∧ (-4 : ℝ) < 2 ∧ (11 : ℝ) < 13)
    ∧ (((3 : ℝ) < 5 ∧ (5 : ℝ) < 7) ∧ ((-4 : ℝ) < -1 ∧ (-1 : ℝ) < 2)
        ∧ ((11 : ℝ) < 12 ∧ (12 : ℝ) < 13))
    ∧ (box_intersect (Vec.mk (3 : ℝ) (-4) 11) (Vec.mk 7 2 13) (Vec.mk 5 (-1) 12)
        (Vec.mk 1 0 0) (Vec.mk 0 0 0) (Vec.mk 0 0 0)).1 = false :=
  ⟨by norm_num, by norm_num,
   box_intersect_from_inside (Vec.mk 3 (-4) 11) (Vec.mk 7 2 13) (Vec.mk 5 (-1) 12)
    (Vec.mk 1 0 0) (Vec.mk 0 0 0) (Vec.mk 0 0 0) (by norm_num) (by norm_num)⟩

/-- The coordinate `k` of the candidate point of axis `i` (line 28). -/
theorem box_point_get (bmin bmax ray_origin ray_direction : Vec ℝ) (i k : Nat) :
    (box_point bmin bmax ray_origin ray_direction i).get k
      = ray_origin.get k + ray_direction.get k * box_d bmin bmax ray_origin ray_direction i := by
  unfold box_point Vec.get
  split_ifs <;> rfl

/-- If the plane parameter `a` of an axis is positive and the point at parameter `b` is
strictly between the two faces of that axis, then `a < b`: the ray meets the tested face
before it reaches `b`. -/
theorem box_face_before (o r lo hi a b : ℝ)
    (ha : a = ((if r > 0 then lo else hi) - o) / r) (hapos : a > 0)
    (hlo : o + r * b > lo) (hhi : o + r * b < hi) : a < b := by
  have hr0 : r ≠ 0 := by
    rintro rfl
    simp at ha
    linarith
  have hmul : r * a = (if r > 0 then lo else hi) - o := by
    rw [ha]; field_simp
  by_contra hcon
  push_neg at hcon
  by_cases hpos : r > 0
  · rw [if_pos hpos] at hmul
    nlinarith
  · rw [if_neg hpos] at hmul
    have hneg : r < 0 := lt_of_le_of_ne (not_lt.1 hpos) hr0
    nlinarith

/-- What the acceptance test of axis `i` says about another axis `j`: `d > 0` and the
coordinate `j` of the candidate point is strictly inside the box extent. -/
theorem box_accept_other (bmin bmax ray_origin ray_direction : Vec ℝ) (i j : Nat)
    (hj : j = (i + 1) % 3 ∨ j = (i + 2) % 3)
    (h : box_accept bmin bmax ray_origin ray_direction i = true) :
    box_d bmin bmax ray_origin ray_direction i > 0
    ∧ ray_origin.get j + ray_direction.get j * box_d bmin bmax ray_origin ray_direction i
        > bmin.get j
    ∧ ray_origin.get j + ray_direction.get j * box_d bmin bmax ray_origin ray_direction i
        < bmax.get j := by
  simp only [box_accept, decide_eq_true_eq, box_point_get] at h
  rcases hj with hj | hj
  · rw [hj]; exact ⟨h.1, h.2.1, h.2.2.1⟩
  · rw [hj]; exact ⟨h.1, h.2.2.2.1, h.2.2.2.2⟩

/-- At most one axis passes the acceptance test of lines 29-30. -/
theorem box_accept_unique (bmin bmax ray_origin ray_direction : Vec ℝ) (i j : Nat)
    (hi : i < 3) (hj : j < 3)
    (hai : box_accept bmin bmax ray_origin ray_direction i = true)
    (haj : box_accept bmin bmax ray_origin ray_direction j = true) : i = j := by
  by_contra hne
  have hji : j = (i + 1) % 3 ∨ j = (i + 2) % 3 := by omega
  have hij : i = (j + 1) % 3 ∨ i = (j + 2) % 3 := by omega
  obtain ⟨hdi, hilo, hihi⟩ := box_accept_other bmin bmax ray_origin ray_direction i j hji hai
  obtain ⟨hdj, hjlo, hjhi⟩ := box_accept_other bmin bmax ray_origin ray_direction j i hij haj
  have h1 := box_face_before (ray_origin.get i) (ray_direction.get i) (bmin.get i)
    (bmax.get i) (box_d bmin bmax ray_origin ray_direction i)
    (box_d bmin bmax ray_origin ray_direction j) rfl hdi hjlo hjhi
  have h2 := box_face_before (ray_origin.get j) (ray_direction.get j) (bmin.get j)
    (bmax.get j) (box_d bmin bmax ray_origin ray_direction j)
    (box_d bmin bmax ray_origin ray_direction i) rfl hdj hilo hihi
  linarith

/-- When the loop of `box_intersect` returns true, it returns the normal and point of an
axis of its list that is not skipped and passes the acceptance test. -/
theorem box_loop_true (bmin bmax ray_origin ray_direction : Vec ℝ) :
    ∀ (l : List Nat) (normal point : Vec ℝ),
      (box_loop bmin bmax ray_origin ray_direction l normal point).1 = true →
      ∃ i ∈ l, ¬ (|ray_direction.get i| < 1 / 1000)
        ∧ box_accept bmin bmax ray_origin ray_direction i = true
        ∧ box_loop bmin bmax ray_origin ray_direction l normal point
          = (true, box_normal ray_direction i,
              box_point bmin bmax ray_origin ray_direction i) := by
  intro l
  induction l with
  | nil => intro normal point h; simp [box_loop] at h
  | cons a rest ih =>
    intro normal point h
    simp only [box_loop] at h ⊢
    by_cases hskip : |ray_direction.get a| < 1 / 1000
    · rw [if_pos hskip] at h ⊢
      obtain ⟨i, hi, h1, h2, h3⟩ := ih normal point h
      exact ⟨i, List.mem_cons_of_mem a hi, h1, h2, h3⟩
    · rw [if_neg hskip] at h ⊢
      by_cases hacc : box_accept bmin bmax ray_origin ray_direction a = true
      · rw [if_pos hacc]
        exact ⟨a, List.mem_cons_self a rest, hskip, hacc, rfl⟩
      · rw [if_neg hacc] at h ⊢
        obtain ⟨i, hi, h1, h2, h3⟩ := ih _ _ h
        exact ⟨i, List.mem_cons_of_mem a hi, h1, h2, h3⟩

/-- The loop of `box_intersect` returns true as soon as its list holds an axis that is not
skipped and passes the acceptance test. -/
theorem box_loop_of_mem (bmin bmax ray_origin ray_direction : Vec ℝ) :
    ∀ (l : List Nat) (normal point : Vec ℝ) (i : Nat), i ∈ l →
      ¬ (|ray_direction.get i| < 1 / 1000) →
      box_accept bmin bmax ray_origin ray_direction i = true →
      (box_loop bmin bmax ray_origin ray_direction l normal point).1 = true := by
  intro l
  induction l with
  | nil => intro normal point i hi; simp at hi
  | cons a rest ih =>
    intro normal point i hi hskip hacc
    simp only [box_loop]
    by_cases hs : |ray_direction.get a| < 1 / 1000
    · rw [if_pos hs]
      rcases List.mem_cons.1 hi with rfl | hmem
      · exact absurd hs hskip
      · exact ih normal point i hmem hskip hacc
    · rw [if_neg hs]
      by_cases ha : box_accept bmin bmax ray_origin ray_direction a = true
      · rw [if_pos ha]
      · rw [if_neg ha]
        rcases List.mem_cons.1 hi with rfl | hmem
        · exact absurd hacc ha
        · exact ih _ _ i hmem hskip hacc

/-- C9, amended: in exact real arithmetic, for a box with `bmin[i] < bmax[i]` on all axes
and every ray, at most one of the three axes passes the acceptance test of
`box_intersect` (`d > 0` and the other two coordinates strictly inside the box extent);
hence visiting the axes in any order `order` (a permutation of x, y, z) returns the same
flag and, on a hit, the same normal and point as the source's order. The hypothesis on
the box is the claim's; the proof does not need it. -/
theorem box_intersect_single_candidate (bmin bmax ray_origin ray_direction : Vec ℝ)
    (hbox : bmin.x < bmax.x ∧ bmin.y < bmax.y ∧ bmin.z < bmax.z) :
    (∀ i j : Nat, i < 3 → j < 3 →
        box_accept bmin bmax ray_origin ray_direction i = true →
        box_accept bmin bmax ray_origin ray_direction j = true → i = j)
    ∧ ∀ (order : List Nat) (normal point : Vec ℝ), List.Perm order [0, 1, 2] →
        (box_loop bmin bmax ray_origin ray_direction order normal point).1
          = (box_intersect bmin bmax ray_origin ray_direction normal point).1
        ∧ ((box_intersect bmin bmax ray_origin ray_direction normal point).1 = true →
            box_loop bmin bmax ray_origin ray_direction order normal point
              = box_intersect bmin bmax ray_origin ray_direction normal point) := by
  refine ⟨box_accept_unique bmin bmax ray_origin ray_direction, ?_⟩
  intro order normal point hperm
  have hlt : ∀ i, i ∈ ([0, 1, 2] : List Nat) → i < 3 := by
    intro i hi
    simp at hi
    omega
  have key : (box_intersect bmin bmax ray_origin ray_direction normal point).1 = true →
      box_loop bmin bmax ray_origin ray_direction order normal point
        = box_intersect bmin bmax ray_origin ray_direction normal point := by
    intro h
    obtain ⟨i, hi, hsi, hai, hri⟩ :=
      box_loop_true bmin bmax ray_origin ray_direction [0, 1, 2] normal point h
    have ho := box_loop_of_mem bmin bmax ray_origin ray_direction order normal point i
      (hperm.symm.subset hi) hsi hai
    obtain ⟨j, hj, _, haj, hrj⟩ :=
      box_loop_true bmin bmax ray_origin ray_direction order normal point ho
    have hij : i = j := box_accept_unique bmin bmax ray_origin ray_direction i j
      (hlt i hi) (hlt j (hperm.subset hj)) hai haj
    rw [hrj, box_intersect, hri, hij]
  refine ⟨?_, key⟩
  cases hb : (box_intersect bmin bmax ray_origin ray_direction normal point).1 with
  | true => rw [key hb, hb]
  | false =>
    cases ho : (box_loop bmin bmax ray_origin ray_direction order normal point).1 with
    | false => rfl
    | true =>
      obtain ⟨j, hj, hsj, haj, _⟩ :=
        box_loop_true bmin bmax ray_origin ray_direction order normal point ho
      have := box_loop_of_mem bmin bmax ray_origin ray_direction [0, 1, 2] normal point j
        (hperm.subset hj) hsj haj
      rw [box_intersect] at hb
      rw [hb] at this
      exact absurd this (by simp)

/-- Witness of the amended C9: the box `O[3]` of the scene, a ray from `(6,0,20)` along
`-z`, and the axes visited in the order z, y, x. -/
theorem box_intersect_single_candidate_witness :
    ((3 : ℝ) < 7 ∧ (-4 : ℝ) < 2 ∧ (11 : ℝ) < 13)
    ∧ (box_loop (Vec.mk (3 : ℝ) (-4) 11) (Vec.mk 7 2 13) (Vec.mk 6 0 20) (Vec.mk 0 0 (-1))
          [2, 1, 0] (Vec.mk 0 0 0) (Vec.mk 0 0 0)).1
        = (box_intersect (Vec.mk (3 : ℝ) (-4) 11) (Vec.mk 7 2 13) (Vec.mk 6 0 20)
            (Vec.mk 0 0 (-1)) (Vec.mk 0 0 0) (Vec.mk 0 0 0)).1 :=
  ⟨by norm_num,
   ((box_intersect_single_candidate (Vec.mk 3 (-4) 11) (Vec.mk 7 2 13) (Vec.mk 6 0 20)
      (Vec.mk 0 0 (-1)) (by norm_num)).2 [2, 1, 0] (Vec.mk 0 0 0) (Vec.mk 0 0 0)
      (by decide)).1⟩

/-- C9 as stated fails in `float` arithmetic: the box `O[3]` of the scene, from `(3,-4,11)`
to `(7,2,13)`, and the ray from the origin along `(5.25, 0, 19.25)`, which passes through
the edge `x = 3, z = 11` of the box. On the axes 0 and 2 the `float` value of `d` at line
27 is `9586981 * 2^-24`, just above `4/7`, and the point of line 28 is
`(3.0000002, 0, 11.000001)`: both axes pass the test of lines 29-30. The source's order
returns the normal `(-1,0,0)`, the order z, y, x returns `(0,0,-1)`. -/
theorem float_box_two_axes_pass :
    ((3 : ℚ) < 7 ∧ (-4 : ℚ) < 2 ∧ (11 : ℚ) < 13)
    ∧ F32.box_accept (Vec.mk 3 (-4) 11) (Vec.mk 7 2 13) (Vec.mk 0 0 0)
        (Vec.mk (21 / 4) 0 (77 / 4)) 0 = true
    ∧ F32.box_accept (Vec.mk 3 (-4) 11) (Vec.mk 7 2 13) (Vec.mk 0 0 0)
        (Vec.mk (21 / 4) 0 (77 / 4)) 2 = true
    ∧ F32.box_intersect (Vec.mk 3 (-4) 11) (Vec.mk 7 2 13) (Vec.mk 0 0 0)
        (Vec.mk (21 / 4) 0 (77 / 4)) (Vec.mk 0 0 0) (Vec.mk 0 0 0)
      = (true, Vec.mk (-1) 0 0, Vec.mk (12582913 / 4194304) 0 (11534337 / 1048576))
    ∧ F32.box_loop (Vec.mk 3 (-4) 11) (Vec.mk 7 2 13) (Vec.mk 0 0 0)
        (Vec.mk (21 / 4) 0 (77 / 4)) [2, 1, 0] (Vec.mk 0 0 0) (Vec.mk 0 0 0)
      = (true, Vec.mk 0 0 (-1), Vec.mk (12582913 / 4194304) 0 (11534337 / 1048576)) := by
  decide!

/-! ## Scene -/

/-- The square root of 4 is 2. -/
theorem sqrt_four : Real.sqrt 4 = 2 := by
  rw [show (4 : ℝ) = 2 * 2 by norm_num]
  exact Real.sqrt_mul_self (by norm_num)

/-- The square root of 64 is 8. -/
theorem sqrt_sixty_four : Real.sqrt 64 = 8 := by
  rw [show (64 : ℝ) = 8 * 8 by norm_num]
  exact Real.sqrt_mul_self (by norm_num)

/-- C1, evaluated at the ray from `(6,0,20)` along `(0,0,-1)`. The ray hits the box `O[3]`
at `(6,0,13)`, squared distance 49, and behind it the sphere `O[0]` at `(6,0,9)`, squared
distance 121, so the nearest primitive has colour `(0.4,0.7,1)`. `scene_intersect` passes
`p, N` where the primitive tests expect `normal, point`, measures `distance2` to the
normal `(0,0,1)` of both hits (397 for both) and returns the colour `(1,0.4,0.6)` of
`O[0]`. -/
theorem scene_intersect_not_nearest :
    scene_intersect Real.sqrt (Vec.mk 6 0 20) (Vec.mk 0 0 (-1)) (Vec.mk 0 0 0) (Vec.mk 0 0 0)
        (Vec.mk 0 0 0) (Vec.mk 0 0 0) (Vec.mk 0 0 0)
      = (true, Vec.mk 0 0 1, Vec.mk 6 0 9, Vec.mk 1 (2 / 5) (3 / 5))
    ∧ spec_nearest_color Real.sqrt (Vec.mk 6 0 20) (Vec.mk 0 0 (-1)) O
      = some (49, Vec.mk (2 / 5) (7 / 10) 1) := by
  constructor
  · simp [scene_intersect, scene_loop, scene_step, obj_intersect, O, sphere_intersect,
      sphere_V, dot, distance2, box_intersect, box_loop, box_accept, box_d, box_point,
      box_normal, Vec.get, Vec.set]
    norm_num [sqrt_four]
  · simp [spec_nearest_color, spec_hit_point, O, sphere_intersect,
      sphere_V, dot, distance2, box_intersect, box_loop, box_accept, box_d, box_point,
      box_normal, Vec.get, Vec.set]
    norm_num [sqrt_four]

/-- C2, evaluated at the ray from `(6,0,0)` along `(0,0,1)`. `sphere_intersect` on `O[0]`
writes the normal `(0,0,-1)` and the point `(6,0,5)`; `scene_intersect` returns them
exchanged: its `point` is `(0,0,-1)`, which is not on the ray, and its `normal` is
`(6,0,5)`, which is not of unit length. -/
theorem scene_intersect_point_normal_exchanged :
    scene_intersect Real.sqrt (Vec.mk 6 0 0) (Vec.mk 0 0 1) (Vec.mk 0 0 0) (Vec.mk 0 0 0)
        (Vec.mk 0 0 0) (Vec.mk 0 0 0) (Vec.mk 0 0 0)
      = (true, Vec.mk 0 0 (-1), Vec.mk 6 0 5, Vec.mk 1 (2 / 5) (3 / 5))
    ∧ sphere_intersect Real.sqrt (Vec.mk 6 0 7) 2 (Vec.mk 6 0 0) (Vec.mk 0 0 1)
        (Vec.mk 0 0 0) (Vec.mk 0 0 0)
      = (true, Vec.mk 0 0 (-1), Vec.mk 6 0 5)
    ∧ (¬ ∃ d : ℝ, d > 0 ∧ Vec.mk (0 : ℝ) 0 (-1) = Vec.mk (6 + 0 * d) (0 + 0 * d) (0 + 1 * d))
    ∧ dot (Vec.mk (6 : ℝ) 0 5) (Vec.mk 6 0 5) = 61 := by
  refine ⟨?_, ?_, ?_, ?_⟩
  · simp [scene_intersect, scene_loop, scene_step, obj_intersect, O, sphere_intersect,
      sphere_V, dot, distance2, box_intersect, box_loop, box_accept, box_d, box_point,
      box_normal, Vec.get, Vec.set]
    norm_num [sqrt_four]
  · simp [sphere_intersect, sphere_V, dot]
    norm_num [sqrt_four]
  · rintro ⟨d, _, h⟩
    have hx := congrArg Vec.x h
    norm_num at hx
  · norm_num [dot]

/-- An iteration of the loop of `scene_intersect` whose primitive test fails leaves
`nearest`, `scene_has_isect` and the three output buffers as they were. -/
theorem scene_step_miss (sqrt : ℝ → ℝ) (ray_origin ray_direction : Vec ℝ)
    (s : SceneState ℝ) (o : Obj ℝ)
    (h : (obj_intersect sqrt ray_origin ray_direction o s.p s.N).1 = false) :
    (scene_step sqrt ray_origin ray_direction s o).nearest = s.nearest
    ∧ (scene_step sqrt ray_origin ray_direction s o).scene_has_isect = s.scene_has_isect
    ∧ (scene_step sqrt ray_origin ray_direction s o).color = s.color := by
  simp [scene_step, h]

/-- An iteration whose primitive test succeeds with `d < nearest` (line 81) records `d`
and the colour of the primitive. -/
theorem scene_step_hit (sqrt : ℝ → ℝ) (ray_origin ray_direction : Vec ℝ)
    (s : SceneState ℝ) (o : Obj ℝ)
    (h : (obj_intersect sqrt ray_origin ray_direction o s.p s.N).1 = true)
    (hd : distance2 ray_origin (obj_intersect sqrt ray_origin ray_direction o s.p s.N).2.1
      < s.nearest) :
    (scene_step sqrt ray_origin ray_direction s o).nearest
      = distance2 ray_origin (obj_intersect sqrt ray_origin ray_direction o s.p s.N).2.1
    ∧ (scene_step sqrt ray_origin ray_direction s o).scene_has_isect = true
    ∧ (scene_step sqrt ray_origin ray_direction s o).color = o.color := by
  simp [scene_step, h, hd]

/-- An iteration that starts with `scene_has_isect` set and whose primitive test, if it
succeeds, does not give `d < nearest`, keeps `nearest`, the flag and the colour. -/
theorem scene_step_keep (sqrt : ℝ → ℝ) (ray_origin ray_direction : Vec ℝ)
    (s : SceneState ℝ) (o : Obj ℝ) (hs : s.scene_has_isect = true)
    (hd : (obj_intersect sqrt ray_origin ray_direction o s.p s.N).1 = true →
      ¬ distance2 ray_origin (obj_intersect sqrt ray_origin ray_direction o s.p s.N).2.1
        < s.nearest) :
    (scene_step sqrt ray_origin ray_direction s o).nearest = s.nearest
    ∧ (scene_step sqrt ray_origin ray_direction s o).scene_has_isect = true
    ∧ (scene_step sqrt ray_origin ray_direction s o).color = s.color := by
  cases h : (obj_intersect sqrt ray_origin ray_direction o s.p s.N).1 with
  | false => simp [scene_step, h, hs]
  | true => simp [scene_step, h, hd h]

/-- On an object of non-zero radius the loop calls the sphere test (line 76). -/
theorem obj_intersect_sphere (sqrt : ℝ → ℝ) (ray_origin ray_direction : Vec ℝ) (o : Obj ℝ)
    (p N : Vec ℝ) (h : o.radius ≠ 0) :
    obj_intersect sqrt ray_origin ray_direction o p N
      = sphere_intersect sqrt o.p1 o.radius ray_origin ray_direction p N :=
  if_neg h

/-- On an object of radius zero the loop calls the box test (line 74). -/
theorem obj_intersect_box (sqrt : ℝ → ℝ) (ray_origin ray_direction : Vec ℝ) (o : Obj ℝ)
    (p N : Vec ℝ) (h : o.radius = 0) :
    obj_intersect sqrt ray_origin ray_direction o p N
      = box_intersect o.p1 o.p2 ray_origin ray_direction p N :=
  if_pos h

/-- The sphere test fails when `delta ≤ 0` (line 44). -/
theorem sphere_intersect_delta_nonpos (center : Vec ℝ) (radius : ℝ)
    (ray_origin ray_direction normal point : Vec ℝ)
    (h : radius * radius
      + dot ray_direction (sphere_V center ray_origin)
        * dot ray_direction (sphere_V center ray_origin)
      - dot (sphere_V center ray_origin) (sphere_V center ray_origin) ≤ 0) :
    (sphere_intersect Real.sqrt center radius ray_origin ray_direction normal point).1
      = false := by
  simp only [sphere_intersect]
  rw [if_neg (not_lt.2 h)]

/-- The normal written by a successful box test is a signed axis vector: its squared
distance from the zero vector is 1. -/
theorem box_intersect_normal_from_zero (bmin bmax ray_direction normal point : Vec ℝ)
    (h : (box_intersect bmin bmax (Vec.mk 0 0 0) ray_direction normal point).1 = true) :
    distance2 (Vec.mk 0 0 0)
      (box_intersect bmin bmax (Vec.mk 0 0 0) ray_direction normal point).2.1 = 1 := by
  obtain ⟨i, _, _, _, hres⟩ :=
    box_loop_true bmin bmax (Vec.mk 0 0 0) ray_direction [0, 1, 2] normal point h
  rw [box_intersect, hres]
  simp only [box_normal, Vec.set, distance2]
  split_ifs <;> norm_num

/-- The squared length of `(2.8, 1.1, 7)` is `58.05`. -/
theorem dot_O1_center :
    dot (Vec.mk (14 / 5 : ℝ) (11 / 10) 7) (Vec.mk (14 / 5) (11 / 10) 7) = 1161 / 20 := by
  norm_num [dot]

/-- The ray from the origin towards the centre of `O[1]` misses the sphere `O[0]`. -/
theorem aimed_O1_misses_O0 (normal point : Vec ℝ) :
    (sphere_intersect Real.sqrt (Vec.mk 6 0 7) 2 (Vec.mk 0 0 0)
      (normalize Real.sqrt (Vec.mk (14 / 5) (11 / 10) 7)) normal point).1 = false := by
  apply sphere_intersect_delta_nonpos
  have hpos : (0 : ℝ) < 1161 / 20 := by norm_num
  have hL := Real.mul_self_sqrt (le_of_lt hpos)
  have hLpos := Real.sqrt_pos.2 hpos
  have hproj : dot (normalize Real.sqrt (Vec.mk (14 / 5) (11 / 10) 7))
      (sphere_V (Vec.mk 6 0 7) (Vec.mk 0 0 0))
      * dot (normalize Real.sqrt (Vec.mk (14 / 5) (11 / 10) 7))
        (sphere_V (Vec.mk 6 0 7) (Vec.mk 0 0 0))
      = (329 / 5) ^ 2 / (Real.sqrt (1161 / 20) * Real.sqrt (1161 / 20)) := by
    simp only [normalize, dot_O1_center]
    simp only [dot, sphere_V]
    generalize Real.sqrt (1161 / 20) = L at hLpos
    have hL0 : L ≠ 0 := ne_of_gt hLpos
    field_simp
    ring
  rw [hproj, hL]
  norm_num [dot, sphere_V]

/-- The ray from the origin towards the centre of `O[1]` misses the lamp `O[2]`. -/
theorem aimed_O1_misses_O2 (normal point : Vec ℝ) :
    (sphere_intersect Real.sqrt (Vec.mk 5 (-10) (-7)) 8 (Vec.mk 0 0 0)
      (normalize Real.sqrt (Vec.mk (14 / 5) (11 / 10) 7)) normal point).1 = false := by
  apply sphere_intersect_delta_nonpos
  have hpos : (0 : ℝ) < 1161 / 20 := by norm_num
  have hL := Real.mul_self_sqrt (le_of_lt hpos)
  have hLpos := Real.sqrt_pos.2 hpos
  have hproj : dot (normalize Real.sqrt (Vec.mk (14 / 5) (11 / 10) 7))
      (sphere_V (Vec.mk 5 (-10) (-7)) (Vec.mk 0 0 0))
      * dot (normalize Real.sqrt (Vec.mk (14 / 5) (11 / 10) 7))
        (sphere_V (Vec.mk 5 (-10) (-7)) (Vec.mk 0 0 0))
      = 46 ^ 2 / (Real.sqrt (1161 / 20) * Real.sqrt (1161 / 20)) := by
    simp only [normalize, dot_O1_center]
    simp only [dot, sphere_V]
    generalize Real.sqrt (1161 / 20) = L at hLpos
    have hL0 : L ≠ 0 := ne_of_gt hLpos
    field_simp
    ring
  rw [hproj, hL]
  norm_num [dot, sphere_V]

/-- The ray from the origin towards the centre of `O[1]` hits `O[1]`, and the normal that
the sphere test writes is at squared distance 1 from the origin. -/
theorem aimed_O1_hits_O1 (normal point : Vec ℝ) :
    (sphere_intersect Real.sqrt (Vec.mk (14 / 5) (11 / 10) 7) (9 / 10) (Vec.mk 0 0 0)
      (normalize Real.sqrt (Vec.mk (14 / 5) (11 / 10) 7)) normal point).1 = true
    ∧ distance2 (Vec.mk 0 0 0)
      (sphere_intersect Real.sqrt (Vec.mk (14 / 5) (11 / 10) 7) (9 / 10) (Vec.mk 0 0 0)
        (normalize Real.sqrt (Vec.mk (14 / 5) (11 / 10) 7)) normal point).2.1 = 1 := by
  have hV : sphere_V (Vec.mk (14 / 5 : ℝ) (11 / 10) 7) (Vec.mk 0 0 0)
      = Vec.mk (14 / 5) (11 / 10) 7 := by
    simp [sphere_V]
  have h := aimed_sphere_hit (Vec.mk (14 / 5) (11 / 10) 7) (9 / 10) (Vec.mk 0 0 0)
    normal point (by norm_num) (by rw [hV, dot_O1_center]; norm_num)
  rw [hV] at h
  refine ⟨h.1, ?_⟩
  rw [← h.2.1]
  simp [distance2, dot]

/-- In exact arithmetic, for the ray from `(0,0,0)` with direction `(2.8,1.1,7)`
normalised, `scene_intersect` over the table `O` returns true and the colour
`(1.0, 1.0, 0.3)` of `O[1]`, whatever the buffers hold at the call: the three primitives
that the ray hits (`O[1]`, `O[3]`, `O[4]`) all give `d = 1` at line 80, and `O[1]` is kept
because it comes first. The result rests on this exact tie. -/
theorem scene_intersect_aimed_at_O1 (point normal color p N : Vec ℝ) :
    (scene_intersect Real.sqrt (Vec.mk 0 0 0)
        (normalize Real.sqrt (Vec.mk (14 / 5) (11 / 10) 7)) point normal color p N).1 = true
    ∧ (scene_intersect Real.sqrt (Vec.mk 0 0 0)
        (normalize Real.sqrt (Vec.mk (14 / 5) (11 / 10) 7)) point normal color p N).2.2.2
      = Vec.mk 1 1 (3 / 10) := by
  simp only [scene_intersect, scene_loop, O, List.foldl]
  generalize hs0 : (⟨10 ^ 30, p, N, false, point, normal, color⟩ : SceneState ℝ) = s0
  have hn0 : s0.nearest = 10 ^ 30 := by rw [← hs0]
  -- O[0]: missed
  obtain ⟨hn1, _, _⟩ := scene_step_miss Real.sqrt (Vec.mk 0 0 0)
    (normalize Real.sqrt (Vec.mk (14 / 5) (11 / 10) 7)) s0
    ⟨⟨1, 2 / 5, 3 / 5⟩, ⟨6, 0, 7⟩, ⟨0, 0, 0⟩, 2⟩
    (by rw [obj_intersect_sphere _ _ _ _ _ _ (by norm_num)]; exact aimed_O1_misses_O0 _ _)
  generalize scene_step Real.sqrt (Vec.mk 0 0 0)
    (normalize Real.sqrt (Vec.mk (14 / 5) (11 / 10) 7)) s0
    ⟨⟨1, 2 / 5, 3 / 5⟩, ⟨6, 0, 7⟩, ⟨0, 0, 0⟩, 2⟩ = s1 at hn1 ⊢
  -- O[1]: hit, d = 1 < 1e30
  have hO1 := aimed_O1_hits_O1 s1.p s1.N
  obtain ⟨hn2, hf2, hc2⟩ := scene_step_hit Real.sqrt (Vec.mk 0 0 0)
    (normalize Real.sqrt (Vec.mk (14 / 5) (11 / 10) 7)) s1
    ⟨⟨1, 1, 3 / 10⟩, ⟨14 / 5, 11 / 10, 7⟩, ⟨0, 0, 0⟩, 9 / 10⟩
    (by rw [obj_intersect_sphere _ _ _ _ _ _ (by norm_num)]; exact hO1.1)
    (by rw [obj_intersect_sphere _ _ _ _ _ _ (by norm_num), hO1.2, hn1, hn0]; norm_num)
  rw [obj_intersect_sphere _ _ _ _ _ _ (by norm_num), hO1.2] at hn2
  generalize scene_step Real.sqrt (Vec.mk 0 0 0)
    (normalize Real.sqrt (Vec.mk (14 / 5) (11 / 10) 7)) s1
    ⟨⟨1, 1, 3 / 10⟩, ⟨14 / 5, 11 / 10, 7⟩, ⟨0, 0, 0⟩, 9 / 10⟩ = s2 at hn2 hf2 hc2 ⊢
  -- O[2]: missed
  obtain ⟨hn3, hf3, hc3⟩ := scene_step_miss Real.sqrt (Vec.mk 0 0 0)
    (normalize Real.sqrt (Vec.mk (14 / 5) (11 / 10) 7)) s2
    ⟨⟨2, 2, 2⟩, ⟨5, -10, -7⟩, ⟨0, 0, 0⟩, 8⟩
    (by rw [obj_intersect_sphere _ _ _ _ _ _ (by norm_num)]; exact aimed_O1_misses_O2 _ _)
  generalize scene_step Real.sqrt (Vec.mk 0 0 0)
    (normalize Real.sqrt (Vec.mk (14 / 5) (11 / 10) 7)) s2
    ⟨⟨2, 2, 2⟩, ⟨5, -10, -7⟩, ⟨0, 0, 0⟩, 8⟩ = s3 at hn3 hf3 hc3 ⊢
  -- O[3]: a box; if hit, d = 1, which is not below nearest = 1
  obtain ⟨hn4, hf4, hc4⟩ := scene_step_keep Real.sqrt (Vec.mk 0 0 0)
    (normalize Real.sqrt (Vec.mk (14 / 5) (11 / 10) 7)) s3
    ⟨⟨2 / 5, 7 / 10, 1⟩, ⟨3, -4, 11⟩, ⟨7, 2, 13⟩, 0⟩ (by rw [hf3, hf2])
    (by
      rw [obj_intersect_box _ _ _ _ _ _ rfl]
      intro h
      rw [box_intersect_normal_from_zero _ _ _ _ _ h, hn3, hn2]
      norm_num)
  generalize scene_step Real.sqrt (Vec.mk 0 0 0)
    (normalize Real.sqrt (Vec.mk (14 / 5) (11 / 10) 7)) s3
    ⟨⟨2 / 5, 7 / 10, 1⟩, ⟨3, -4, 11⟩, ⟨7, 2, 13⟩, 0⟩ = s4 at hn4 hf4 hc4 ⊢
  -- O[4]: a box, as O[3]
  obtain ⟨_, hf5, hc5⟩ := scene_step_keep Real.sqrt (Vec.mk 0 0 0)
    (normalize Real.sqrt (Vec.mk (14 / 5) (11 / 10) 7)) s4
    ⟨⟨3 / 5, 7 / 10, 3 / 5⟩, ⟨0, 2, 6⟩, ⟨11, 11 / 5, 16⟩, 0⟩ hf4
    (by
      rw [obj_intersect_box _ _ _ _ _ _ rfl]
      intro h
      rw [box_intersect_normal_from_zero _ _ _ _ _ h, hn4, hn3, hn2]
      norm_num)
  exact ⟨hf5, by rw [hc5, hc4, hc3, hc2]⟩

/-- C3, evaluated in `float` arithmetic at the claim's ray: origin `(0,0,0)`, direction
`(2.8f, 1.1f, 7)` normalised as in lines 116-117, that is `(0.36749965, 0.14437486,
0.9187491)`. The sphere `O[1]` is hit at `(2.4692495, 0.9700623, 6.1731234)`, at squared
distance about 45.1 from the origin, and the box `O[3]` behind it at `(4.4, 1.7285715, 11)`,
at squared distance about 143.3. `scene_intersect` passes `p, N` where the primitive
tests expect `normal, point`, so line 80 measures the normals: `1 + 49 * 2^-23`, about
`1.0000058`, for the rounded normal of `O[1]` and exactly 1 for the normal `(0,0,-1)` of
`O[3]`. Line 81 therefore replaces `O[1]` by `O[3]`, and `scene_intersect` returns the
colour `(0.4f, 0.7f, 1)` of `O[3]`, not the colour `(1, 1, 0.3f)` of `O[1]`. In exact
arithmetic the two values of `d` are both 1 and `O[1]` is kept because it comes first. -/
theorem float_aimed_at_O1_returns_O3 :
    F32.normalize (Vec.mk (F32.lit (14 / 5)) (F32.lit (11 / 10)) 7)
      = Vec.mk (6165621 / 16777216) (9688833 / 67108864) (3853513 / 4194304)
    ∧ F32.scene_intersect (Vec.mk 0 0 0)
        (F32.normalize (Vec.mk (F32.lit (14 / 5)) (F32.lit (11 / 10)) 7))
        (Vec.mk 0 0 0) (Vec.mk 0 0 0) (Vec.mk 0 0 0) (Vec.mk 0 0 0) (Vec.mk 0 0 0)
      = (true, Vec.mk 0 0 (-1), Vec.mk (9227469 / 2097152) (14500309 / 8388608) 11,
          Vec.mk (F32.lit (2 / 5)) (F32.lit (7 / 10)) 1)
    ∧ Vec.mk (F32.lit (2 / 5)) (F32.lit (7 / 10)) 1 ≠ Vec.mk 1 1 (F32.lit (3 / 10))
    ∧ F32.sphere_intersect (Vec.mk (F32.lit (14 / 5)) (F32.lit (11 / 10)) 7)
        (F32.lit (9 / 10)) (Vec.mk 0 0 0)
        (F32.normalize (Vec.mk (F32.lit (14 / 5)) (F32.lit (11 / 10)) 7))
        (Vec.mk 0 0 0) (Vec.mk 0 0 0)
      = (true, Vec.mk (-(12331271 / 33554432)) (-(4844431 / 33554432)) (-(7707049 / 8388608)),
          Vec.mk (10356783 / 4194304) (31787 / 32768) (6472989 / 1048576))
    ∧ F32.distance2 (Vec.mk 0 0 0)
        (Vec.mk (-(12331271 / 33554432)) (-(4844431 / 33554432)) (-(7707049 / 8388608)))
      = 1 + 49 / 2 ^ 23
    ∧ F32.box_intersect (Vec.mk 3 (-4) 11) (Vec.mk 7 2 13) (Vec.mk 0 0 0)
        (F32.normalize (Vec.mk (F32.lit (14 / 5)) (F32.lit (11 / 10)) 7))
        (Vec.mk 0 0 0) (Vec.mk 0 0 0)
      = (true, Vec.mk 0 0 (-1), Vec.mk (9227469 / 2097152) (14500309 / 8388608) 11)
    ∧ F32.distance2 (Vec.mk 0 0 0) (Vec.mk 0 0 (-1)) = 1
    ∧ F32.distance2 (Vec.mk 0 0 0)
        (Vec.mk (10356783 / 4194304) (31787 / 32768) (6472989 / 1048576))
      < F32.distance2 (Vec.mk 0 0 0) (Vec.mk (9227469 / 2097152) (14500309 / 8388608) 11)
    ∧ (scene_intersect Real.sqrt (Vec.mk 0 0 0)
        (normalize Real.sqrt (Vec.mk (14 / 5) (11 / 10) 7)) (Vec.mk 0 0 0) (Vec.mk 0 0 0)
        (Vec.mk 0 0 0) (Vec.mk 0 0 0) (Vec.mk 0 0 0)).2.2.2 = Vec.mk 1 1 (3 / 10) :=
  ⟨by decide!, by decide!, by decide!, by decide!, by decide!, by decide!, by decide!,
    by decide!, (scene_intersect_aimed_at_O1 _ _ _ _ _).2⟩

/-! ## Trace -/

/-- C4: for every eye, ray direction and `depth > maxdepth`, `trace` returns exactly the
ambient colour `(0.5, 0.5, 0.5)`; it does so for every `sqrt` and every stack content, the
scene not being consulted. -/
theorem trace_depth_exceeded (sqrt : ℝ → ℝ) (junk : Int → Frame ℝ) (eye ray : Vec ℝ)
    (depth maxdepth : Int) (hdepth : depth > maxdepth) :
    trace sqrt junk eye ray depth maxdepth = Vec.mk (1 / 2) (1 / 2) (1 / 2) := by
  rw [trace, if_pos hdepth]
  rfl

/-- Witness of C4: `maxdepth = 3` as in the source and `depth = maxdepth + 1 = 4`. -/
theorem trace_depth_exceeded_witness :
    (4 : Int) > 3
    ∧ trace Real.sqrt (fun _ => ⟨Vec.mk 0 0 0, Vec.mk 0 0 0, Vec.mk 0 0 0, Vec.mk 0 0 0,
          Vec.mk 0 0 0⟩) (Vec.mk 0 0 0) (Vec.mk 0 0 1) 4 3
        = Vec.mk (1 / 2) (1 / 2) (1 / 2) :=
  ⟨by decide, trace_depth_exceeded Real.sqrt _ (Vec.mk 0 0 0) (Vec.mk 0 0 1) 4 3 (by decide)⟩

/-- In the table `O` a colour has a component above 1 exactly when its first component is
above 1: the only such entry is the lamp `O[2]`, of colour `(2,2,2)`. -/
theorem O_lamp_first_component (o : Obj ℝ) (ho : o ∈ (O : List (Obj ℝ))) :
    (o.color.x > 1 ∨ o.color.y > 1 ∨ o.color.z > 1) ↔ o.color.x > 1 := by
  simp only [O, List.mem_cons, List.mem_singleton, List.not_mem_nil, or_false] at ho
  rcases ho with rfl | rfl | rfl | rfl | rfl <;> norm_num

/-- The ray from `(-2e15, 0, 12)` along `(1,0,0)` hits only the box `O[3]`, and the value
`d` of line 80 is not below `nearest = 1e30`: `scene_intersect` returns true and leaves
the three output buffers as they were at the call. -/
theorem scene_intersect_far_origin (point normal color p N : Vec ℝ) :
    scene_intersect Real.sqrt (Vec.mk (-(2 * 10 ^ 15)) 0 12) (Vec.mk 1 0 0) point normal
        color p N
      = (true, point, normal, color) := by
  simp [scene_intersect, scene_loop, scene_step, obj_intersect, O, sphere_intersect,
    sphere_V, dot, distance2, box_intersect, box_loop, box_accept, box_d, box_point,
    box_normal, Vec.get, Vec.set]
  norm_num

/-- C5: for `depth ≤ maxdepth`, if `scene_intersect` reports a hit whose colour - the
colour of a primitive of the table `O` - has any component above 1.0, then `trace` returns
exactly the light colour `(1,1,1)`, whatever the depth. The test of line 105 reads
`color[0]` only; for the colours of the table this is the same as reading any component
(`O_lamp_first_component`). -/
theorem trace_lamp_any_component (junk : Int → Frame ℝ) (eye ray : Vec ℝ)
    (depth maxdepth : Int) (hdepth : depth ≤ maxdepth)
    (hhit : (scene_intersect Real.sqrt eye ray (junk depth).point (junk depth).normal
      (junk depth).color (junk depth).p (junk depth).N).1 = true)
    (hprim : ∃ o ∈ (O : List (Obj ℝ)),
      (scene_intersect Real.sqrt eye ray (junk depth).point (junk depth).normal
        (junk depth).color (junk depth).p (junk depth).N).2.2.2 = o.color)
    (hcolor : (scene_intersect Real.sqrt eye ray (junk depth).point (junk depth).normal
          (junk depth).color (junk depth).p (junk depth).N).2.2.2.x > 1
      ∨ (scene_intersect Real.sqrt eye ray (junk depth).point (junk depth).normal
          (junk depth).color (junk depth).p (junk depth).N).2.2.2.y > 1
      ∨ (scene_intersect Real.sqrt eye ray (junk depth).point (junk depth).normal
          (junk depth).color (junk depth).p (junk depth).N).2.2.2.z > 1) :
    trace Real.sqrt junk eye ray depth maxdepth = Vec.mk 1 1 1 := by
  obtain ⟨o, ho, hc⟩ := hprim
  have hx : (scene_intersect Real.sqrt eye ray (junk depth).point (junk depth).normal
      (junk depth).color (junk depth).p (junk depth).N).2.2.2.x > 1 := by
    rw [hc] at hcolor ⊢
    exact (O_lamp_first_component o ho).1 hcolor
  rw [trace, if_neg (not_lt.2 hdepth)]
  simp only [hhit, Bool.not_true, Bool.false_eq_true, if_false, if_pos hx]
  rfl

/-- The ray from `(5,-10,10)` along `(0,0,-1)` hits the lamp `O[2]` only. -/
theorem scene_intersect_lamp :
    scene_intersect Real.sqrt (Vec.mk 5 (-10) 10) (Vec.mk 0 0 (-1)) (Vec.mk 0 0 0)
        (Vec.mk 0 0 0) (Vec.mk 0 0 0) (Vec.mk 0 0 0) (Vec.mk 0 0 0)
      = (true, Vec.mk 0 0 1, Vec.mk 5 (-10) 1, Vec.mk 2 2 2) := by
  simp [scene_intersect, scene_loop, scene_step, obj_intersect, O, sphere_intersect,
    sphere_V, dot, distance2, box_intersect, box_loop, box_accept, box_d, box_point,
    box_normal, Vec.get, Vec.set]
  norm_num [sqrt_sixty_four]

/-- Witness of C5: the ray from `(5,-10,10)` along `(0,0,-1)` hits the lamp `O[2]`, whose
colour `(2,2,2)` is reported; its third component is above 1; `depth = 0`,
`maxdepth = 3`. -/
theorem trace_lamp_any_component_witness :
    (0 : Int) ≤ 3
    ∧ (scene_intersect Real.sqrt (Vec.mk 5 (-10) 10) (Vec.mk 0 0 (-1)) (Vec.mk 0 0 0)
        (Vec.mk 0 0 0) (Vec.mk 0 0 0) (Vec.mk 0 0 0) (Vec.mk 0 0 0)).1 = true
    ∧ (∃ o ∈ (O : List (Obj ℝ)),
        (scene_intersect Real.sqrt (Vec.mk 5 (-10) 10) (Vec.mk 0 0 (-1)) (Vec.mk 0 0 0)
          (Vec.mk 0 0 0) (Vec.mk 0 0 0) (Vec.mk 0 0 0) (Vec.mk 0 0 0)).2.2.2 = o.color)
    ∧ (scene_intersect Real.sqrt (Vec.mk 5 (-10) 10) (Vec.mk 0 0 (-1)) (Vec.mk 0 0 0)
        (Vec.mk 0 0 0) (Vec.mk 0 0 0) (Vec.mk 0 0 0) (Vec.mk 0 0 0)).2.2.2.z > 1
    ∧ trace Real.sqrt
        (fun _ => ⟨Vec.mk 0 0 0, Vec.mk 0 0 0, Vec.mk 0 0 0, Vec.mk 0 0 0, Vec.mk 0 0 0⟩)
        (Vec.mk 5 (-10) 10) (Vec.mk 0 0 (-1)) 0 3
      = Vec.mk 1 1 1 :=
  ⟨by decide,
   by simp only [scene_intersect_lamp],
   ⟨⟨⟨2, 2, 2⟩, ⟨5, -10, -7⟩, ⟨0, 0, 0⟩, 8⟩, by simp [O], by simp only [scene_intersect_lamp]⟩,
   by simp only [scene_intersect_lamp]; norm_num,
   trace_lamp_any_component
    (fun _ => ⟨Vec.mk 0 0 0, Vec.mk 0 0 0, Vec.mk 0 0 0, Vec.mk 0 0 0, Vec.mk 0 0 0⟩)
    (Vec.mk 5 (-10) 10) (Vec.mk 0 0 (-1)) 0 3 (by decide)
    (by simp only [scene_intersect_lamp])
    ⟨⟨⟨2, 2, 2⟩, ⟨5, -10, -7⟩, ⟨0, 0, 0⟩, 8⟩, by simp [O], by simp only [scene_intersect_lamp]⟩
    (Or.inr (Or.inr (by simp only [scene_intersect_lamp]; norm_num)))⟩

/-! ## Primitive tests: what a hit writes -/

/-- The function `sphere_intersect` in terms of its locals `delta`, `d` and of the values
it writes. -/
theorem sphere_intersect_eq (sqrt : ℝ → ℝ) (center : Vec ℝ) (radius : ℝ)
    (ray_origin ray_direction normal point : Vec ℝ) :
    sphere_intersect sqrt center radius ray_origin ray_direction normal point
      = if sphere_delta center radius ray_origin ray_direction > 0 then
          if sphere_d sqrt center radius ray_origin ray_direction > 0 then
            (true, sphere_normal sqrt center radius ray_origin ray_direction,
              sphere_point sqrt center radius ray_origin ray_direction)
          else (false, normal, point)
        else (false, normal, point) := rfl

/-- When `sphere_intersect` returns true, `delta > 0`, `d > 0` and the buffers hold the
normal and the point of lines 47-48. -/
theorem sphere_intersect_true (sqrt : ℝ → ℝ) (center : Vec ℝ) (radius : ℝ)
    (ray_origin ray_direction normal point : Vec ℝ)
    (h : (sphere_intersect sqrt center radius ray_origin ray_direction normal point).1 = true) :
    sphere_delta center radius ray_origin ray_direction > 0
    ∧ sphere_d sqrt center radius ray_origin ray_direction > 0
    ∧ sphere_intersect sqrt center radius ray_origin ray_direction normal point
      = (true, sphere_normal sqrt center radius ray_origin ray_direction,
          sphere_point sqrt center radius ray_origin ray_direction) := by
  rw [sphere_intersect_eq] at h ⊢
  by_cases h1 : sphere_delta center radius ray_origin ray_direction > 0
  · by_cases h2 : sphere_d sqrt center radius ray_origin ray_direction > 0
    · rw [if_pos h1, if_pos h2]
      exact ⟨h1, h2, rfl⟩
    · rw [if_pos h1, if_neg h2] at h
      exact absurd h (by simp)
  · rw [if_neg h1] at h
    exact absurd h (by simp)

/-- The flag of `sphere_intersect` does not depend on the buffers. -/
theorem sphere_intersect_flag (sqrt : ℝ → ℝ) (center : Vec ℝ) (radius : ℝ)
    (ray_origin ray_direction normal point normal' point' : Vec ℝ) :
    (sphere_intersect sqrt center radius ray_origin ray_direction normal point).1
      = (sphere_intersect sqrt center radius ray_origin ray_direction normal' point').1 := by
  rw [sphere_intersect_eq, sphere_intersect_eq]
  split_ifs <;> rfl

/-- Three numbers whose squares sum to `r^2`, divided by `r ≠ 0`, have squares that sum
to 1. -/
theorem div_sq_sum (X Y Z r : ℝ) (hr : r ≠ 0) (h : X * X + Y * Y + Z * Z = r * r) :
    X / r * (X / r) + Y / r * (Y / r) + Z / r * (Z / r) = 1 := by
  field_simp
  linarith

/-- The product of `(X, Y, Z) / r` with `(a, b, c)` is the product of `(X, Y, Z)` with
`(a, b, c)`, divided by `r`. -/
theorem div_dot (X Y Z a b c r S : ℝ) (hr : r ≠ 0) (h : X * a + Y * b + Z * c = S) :
    X / r * a + Y / r * b + Z / r * c = S / r := by
  field_simp
  linarith

/-- For a unit direction and a radius `≠ 0`, the normal of lines 47-48 has squared length
1 and its product with the direction is `-sqrt(delta)/radius`, provided `delta ≥ 0`. -/
theorem sphere_normal_unit (center : Vec ℝ) (radius : ℝ) (ray_origin ray_direction : Vec ℝ)
    (hu : dot ray_direction ray_direction = 1) (hr : radius ≠ 0)
    (hdelta : sphere_delta center radius ray_origin ray_direction ≥ 0) :
    dot (sphere_normal Real.sqrt center radius ray_origin ray_direction)
        (sphere_normal Real.sqrt center radius ray_origin ray_direction) = 1
    ∧ dot (sphere_normal Real.sqrt center radius ray_origin ray_direction) ray_direction
      = -(Real.sqrt (sphere_delta center radius ray_origin ray_direction)) / radius := by
  have hs := Real.mul_self_sqrt hdelta
  generalize hS : Real.sqrt (sphere_delta center radius ray_origin ray_direction) = S at hs
  have hd : sphere_d Real.sqrt center radius ray_origin ray_direction
      = dot ray_direction (sphere_V center ray_origin) - S := by
    rw [sphere_d, hS]
  simp only [sphere_delta] at hs
  simp only [dot, sphere_V] at hs hu hd
  constructor
  · simp only [sphere_normal, sphere_point, hd, dot]
    apply div_sq_sum _ _ _ _ hr
    linear_combination
      (ray_direction.x * (center.x - ray_origin.x) + ray_direction.y * (center.y - ray_origin.y)
        + ray_direction.z * (center.z - ray_origin.z) - S) ^ 2 * hu + hs
  · simp only [sphere_normal, sphere_point, hd, dot]
    apply div_dot _ _ _ _ _ _ _ _ hr
    linear_combination
      (ray_direction.x * (center.x - ray_origin.x) + ray_direction.y * (center.y - ray_origin.y)
        + ray_direction.z * (center.z - ray_origin.z) - S) * hu

/-- When `box_intersect` returns true, an axis `i` that was not skipped passed the
acceptance test: the parameter `d` is positive, the point written is on the face of axis
`i` that the ray approaches and strictly inside the box extent on the other two axes, and
the normal written is the one of lines 25-26. -/
theorem box_intersect_true (bmin bmax ray_origin ray_direction normal point : Vec ℝ)
    (h : (box_intersect bmin bmax ray_origin ray_direction normal point).1 = true) :
    ∃ i : Nat, i < 3
      ∧ ¬ (|ray_direction.get i| < 1 / 1000)
      ∧ box_d bmin bmax ray_origin ray_direction i > 0
      ∧ box_intersect bmin bmax ray_origin ray_direction normal point
        = (true, box_normal ray_direction i,
            box_point bmin bmax ray_origin ray_direction i)
      ∧ (box_point bmin bmax ray_origin ray_direction i).get i
        = (if ray_direction.get i > 0 then bmin.get i else bmax.get i)
      ∧ (bmin.get ((i + 1) % 3)
          < (box_point bmin bmax ray_origin ray_direction i).get ((i + 1) % 3)
        ∧ (box_point bmin bmax ray_origin ray_direction i).get ((i + 1) % 3)
          < bmax.get ((i + 1) % 3))
      ∧ (bmin.get ((i + 2) % 3)
          < (box_point bmin bmax ray_origin ray_direction i).get ((i + 2) % 3)
        ∧ (box_point bmin bmax ray_origin ray_direction i).get ((i + 2) % 3)
          < bmax.get ((i + 2) % 3)) := by
  obtain ⟨i, hi, hskip, hacc, hres⟩ :=
    box_loop_true bmin bmax ray_origin ray_direction [0, 1, 2] normal point h
  have hi3 : i < 3 := by
    simp at hi
    omega
  have hne : ray_direction.get i ≠ 0 := by
    intro h0
    apply hskip
    rw [h0]
    norm_num
  have hacc' := hacc
  simp only [box_accept, decide_eq_true_eq] at hacc'
  refine ⟨i, hi3, hskip, hacc'.1, hres, ?_, ⟨hacc'.2.1, hacc'.2.2.1⟩,
    ⟨hacc'.2.2.2.1, hacc'.2.2.2.2⟩⟩
  rw [box_point_get, box_d]
  field_simp

/-- The normal of lines 25-26 has squared length 1, and on an axis where the direction is
not zero its product with the direction is negative. -/
theorem box_normal_unit (ray_direction : Vec ℝ) (i : Nat) (hi : i < 3)
    (hne : ray_direction.get i ≠ 0) :
    dot (box_normal ray_direction i) (box_normal ray_direction i) = 1
    ∧ dot (box_normal ray_direction i) ray_direction < 0 := by
  have h3 : i = 0 ∨ i = 1 ∨ i = 2 := by omega
  rcases h3 with rfl | rfl | rfl
  · simp only [Vec.get] at hne
    simp only [box_normal, Vec.set, Vec.get, dot]
    norm_num
    by_cases hp : 0 < ray_direction.x
    · simp [hp]
    · have : ray_direction.x < 0 := lt_of_le_of_ne (not_lt.1 hp) hne
      simp [hp, this]
  · simp only [Vec.get] at hne
    simp only [box_normal, Vec.set, Vec.get, dot]
    norm_num
    by_cases hp : 0 < ray_direction.y
    · simp [hp]
    · have : ray_direction.y < 0 := lt_of_le_of_ne (not_lt.1 hp) hne
      simp [hp, this]
  · simp only [Vec.get] at hne
    simp only [box_normal, Vec.set, Vec.get, dot]
    norm_num
    by_cases hp : 0 < ray_direction.z
    · simp [hp]
    · have : ray_direction.z < 0 := lt_of_le_of_ne (not_lt.1 hp) hne
      simp [hp, this]

/-- The `double` constant `1e-3` of line 24 is positive. -/
theorem f64_milli_pos : (0 : ℚ) < F32.f64 (1 / 1000) := by
  decide!

/-- In `float` arithmetic: when the loop of `box_intersect` returns true, it returns the
normal and point of an axis of its list that is not skipped and passes the acceptance
test. -/
theorem float_box_loop_true (bmin bmax ray_origin ray_direction : Vec ℚ) :
    ∀ (l : List Nat) (normal point : Vec ℚ),
      (F32.box_loop bmin bmax ray_origin ray_direction l normal point).1 = true →
      ∃ i ∈ l, ¬ (|ray_direction.get i| < F32.f64 (1 / 1000))
        ∧ F32.box_accept bmin bmax ray_origin ray_direction i = true
        ∧ F32.box_loop bmin bmax ray_origin ray_direction l normal point
          = (true, box_normal ray_direction i,
              F32.box_point bmin bmax ray_origin ray_direction i) := by
  intro l
  induction l with
  | nil => intro normal point h; simp [F32.box_loop] at h
  | cons a rest ih =>
    intro normal point h
    simp only [F32.box_loop] at h ⊢
    by_cases hskip : |ray_direction.get a| < F32.f64 (1 / 1000)
    · rw [if_pos hskip] at h ⊢
      obtain ⟨i, hi, h1, h2, h3⟩ := ih normal point h
      exact ⟨i, List.mem_cons_of_mem a hi, h1, h2, h3⟩
    · rw [if_neg hskip] at h ⊢
      by_cases hacc : F32.box_accept bmin bmax ray_origin ray_direction a = true
      · rw [if_pos hacc]
        exact ⟨a, List.mem_cons_self a rest, hskip, hacc, rfl⟩
      · rw [if_neg hacc] at h ⊢
        obtain ⟨i, hi, h1, h2, h3⟩ := ih _ _ h
        exact ⟨i, List.mem_cons_of_mem a hi, h1, h2, h3⟩

/-- The normal of lines 25-26, over the rationals: it has squared length 1, and on an axis
where the direction is not zero its product with the direction is negative. -/
theorem box_normal_unit_rat (ray_direction : Vec ℚ) (i : Nat) (hi : i < 3)
    (hne : ray_direction.get i ≠ 0) :
    dot (box_normal ray_direction i) (box_normal ray_direction i) = 1
    ∧ dot (box_normal ray_direction i) ray_direction < 0 := by
  have h3 : i = 0 ∨ i = 1 ∨ i = 2 := by omega
  rcases h3 with rfl | rfl | rfl
  · simp only [Vec.get] at hne
    simp only [box_normal, Vec.set, Vec.get, dot]
    norm_num
    by_cases hp : 0 < ray_direction.x
    · simp [hp]
    · have : ray_direction.x < 0 := lt_of_le_of_ne (not_lt.1 hp) hne
      simp [hp, this]
  · simp only [Vec.get] at hne
    simp only [box_normal, Vec.set, Vec.get, dot]
    norm_num
    by_cases hp : 0 < ray_direction.y
    · simp [hp]
    · have : ray_direction.y < 0 := lt_of_le_of_ne (not_lt.1 hp) hne
      simp [hp, this]
  · simp only [Vec.get] at hne
    simp only [box_normal, Vec.set, Vec.get, dot]
    norm_num
    by_cases hp : 0 < ray_direction.z
    · simp [hp]
    · have : ray_direction.z < 0 := lt_of_le_of_ne (not_lt.1 hp) hne
      simp [hp, this]

/-- In `float` arithmetic: when `box_intersect` returns true, an axis `i` that was not
skipped passed the acceptance test: the direction is not zero on `i`, the normal written
is the one of lines 25-26, and the point written is strictly inside the box extent on the
other two axes. -/
theorem float_box_intersect_true (bmin bmax ray_origin ray_direction normal point : Vec ℚ)
    (h : (F32.box_intersect bmin bmax ray_origin ray_direction normal point).1 = true) :
    ∃ i : Nat, i < 3
      ∧ ray_direction.get i ≠ 0
      ∧ (F32.box_intersect bmin bmax ray_origin ray_direction normal point).2.1
        = box_normal ray_direction i
      ∧ (bmin.get ((i + 1) % 3)
          < (F32.box_intersect bmin bmax ray_origin ray_direction normal point).2.2.get
              ((i + 1) % 3)
        ∧ (F32.box_intersect bmin bmax ray_origin ray_direction normal point).2.2.get
              ((i + 1) % 3) < bmax.get ((i + 1) % 3))
      ∧ (bmin.get ((i + 2) % 3)
          < (F32.box_intersect bmin bmax ray_origin ray_direction normal point).2.2.get
              ((i + 2) % 3)
        ∧ (F32.box_intersect bmin bmax ray_origin ray_direction normal point).2.2.get
              ((i + 2) % 3) < bmax.get ((i + 2) % 3)) := by
  obtain ⟨i, hi, hskip, hacc, hres⟩ :=
    float_box_loop_true bmin bmax ray_origin ray_direction [0, 1, 2] normal point h
  have hi3 : i < 3 := by
    simp at hi
    omega
  have hne : ray_direction.get i ≠ 0 := by
    intro h0
    apply hskip
    rw [h0, abs_zero]
    exact f64_milli_pos
  simp only [F32.box_accept, decide_eq_true_eq] at hacc
  rw [F32.box_intersect, hres]
  exact ⟨i, hi3, hne, rfl, ⟨hacc.2.1, hacc.2.2.1⟩, ⟨hacc.2.2.2.1, hacc.2.2.2.2⟩⟩

/-- C11, amended: whenever `box_intersect` returns true there is an axis `i` such that the
other two coordinates of the returned point are strictly between `bmin` and `bmax` and
the returned normal is `-e_i` when the direction is positive on `i` (the ray approaches
the `bmin` face) and `+e_i` when it is negative; this holds in `float` arithmetic (first
part) as in exact real arithmetic. In exact real arithmetic (second part) the returned
point is moreover on that face: `point[i] = bmin[i]` with the normal `-e_i`,
`point[i] = bmax[i]` with the normal `+e_i`. -/
theorem box_intersect_hit_on_face
    (fmin fmax forigin fdirection fnormal fpoint : Vec ℚ)
    (bmin bmax ray_origin ray_direction normal point : Vec ℝ) :
    ((F32.box_intersect fmin fmax forigin fdirection fnormal fpoint).1 = true →
      ∃ i : Nat, i < 3
        ∧ ((fdirection.get i > 0
            ∧ (F32.box_intersect fmin fmax forigin fdirection fnormal fpoint).2.1
              = (Vec.mk 0 0 0).set i (-1))
          ∨ (fdirection.get i < 0
            ∧ (F32.box_intersect fmin fmax forigin fdirection fnormal fpoint).2.1
              = (Vec.mk 0 0 0).set i 1))
        ∧ (fmin.get ((i + 1) % 3)
            < (F32.box_intersect fmin fmax forigin fdirection fnormal fpoint).2.2.get
                ((i + 1) % 3)
          ∧ (F32.box_intersect fmin fmax forigin fdirection fnormal fpoint).2.2.get
                ((i + 1) % 3) < fmax.get ((i + 1) % 3))
        ∧ (fmin.get ((i + 2) % 3)
            < (F32.box_intersect fmin fmax forigin fdirection fnormal fpoint).2.2.get
                ((i + 2) % 3)
          ∧ (F32.box_intersect fmin fmax forigin fdirection fnormal fpoint).2.2.get
                ((i + 2) % 3) < fmax.get ((i + 2) % 3)))
    ∧ ((box_intersect bmin bmax ray_origin ray_direction normal point).1 = true →
      ∃ i : Nat, i < 3
        ∧ (((box_intersect bmin bmax ray_origin ray_direction normal point).2.2.get i
              = bmin.get i
            ∧ (box_intersect bmin bmax ray_origin ray_direction normal point).2.1
              = (Vec.mk 0 0 0).set i (-1))
          ∨ ((box_intersect bmin bmax ray_origin ray_direction normal point).2.2.get i
              = bmax.get i
            ∧ (box_intersect bmin bmax ray_origin ray_direction normal point).2.1
              = (Vec.mk 0 0 0).set i 1))
        ∧ (bmin.get ((i + 1) % 3)
            < (box_intersect bmin bmax ray_origin ray_direction normal point).2.2.get
                ((i + 1) % 3)
          ∧ (box_intersect bmin bmax ray_origin ray_direction normal point).2.2.get
                ((i + 1) % 3) < bmax.get ((i + 1) % 3))
        ∧ (bmin.get ((i + 2) % 3)
            < (box_intersect bmin bmax ray_origin ray_direction normal point).2.2.get
                ((i + 2) % 3)
          ∧ (box_intersect bmin bmax ray_origin ray_direction normal point).2.2.get
                ((i + 2) % 3) < bmax.get ((i + 2) % 3))) := by
  constructor
  · intro h
    obtain ⟨i, hi, hne, hn, h1, h2⟩ :=
      float_box_intersect_true fmin fmax forigin fdirection fnormal fpoint h
    refine ⟨i, hi, ?_, h1, h2⟩
    rw [hn]
    by_cases hp : fdirection.get i > 0
    · left
      exact ⟨hp, by simp only [box_normal, if_pos hp]⟩
    · right
      exact ⟨lt_of_le_of_ne (not_lt.1 hp) hne, by simp only [box_normal, if_neg hp]⟩
  · intro h
    obtain ⟨i, hi, _, _, hres, hface, h1, h2⟩ :=
      box_intersect_true bmin bmax ray_origin ray_direction normal point h
    refine ⟨i, hi, ?_, ?_, ?_⟩
    · rw [hres]
      by_cases hp : ray_direction.get i > 0
      · left
        rw [if_pos hp] at hface
        exact ⟨hface, by simp only [box_normal, if_pos hp]⟩
      · right
        rw [if_neg hp] at hface
        exact ⟨hface, by simp only [box_normal, if_neg hp]⟩
    · rw [hres]; exact h1
    · rw [hres]; exact h2

/-- The box `O[3]` and the ray from `(6,0,20)` along `(0,0,-1)`: the test succeeds on the
z axis with the point `(6,0,13)` and the normal `(0,0,1)`. -/
theorem box_O3_from_above :
    box_intersect (Vec.mk (3 : ℝ) (-4) 11) (Vec.mk 7 2 13) (Vec.mk 6 0 20) (Vec.mk 0 0 (-1))
        (Vec.mk 0 0 0) (Vec.mk 0 0 0)
      = (true, Vec.mk 0 0 1, Vec.mk 6 0 13) := by
  simp [box_intersect, box_loop, box_accept, box_d, box_point, box_normal, Vec.get, Vec.set]
  norm_num

/-- The box `O[3]` and the ray from `(6,0,20)` along `(0,0,-1)` in `float` arithmetic:
the same normal and point as in exact arithmetic. -/
theorem float_box_O3_from_above :
    F32.box_intersect (Vec.mk 3 (-4) 11) (Vec.mk 7 2 13) (Vec.mk 6 0 20) (Vec.mk 0 0 (-1))
        (Vec.mk 0 0 0) (Vec.mk 0 0 0)
      = (true, Vec.mk 0 0 1, Vec.mk 6 0 13) := by
  decide!

/-- Witness of the amended C11: the box `O[3]` and the ray from `(6,0,20)` along
`(0,0,-1)`, in both arithmetics. -/
theorem box_intersect_hit_on_face_witness :
    ((F32.box_intersect (Vec.mk 3 (-4) 11) (Vec.mk 7 2 13) (Vec.mk 6 0 20) (Vec.mk 0 0 (-1))
        (Vec.mk 0 0 0) (Vec.mk 0 0 0)).1 = true
      ∧ (box_intersect (Vec.mk (3 : ℝ) (-4) 11) (Vec.mk 7 2 13) (Vec.mk 6 0 20)
          (Vec.mk 0 0 (-1)) (Vec.mk 0 0 0) (Vec.mk 0 0 0)).1 = true)
    ∧ (∃ i : Nat, i < 3
        ∧ (((Vec.mk (0 : ℚ) 0 (-1)).get i > 0
            ∧ (F32.box_intersect (Vec.mk 3 (-4) 11) (Vec.mk 7 2 13) (Vec.mk 6 0 20)
                (Vec.mk 0 0 (-1)) (Vec.mk 0 0 0) (Vec.mk 0 0 0)).2.1
              = (Vec.mk 0 0 0).set i (-1))
          ∨ ((Vec.mk (0 : ℚ) 0 (-1)).get i < 0
            ∧ (F32.box_intersect (Vec.mk 3 (-4) 11) (Vec.mk 7 2 13) (Vec.mk 6 0 20)
                (Vec.mk 0 0 (-1)) (Vec.mk 0 0 0) (Vec.mk 0 0 0)).2.1
              = (Vec.mk 0 0 0).set i 1))
        ∧ ((Vec.mk (3 : ℚ) (-4) 11).get ((i + 1) % 3)
            < (F32.box_intersect (Vec.mk 3 (-4) 11) (Vec.mk 7 2 13) (Vec.mk 6 0 20)
                (Vec.mk 0 0 (-1)) (Vec.mk 0 0 0) (Vec.mk 0 0 0)).2.2.get ((i + 1) % 3)
          ∧ (F32.box_intersect (Vec.mk 3 (-4) 11) (Vec.mk 7 2 13) (Vec.mk 6 0 20)
                (Vec.mk 0 0 (-1)) (Vec.mk 0 0 0) (Vec.mk 0 0 0)).2.2.get ((i + 1) % 3)
            < (Vec.mk (7 : ℚ) 2 13).get ((i + 1) % 3))
        ∧ ((Vec.mk (3 : ℚ) (-4) 11).get ((i + 2) % 3)
            < (F32.box_intersect (Vec.mk 3 (-4) 11) (Vec.mk 7 2 13) (Vec.mk 6 0 20)
                (Vec.mk 0 0 (-1)) (Vec.mk 0 0 0) (Vec.mk 0 0 0)).2.2.get ((i + 2) % 3)
          ∧ (F32.box_intersect (Vec.mk 3 (-4) 11) (Vec.mk 7 2 13) (Vec.mk 6 0 20)
                (Vec.mk 0 0 (-1)) (Vec.mk 0 0 0) (Vec.mk 0 0 0)).2.2.get ((i + 2) % 3)
            < (Vec.mk (7 : ℚ) 2 13).get ((i + 2) % 3)))
    ∧ ∃ i : Nat, i < 3
      ∧ (((box_intersect (Vec.mk (3 : ℝ) (-4) 11) (Vec.mk 7 2 13) (Vec.mk 6 0 20)
              (Vec.mk 0 0 (-1)) (Vec.mk 0 0 0) (Vec.mk 0 0 0)).2.2.get i
            = (Vec.mk (3 : ℝ) (-4) 11).get i
          ∧ (box_intersect (Vec.mk (3 : ℝ) (-4) 11) (Vec.mk 7 2 13) (Vec.mk 6 0 20)
              (Vec.mk 0 0 (-1)) (Vec.mk 0 0 0) (Vec.mk 0 0 0)).2.1
            = (Vec.mk 0 0 0).set i (-1))
        ∨ ((box_intersect (Vec.mk (3 : ℝ) (-4) 11) (Vec.mk 7 2 13) (Vec.mk 6 0 20)
              (Vec.mk 0 0 (-1)) (Vec.mk 0 0 0) (Vec.mk 0 0 0)).2.2.get i
            = (Vec.mk (7 : ℝ) 2 13).get i
          ∧ (box_intersect (Vec.mk (3 : ℝ) (-4) 11) (Vec.mk 7 2 13) (Vec.mk 6 0 20)
              (Vec.mk 0 0 (-1)) (Vec.mk 0 0 0) (Vec.mk 0 0 0)).2.1
            = (Vec.mk 0 0 0).set i 1))
      ∧ ((Vec.mk (3 : ℝ) (-4) 11).get ((i + 1) % 3)
          < (box_intersect (Vec.mk (3 : ℝ) (-4) 11) (Vec.mk 7 2 13) (Vec.mk 6 0 20)
              (Vec.mk 0 0 (-1)) (Vec.mk 0 0 0) (Vec.mk 0 0 0)).2.2.get ((i + 1) % 3)
        ∧ (box_intersect (Vec.mk (3 : ℝ) (-4) 11) (Vec.mk 7 2 13) (Vec.mk 6 0 20)
              (Vec.mk 0 0 (-1)) (Vec.mk 0 0 0) (Vec.mk 0 0 0)).2.2.get ((i + 1) % 3)
          < (Vec.mk (7 : ℝ) 2 13).get ((i + 1) % 3))
      ∧ ((Vec.mk (3 : ℝ) (-4) 11).get ((i + 2) % 3)
          < (box_intersect (Vec.mk (3 : ℝ) (-4) 11) (Vec.mk 7 2 13) (Vec.mk 6 0 20)
              (Vec.mk 0 0 (-1)) (Vec.mk 0 0 0) (Vec.mk 0 0 0)).2.2.get ((i + 2) % 3)
        ∧ (box_intersect (Vec.mk (3 : ℝ) (-4) 11) (Vec.mk 7 2 13) (Vec.mk 6 0 20)
              (Vec.mk 0 0 (-1)) (Vec.mk 0 0 0) (Vec.mk 0 0 0)).2.2.get ((i + 2) % 3)
          < (Vec.mk (7 : ℝ) 2 13).get ((i + 2) % 3)) :=
  ⟨⟨by rw [float_box_O3_from_above], by rw [box_O3_from_above]⟩,
   (box_intersect_hit_on_face (Vec.mk 3 (-4) 11) (Vec.mk 7 2 13) (Vec.mk 6 0 20)
      (Vec.mk 0 0 (-1)) (Vec.mk 0 0 0) (Vec.mk 0 0 0) (Vec.mk 3 (-4) 11) (Vec.mk 7 2 13)
      (Vec.mk 6 0 20) (Vec.mk 0 0 (-1)) (Vec.mk 0 0 0) (Vec.mk 0 0 0)).1
      (by rw [float_box_O3_from_above]),
   (box_intersect_hit_on_face (Vec.mk 3 (-4) 11) (Vec.mk 7 2 13) (Vec.mk 6 0 20)
      (Vec.mk 0 0 (-1)) (Vec.mk 0 0 0) (Vec.mk 0 0 0) (Vec.mk 3 (-4) 11) (Vec.mk 7 2 13)
      (Vec.mk 6 0 20) (Vec.mk 0 0 (-1)) (Vec.mk 0 0 0) (Vec.mk 0 0 0)).2
      (by rw [box_O3_from_above])⟩

/-- C11 as stated fails in `float` arithmetic: the box `O[3]` of the scene, from
`(3,-4,11)` to `(7,2,13)`, and the ray from the origin along `(5.25, 0, 20)`.
`box_intersect` returns true on axis 0 with the normal `(-1,0,0)` and the point
`(12582913 * 2^-22, 0, 5991863 * 2^-19)`, about `(3.0000002, 0, 11.428572)`: `d` of line
27 is `3/5.25` rounded up, and the product `5.25 * d` rounded to `float` is one unit in the
last place above 3. No coordinate of the point equals the coordinate of `bmin` or of
`bmax` on its axis. -/
theorem float_box_point_off_face :
    F32.box_intersect (Vec.mk 3 (-4) 11) (Vec.mk 7 2 13) (Vec.mk 0 0 0)
        (Vec.mk (21 / 4) 0 20) (Vec.mk 0 0 0) (Vec.mk 0 0 0)
      = (true, Vec.mk (-1) 0 0, Vec.mk (12582913 / 4194304) 0 (5991863 / 524288))
    ∧ ¬ ∃ i : Nat, i < 3
        ∧ ((Vec.mk (12582913 / 4194304 : ℚ) 0 (5991863 / 524288)).get i
            = (Vec.mk (3 : ℚ) (-4) 11).get i
          ∨ (Vec.mk (12582913 / 4194304 : ℚ) 0 (5991863 / 524288)).get i
            = (Vec.mk (7 : ℚ) 2 13).get i) := by
  decide!

/-- The unit sphere centred at `(0,0,5)` and the ray from the origin along `(0,0,1)`: the
test succeeds with the normal `(0,0,-1)` and the point `(0,0,4)`. -/
theorem unit_sphere_from_origin :
    sphere_intersect Real.sqrt (Vec.mk 0 0 5) 1 (Vec.mk 0 0 0) (Vec.mk 0 0 1) (Vec.mk 0 0 0)
        (Vec.mk 0 0 0)
      = (true, Vec.mk 0 0 (-1), Vec.mk 0 0 4) := by
  simp [sphere_intersect, sphere_V, dot]
  norm_num

/-- C15, amended: a hit reported by `box_intersect`, for any direction, has a normal of
squared length 1 whose product with the ray direction is negative; this holds in `float`
arithmetic (first part), where the normal is a signed axis vector written as such, as in
exact real arithmetic (second part). A hit reported by `sphere_intersect` for a unit
direction and a radius `> 0` has a normal of length 1 whose product with the ray direction
is negative in exact real arithmetic (third part). -/
theorem hit_normal_against_ray
    (fmin fmax forigin fdirection fnormal fpoint : Vec ℚ)
    (bmin bmax box_origin box_direction : Vec ℝ)
    (center : Vec ℝ) (radius : ℝ) (ray_origin ray_direction : Vec ℝ) (normal point : Vec ℝ) :
    ((F32.box_intersect fmin fmax forigin fdirection fnormal fpoint).1 = true →
      dot (F32.box_intersect fmin fmax forigin fdirection fnormal fpoint).2.1
          (F32.box_intersect fmin fmax forigin fdirection fnormal fpoint).2.1 = 1
      ∧ dot (F32.box_intersect fmin fmax forigin fdirection fnormal fpoint).2.1
          fdirection < 0)
    ∧ ((box_intersect bmin bmax box_origin box_direction normal point).1 = true →
      Real.sqrt (dot (box_intersect bmin bmax box_origin box_direction normal point).2.1
          (box_intersect bmin bmax box_origin box_direction normal point).2.1) = 1
      ∧ dot (box_intersect bmin bmax box_origin box_direction normal point).2.1
          box_direction < 0)
    ∧ (dot ray_direction ray_direction = 1 → radius > 0 →
      (sphere_intersect Real.sqrt center radius ray_origin ray_direction normal point).1
        = true →
      Real.sqrt (dot
          (sphere_intersect Real.sqrt center radius ray_origin ray_direction normal point).2.1
          (sphere_intersect Real.sqrt center radius ray_origin ray_direction normal point).2.1)
        = 1
      ∧ dot
          (sphere_intersect Real.sqrt center radius ray_origin ray_direction normal point).2.1
          ray_direction < 0) := by
  refine ⟨?_, ?_, ?_⟩
  · intro h
    obtain ⟨i, hi, hne, hn, _, _⟩ :=
      float_box_intersect_true fmin fmax forigin fdirection fnormal fpoint h
    rw [hn]
    exact box_normal_unit_rat fdirection i hi hne
  · intro h
    obtain ⟨i, hi, hskip, _, hres, _⟩ :=
      box_intersect_true bmin bmax box_origin box_direction normal point h
    have hne : box_direction.get i ≠ 0 := by
      intro h0
      apply hskip
      rw [h0]
      norm_num
    obtain ⟨h1, h2⟩ := box_normal_unit box_direction i hi hne
    rw [hres]
    exact ⟨by rw [h1, Real.sqrt_one], h2⟩
  · intro hu hr h
    obtain ⟨hdelta, _, hres⟩ :=
      sphere_intersect_true Real.sqrt center radius ray_origin ray_direction normal point h
    obtain ⟨h1, h2⟩ := sphere_normal_unit center radius ray_origin ray_direction hu
      (ne_of_gt hr) (le_of_lt hdelta)
    rw [hres]
    refine ⟨by rw [h1, Real.sqrt_one], ?_⟩
    rw [h2]
    have hs := Real.sqrt_pos.2 hdelta
    exact div_neg_of_neg_of_pos (by linarith) hr

/-- Witness of the amended C15: the box `O[3]` hit from `(6,0,20)` along `(0,0,-1)`, in
both arithmetics, and the unit sphere centred at `(0,0,5)` hit from the origin along
`(0,0,1)`. -/
theorem hit_normal_against_ray_witness :
    ((F32.box_intersect (Vec.mk 3 (-4) 11) (Vec.mk 7 2 13) (Vec.mk 6 0 20) (Vec.mk 0 0 (-1))
        (Vec.mk 0 0 0) (Vec.mk 0 0 0)).1 = true
      ∧ (box_intersect (Vec.mk (3 : ℝ) (-4) 11) (Vec.mk 7 2 13) (Vec.mk 6 0 20)
          (Vec.mk 0 0 (-1)) (Vec.mk 0 0 0) (Vec.mk 0 0 0)).1 = true
      ∧ dot (Vec.mk (0 : ℝ) 0 1) (Vec.mk 0 0 1) = 1 ∧ (1 : ℝ) > 0
      ∧ (sphere_intersect Real.sqrt (Vec.mk 0 0 5) 1 (Vec.mk 0 0 0) (Vec.mk 0 0 1)
          (Vec.mk 0 0 0) (Vec.mk 0 0 0)).1 = true)
    ∧ (dot (F32.box_intersect (Vec.mk 3 (-4) 11) (Vec.mk 7 2 13) (Vec.mk 6 0 20)
            (Vec.mk 0 0 (-1)) (Vec.mk 0 0 0) (Vec.mk 0 0 0)).2.1
          (F32.box_intersect (Vec.mk 3 (-4) 11) (Vec.mk 7 2 13) (Vec.mk 6 0 20)
            (Vec.mk 0 0 (-1)) (Vec.mk 0 0 0) (Vec.mk 0 0 0)).2.1 = 1
      ∧ dot (F32.box_intersect (Vec.mk 3 (-4) 11) (Vec.mk 7 2 13) (Vec.mk 6 0 20)
            (Vec.mk 0 0 (-1)) (Vec.mk 0 0 0) (Vec.mk 0 0 0)).2.1 (Vec.mk 0 0 (-1)) < 0)
    ∧ (Real.sqrt (dot
          (box_intersect (Vec.mk (3 : ℝ) (-4) 11) (Vec.mk 7 2 13) (Vec.mk 6 0 20)
            (Vec.mk 0 0 (-1)) (Vec.mk 0 0 0) (Vec.mk 0 0 0)).2.1
          (box_intersect (Vec.mk (3 : ℝ) (-4) 11) (Vec.mk 7 2 13) (Vec.mk 6 0 20)
            (Vec.mk 0 0 (-1)) (Vec.mk 0 0 0) (Vec.mk 0 0 0)).2.1) = 1
      ∧ dot (box_intersect (Vec.mk (3 : ℝ) (-4) 11) (Vec.mk 7 2 13) (Vec.mk 6 0 20)
            (Vec.mk 0 0 (-1)) (Vec.mk 0 0 0) (Vec.mk 0 0 0)).2.1 (Vec.mk 0 0 (-1)) < 0)
    ∧ (Real.sqrt (dot
          (sphere_intersect Real.sqrt (Vec.mk 0 0 5) 1 (Vec.mk 0 0 0) (Vec.mk 0 0 1)
            (Vec.mk 0 0 0) (Vec.mk 0 0 0)).2.1
          (sphere_intersect Real.sqrt (Vec.mk 0 0 5) 1 (Vec.mk 0 0 0) (Vec.mk 0 0 1)
            (Vec.mk 0 0 0) (Vec.mk 0 0 0)).2.1) = 1
      ∧ dot (sphere_intersect Real.sqrt (Vec.mk 0 0 5) 1 (Vec.mk 0 0 0) (Vec.mk 0 0 1)
            (Vec.mk 0 0 0) (Vec.mk 0 0 0)).2.1 (Vec.mk 0 0 1) < 0) :=
  ⟨⟨by rw [float_box_O3_from_above], by rw [box_O3_from_above], by norm_num [dot],
      by norm_num, by rw [unit_sphere_from_origin]⟩,
   (hit_normal_against_ray (Vec.mk 3 (-4) 11) (Vec.mk 7 2 13) (Vec.mk 6 0 20)
      (Vec.mk 0 0 (-1)) (Vec.mk 0 0 0) (Vec.mk 0 0 0) (Vec.mk 3 (-4) 11) (Vec.mk 7 2 13)
      (Vec.mk 6 0 20) (Vec.mk 0 0 (-1)) (Vec.mk 0 0 5) 1 (Vec.mk 0 0 0) (Vec.mk 0 0 1)
      (Vec.mk 0 0 0) (Vec.mk 0 0 0)).1 (by rw [float_box_O3_from_above]),
   (hit_normal_against_ray (Vec.mk 3 (-4) 11) (Vec.mk 7 2 13) (Vec.mk 6 0 20)
      (Vec.mk 0 0 (-1)) (Vec.mk 0 0 0) (Vec.mk 0 0 0) (Vec.mk 3 (-4) 11) (Vec.mk 7 2 13)
      (Vec.mk 6 0 20) (Vec.mk 0 0 (-1)) (Vec.mk 0 0 5) 1 (Vec.mk 0 0 0) (Vec.mk 0 0 1)
      (Vec.mk 0 0 0) (Vec.mk 0 0 0)).2.1 (by rw [box_O3_from_above]),
   (hit_normal_against_ray (Vec.mk 3 (-4) 11) (Vec.mk 7 2 13) (Vec.mk 6 0 20)
      (Vec.mk 0 0 (-1)) (Vec.mk 0 0 0) (Vec.mk 0 0 0) (Vec.mk 3 (-4) 11) (Vec.mk 7 2 13)
      (Vec.mk 6 0 20) (Vec.mk 0 0 (-1)) (Vec.mk 0 0 5) 1 (Vec.mk 0 0 0) (Vec.mk 0 0 1)
      (Vec.mk 0 0 0) (Vec.mk 0 0 0)).2.2 (by norm_num [dot]) (by norm_num)
      (by rw [unit_sphere_from_origin])⟩

/-- C15 as stated fails in `float` arithmetic, for the sphere test. First input: centre
`(0.3f, 0.4f, 5)`, radius 1, the ray from the origin along `(0,0,1)`, of length exactly 1.
`sphere_intersect` returns true with the normal `(-0.3f, -0.4f, -0.8660254)`, whose
squared length is `1 + 99345869 * 2^-50`, about `1.00000009`, not 1. Second input: centre
`(4096, 1, 1)`, radius `1.25`, the ray from the origin along `(1,0,0)`, which passes the
centre at distance `sqrt 2 > 1.25`: `sphere_intersect` returns true (as in C7) with the
normal `(-1.1314453, -0.8, -0.8)`, of squared length about `2.56`, whether the squared
length is computed exactly or by the `float` function `dot`. -/
theorem float_sphere_normal_not_unit :
    dot (Vec.mk (0 : ℚ) 0 1) (Vec.mk 0 0 1) = 1 ∧ (1 : ℚ) > 0
    ∧ F32.sphere_intersect (Vec.mk (F32.f32 (3 / 10)) (F32.f32 (2 / 5)) 5) 1 (Vec.mk 0 0 0)
        (Vec.mk 0 0 1) (Vec.mk 0 0 0) (Vec.mk 0 0 0)
      = (true,
          Vec.mk (-(5033165 / 16777216)) (-(13421773 / 33554432)) (-(1816187 / 2097152)),
          Vec.mk 0 0 (8669573 / 2097152))
    ∧ dot (Vec.mk (-(5033165 / 16777216 : ℚ)) (-(13421773 / 33554432))
          (-(1816187 / 2097152)))
        (Vec.mk (-(5033165 / 16777216)) (-(13421773 / 33554432)) (-(1816187 / 2097152)))
      = 1 + 99345869 / 2 ^ 50
    ∧ dot (Vec.mk (1 : ℚ) 0 0) (Vec.mk 1 0 0) = 1 ∧ (5 / 4 : ℚ) > 0
    ∧ F32.sphere_intersect (Vec.mk 4096 1 1) (5 / 4) (Vec.mk 0 0 0) (Vec.mk 1 0 0)
        (Vec.mk 0 0 0) (Vec.mk 0 0 0)
      = (true,
          Vec.mk (-(9491251 / 8388608)) (-(13421773 / 16777216)) (-(13421773 / 16777216)),
          Vec.mk (16771423 / 4096) 0 0)
    ∧ dot (Vec.mk (-(9491251 / 8388608 : ℚ)) (-(13421773 / 16777216))
          (-(13421773 / 16777216)))
        (Vec.mk (-(9491251 / 8388608)) (-(13421773 / 16777216)) (-(13421773 / 16777216)))
      = 360311681553531 / 140737488355328
    ∧ F32.dot (Vec.mk (-(9491251 / 8388608 : ℚ)) (-(13421773 / 16777216))
          (-(13421773 / 16777216)))
        (Vec.mk (-(9491251 / 8388608)) (-(13421773 / 16777216)) (-(13421773 / 16777216)))
      = 10738125 / 4194304 := by
  decide!

/-- C16: for a unit direction `I` and a unit normal `N`, `reflect` returns exactly the
mirror direction `I - 2*dot(I,N)*N`, and that vector has length 1: the factor
`sqrt(dot(R,R))` of lines 92-93 is 1. -/
theorem reflect_unit (I N : Vec ℝ) (hI : dot I I = 1) (hN : dot N N = 1) :
    reflect Real.sqrt I N
      = Vec.mk (I.x - 2 * dot I N * N.x) (I.y - 2 * dot I N * N.y) (I.z - 2 * dot I N * N.z)
    ∧ Real.sqrt (dot (reflect Real.sqrt I N) (reflect Real.sqrt I N)) = 1 := by
  have hR : dot (Vec.mk (I.x - 2 * dot I N * N.x) (I.y - 2 * dot I N * N.y)
      (I.z - 2 * dot I N * N.z)) (Vec.mk (I.x - 2 * dot I N * N.x) (I.y - 2 * dot I N * N.y)
      (I.z - 2 * dot I N * N.z)) = 1 := by
    simp only [dot] at hI hN ⊢
    linear_combination hI + 4 * (I.x * N.x + I.y * N.y + I.z * N.z) ^ 2 * hN
  have hrefl : reflect Real.sqrt I N
      = Vec.mk (I.x - 2 * dot I N * N.x) (I.y - 2 * dot I N * N.y)
          (I.z - 2 * dot I N * N.z) := by
    simp only [reflect]
    rw [hR, Real.sqrt_one, mul_one, mul_one, mul_one]
  refine ⟨hrefl, ?_⟩
  rw [hrefl, hR, Real.sqrt_one]

/-- Witness of C16: the direction `(0,0,-1)` and the normal `(0,0,1)`. -/
theorem reflect_unit_witness :
    dot (Vec.mk (0 : ℝ) 0 (-1)) (Vec.mk 0 0 (-1)) = 1
    ∧ dot (Vec.mk (0 : ℝ) 0 1) (Vec.mk 0 0 1) = 1
    ∧ reflect Real.sqrt (Vec.mk 0 0 (-1)) (Vec.mk 0 0 1)
      = Vec.mk ((0 : ℝ) - 2 * dot (Vec.mk (0 : ℝ) 0 (-1)) (Vec.mk 0 0 1) * 0)
          (0 - 2 * dot (Vec.mk (0 : ℝ) 0 (-1)) (Vec.mk 0 0 1) * 0)
          (-1 - 2 * dot (Vec.mk (0 : ℝ) 0 (-1)) (Vec.mk 0 0 1) * 1)
    ∧ Real.sqrt (dot (reflect Real.sqrt (Vec.mk 0 0 (-1)) (Vec.mk 0 0 1))
        (reflect Real.sqrt (Vec.mk 0 0 (-1)) (Vec.mk 0 0 1))) = 1 :=
  ⟨by norm_num [dot], by norm_num [dot],
   reflect_unit (Vec.mk 0 0 (-1)) (Vec.mk 0 0 1) (by norm_num [dot]) (by norm_num [dot])⟩

/-- Every divisor used at line 27 has magnitude at least `1e-3`. -/
theorem box_divisors_large (bmin bmax ray_origin ray_direction : Vec ℝ) :
    ∀ (l : List Nat), ∀ x ∈ box_divisors bmin bmax ray_origin ray_direction l,
      |x| ≥ 1 / 1000 := by
  intro l
  induction l with
  | nil => intro x hx; simp [box_divisors] at hx
  | cons a rest ih =>
    intro x hx
    simp only [box_divisors] at hx
    by_cases hs : |ray_direction.get a| < 1 / 1000
    · rw [if_pos hs] at hx
      exact ih x hx
    · rw [if_neg hs] at hx
      by_cases ha : box_accept bmin bmax ray_origin ray_direction a = true
      · rw [if_pos ha] at hx
        rw [List.mem_singleton.1 hx]
        exact not_lt.1 hs
      · rw [if_neg ha] at hx
        rcases List.mem_cons.1 hx with rfl | hmem
        · exact not_lt.1 hs
        · exact ih x hmem

/-- The normal of lines 25-26 for axis `j` is `±e_i` only if `i = j`. -/
theorem box_normal_axis (ray_direction : Vec ℝ) (i j : Nat) (hi : i < 3) (hj : j < 3)
    (h : box_normal ray_direction j = (Vec.mk 0 0 0).set i 1
      ∨ box_normal ray_direction j = (Vec.mk 0 0 0).set i (-1)) : i = j := by
  have hi3 : i = 0 ∨ i = 1 ∨ i = 2 := by omega
  have hj3 : j = 0 ∨ j = 1 ∨ j = 2 := by omega
  rcases hi3 with rfl | rfl | rfl <;> rcases hj3 with rfl | rfl | rfl <;>
    first
    | rfl
    | (exfalso
       rcases h with h | h <;> simp [box_normal, Vec.set] at h)

/-- C18: `box_intersect` divides only by direction components of magnitude at least
`1e-3` (every divisor used at line 27), a hit with normal `+e_i` or `-e_i` has
`|ray_direction[i]| ≥ 1e-3`, and when all three components have magnitude below `1e-3`
the function returns false. -/
theorem box_intersect_small_component
    (bmin bmax ray_origin ray_direction normal point : Vec ℝ) :
    (∀ x ∈ box_divisors bmin bmax ray_origin ray_direction [0, 1, 2], |x| ≥ 1 / 1000)
    ∧ (∀ i : Nat, i < 3 →
        (box_intersect bmin bmax ray_origin ray_direction normal point).1 = true →
        ((box_intersect bmin bmax ray_origin ray_direction normal point).2.1
            = (Vec.mk 0 0 0).set i 1
          ∨ (box_intersect bmin bmax ray_origin ray_direction normal point).2.1
            = (Vec.mk 0 0 0).set i (-1)) →
        |ray_direction.get i| ≥ 1 / 1000)
    ∧ ((∀ i : Nat, i < 3 → |ray_direction.get i| < 1 / 1000) →
        (box_intersect bmin bmax ray_origin ray_direction normal point).1 = false) := by
  refine ⟨box_divisors_large bmin bmax ray_origin ray_direction [0, 1, 2], ?_, ?_⟩
  · intro i hi h hn
    obtain ⟨j, hj, hskip, _, hres, _⟩ :=
      box_intersect_true bmin bmax ray_origin ray_direction normal point h
    rw [hres] at hn
    have hij := box_normal_axis ray_direction i j hi hj hn
    rw [hij]
    exact not_lt.1 hskip
  · intro hall
    simp only [box_intersect, box_loop]
    rw [if_pos (hall 0 (by norm_num)), if_pos (hall 1 (by norm_num)),
      if_pos (hall 2 (by norm_num))]

/-- Witness of C18: the box `O[3]` hit on its face `+e_z` by the ray from `(6,0,20)` along
`(0,0,-1)`, and the direction `(0,0,0)`, all of whose components are below `1e-3`. -/
theorem box_intersect_small_component_witness :
    ((box_intersect (Vec.mk (3 : ℝ) (-4) 11) (Vec.mk 7 2 13) (Vec.mk 6 0 20) (Vec.mk 0 0 (-1))
        (Vec.mk 0 0 0) (Vec.mk 0 0 0)).1 = true
      ∧ (box_intersect (Vec.mk (3 : ℝ) (-4) 11) (Vec.mk 7 2 13) (Vec.mk 6 0 20)
          (Vec.mk 0 0 (-1)) (Vec.mk 0 0 0) (Vec.mk 0 0 0)).2.1 = (Vec.mk 0 0 0).set 2 1
      ∧ ∀ i : Nat, i < 3 → |(Vec.mk (0 : ℝ) 0 0).get i| < 1 / 1000)
    ∧ |(Vec.mk (0 : ℝ) 0 (-1)).get 2| ≥ 1 / 1000
    ∧ (box_intersect (Vec.mk (3 : ℝ) (-4) 11) (Vec.mk 7 2 13) (Vec.mk 6 0 20) (Vec.mk 0 0 0)
        (Vec.mk 0 0 0) (Vec.mk 0 0 0)).1 = false :=
  ⟨⟨by rw [box_O3_from_above], by rw [box_O3_from_above]; simp [Vec.set],
      by intro i _; simp [Vec.get]⟩,
   (box_intersect_small_component (Vec.mk 3 (-4) 11) (Vec.mk 7 2 13) (Vec.mk 6 0 20)
      (Vec.mk 0 0 (-1)) (Vec.mk 0 0 0) (Vec.mk 0 0 0)).2.1 2 (by norm_num)
      (by rw [box_O3_from_above]) (Or.inl (by rw [box_O3_from_above]; simp [Vec.set])),
   (box_intersect_small_component (Vec.mk 3 (-4) 11) (Vec.mk 7 2 13) (Vec.mk 6 0 20)
      (Vec.mk 0 0 0) (Vec.mk 0 0 0) (Vec.mk 0 0 0)).2.2
      (by intro i _; simp [Vec.get])⟩

/-- The azimuth of render.c is 30 degrees: `30 * pi / 180 = pi / 6`. -/
theorem azimuth_eq : azimuth Real.pi = Real.pi / 6 := by
  simp only [azimuth]; ring

/-- Normalising a vector of positive squared length gives a vector of squared length
1. -/
theorem normalize_unit (v : Vec ℝ) (hv : 0 < dot v v) :
    dot (normalize Real.sqrt v) (normalize Real.sqrt v) = 1 := by
  have hL := Real.mul_self_sqrt (le_of_lt hv)
  have hLpos := Real.sqrt_pos.2 hv
  have h1 : dot (normalize Real.sqrt v) (normalize Real.sqrt v)
      = dot v v / (Real.sqrt (dot v v) * Real.sqrt (dot v v)) := by
    simp only [normalize]
    generalize Real.sqrt (dot v v) = L at hLpos
    have hL0 : L ≠ 0 := ne_of_gt hLpos
    simp only [dot]
    field_simp
  rw [h1, hL]
  exact div_self (ne_of_gt hv)

/-- The squared length of the vector of line 115 is at least `focal^2 = 3600`. -/
theorem render_ray0_large (X Y : Int) :
    dot (Vec.mk ((X : ℝ) - (GL_width : ℝ) / 2) ((Y : ℝ) - (GL_height : ℝ) / 2) (focal : ℝ))
        (Vec.mk ((X : ℝ) - (GL_width : ℝ) / 2) ((Y : ℝ) - (GL_height : ℝ) / 2) (focal : ℝ))
      ≥ 3600 := by
  simp only [dot, focal]
  nlinarith [mul_self_nonneg ((X : ℝ) - (GL_width : ℝ) / 2),
    mul_self_nonneg ((Y : ℝ) - (GL_height : ℝ) / 2)]

/-- The ray that `render` passes to `trace` has squared length 1. -/
theorem render_ray_unit (X Y : Int) :
    dot (render_ray Real.sqrt Real.cos Real.sin Real.pi X Y)
        (render_ray Real.sqrt Real.cos Real.sin Real.pi X Y) = 1 := by
  have hn := normalize_unit
    (Vec.mk ((X : ℝ) - (GL_width : ℝ) / 2) ((Y : ℝ) - (GL_height : ℝ) / 2) (focal : ℝ))
    (lt_of_lt_of_le (by norm_num) (render_ray0_large X Y))
  simp only [render_ray]
  generalize normalize Real.sqrt
    (Vec.mk ((X : ℝ) - (GL_width : ℝ) / 2) ((Y : ℝ) - (GL_height : ℝ) / 2) (focal : ℝ)) = v
    at hn ⊢
  have hcs := Real.cos_sq_add_sin_sq (azimuth Real.pi)
  simp only [dot] at hn ⊢
  linear_combination hn + (v.x * v.x + v.z * v.z) * hcs

/-- C17: for all integer pixel coordinates `X`, `Y`, the vector of line 115 has
`dot(ray, ray) ≥ focal^2 = 3600 > 0`, so the normalisation of line 116 does not divide by
zero, and the direction that `render` passes to `trace`, after normalisation and rotation
by `azimuth`, has length exactly 1. -/
theorem render_ray_normalised (X Y : Int) :
    dot (Vec.mk ((X : ℝ) - (GL_width : ℝ) / 2) ((Y : ℝ) - (GL_height : ℝ) / 2) (focal : ℝ))
        (Vec.mk ((X : ℝ) - (GL_width : ℝ) / 2) ((Y : ℝ) - (GL_height : ℝ) / 2) (focal : ℝ))
      ≥ (focal : ℝ) ^ 2
    ∧ (focal : ℝ) ^ 2 = 3600
    ∧ Real.sqrt (dot
        (Vec.mk ((X : ℝ) - (GL_width : ℝ) / 2) ((Y : ℝ) - (GL_height : ℝ) / 2) (focal : ℝ))
        (Vec.mk ((X : ℝ) - (GL_width : ℝ) / 2) ((Y : ℝ) - (GL_height : ℝ) / 2) (focal : ℝ)))
      ≠ 0
    ∧ Real.sqrt (dot (render_ray Real.sqrt Real.cos Real.sin Real.pi X Y)
        (render_ray Real.sqrt Real.cos Real.sin Real.pi X Y)) = 1 := by
  have h := render_ray0_large X Y
  have hf : (focal : ℝ) ^ 2 = 3600 := by simp only [focal]; norm_num
  refine ⟨by rw [hf]; exact h, hf, ?_, ?_⟩
  · exact ne_of_gt (Real.sqrt_pos.2 (lt_of_lt_of_le (by norm_num) h))
  · rw [render_ray_unit, Real.sqrt_one]

/-! ## Scene: when a hit is reported and recorded -/

/-- The flag of the loop of `box_intersect` does not depend on the buffers. -/
theorem box_loop_flag (bmin bmax ray_origin ray_direction : Vec ℝ) :
    ∀ (l : List Nat) (normal point normal' point' : Vec ℝ),
      (box_loop bmin bmax ray_origin ray_direction l normal point).1
        = (box_loop bmin bmax ray_origin ray_direction l normal' point').1 := by
  intro l
  induction l with
  | nil => intro _ _ _ _; rfl
  | cons a rest ih =>
    intro normal point normal' point'
    simp only [box_loop]
    split_ifs
    · exact ih _ _ _ _
    · rfl
    · exact ih _ _ _ _

/-- The flag of the primitive test of lines 73-77 does not depend on the buffers. -/
theorem obj_intersect_flag (sqrt : ℝ → ℝ) (ray_origin ray_direction : Vec ℝ) (o : Obj ℝ)
    (p N p' N' : Vec ℝ) :
    (obj_intersect sqrt ray_origin ray_direction o p N).1
      = (obj_intersect sqrt ray_origin ray_direction o p' N').1 := by
  simp only [obj_intersect]
  split_ifs
  · exact box_loop_flag _ _ _ _ _ _ _ _ _
  · exact sphere_intersect_flag _ _ _ _ _ _ _ _ _

/-- After an iteration of the loop of `scene_intersect`, `scene_has_isect` is set exactly
when it was set before or the primitive test succeeded. -/
theorem scene_step_flag (sqrt : ℝ → ℝ) (ray_origin ray_direction : Vec ℝ)
    (s : SceneState ℝ) (o : Obj ℝ) :
    (scene_step sqrt ray_origin ray_direction s o).scene_has_isect = true
      ↔ s.scene_has_isect = true
        ∨ (obj_intersect sqrt ray_origin ray_direction o s.p s.N).1 = true := by
  cases h : (obj_intersect sqrt ray_origin ray_direction o s.p s.N).1 with
  | false => simp [scene_step, h]
  | true =>
    simp only [scene_step, h, if_true]
    split_ifs <;> simp

/-- After the loop of `scene_intersect` over `objs`, `scene_has_isect` is set exactly when
it was set before or the test of some primitive of `objs` succeeds. -/
theorem scene_loop_flag (sqrt : ℝ → ℝ) (ray_origin ray_direction : Vec ℝ) :
    ∀ (objs : List (Obj ℝ)) (s : SceneState ℝ),
      (scene_loop sqrt ray_origin ray_direction objs s).scene_has_isect = true
        ↔ s.scene_has_isect = true
          ∨ ∃ o ∈ objs, (obj_intersect sqrt ray_origin ray_direction o (Vec.mk 0 0 0)
              (Vec.mk 0 0 0)).1 = true := by
  intro objs
  induction objs with
  | nil => intro s; simp [scene_loop]
  | cons a rest ih =>
    intro s
    have hstep : scene_loop sqrt ray_origin ray_direction (a :: rest) s
        = scene_loop sqrt ray_origin ray_direction rest
            (scene_step sqrt ray_origin ray_direction s a) := rfl
    rw [hstep, ih, scene_step_flag,
      obj_intersect_flag sqrt ray_origin ray_direction a s.p s.N (Vec.mk 0 0 0) (Vec.mk 0 0 0)]
    simp only [List.mem_cons, exists_eq_or_imp]
    tauto

/-- C14: `scene_intersect` returns false if and only if the primitive test
(`box_intersect` for an object of radius 0, `sphere_intersect` otherwise) returns false
for every primitive of the table `O`, whatever the buffers hold. -/
theorem scene_intersect_false_iff (ray_origin ray_direction point normal color p N : Vec ℝ) :
    (scene_intersect Real.sqrt ray_origin ray_direction point normal color p N).1 = false
      ↔ ∀ o ∈ (O : List (Obj ℝ)), ∀ n q : Vec ℝ,
          (if o.radius = 0 then box_intersect o.p1 o.p2 ray_origin ray_direction n q
            else sphere_intersect Real.sqrt o.p1 o.radius ray_origin ray_direction n q).1
            = false := by
  have hflag := scene_loop_flag Real.sqrt ray_origin ray_direction O
    ⟨10 ^ 30, p, N, false, point, normal, color⟩
  have hsc : (scene_intersect Real.sqrt ray_origin ray_direction point normal color p N).1
      = (scene_loop Real.sqrt ray_origin ray_direction O
          ⟨10 ^ 30, p, N, false, point, normal, color⟩).scene_has_isect := rfl
  rw [hsc]
  constructor
  · intro h o ho n q
    have hob : (obj_intersect Real.sqrt ray_origin ray_direction o n q).1 = false := by
      rw [obj_intersect_flag Real.sqrt ray_origin ray_direction o n q (Vec.mk 0 0 0)
        (Vec.mk 0 0 0)]
      cases hc : (obj_intersect Real.sqrt ray_origin ray_direction o (Vec.mk 0 0 0)
          (Vec.mk 0 0 0)).1 with
      | false => rfl
      | true =>
        have := hflag.2 (Or.inr ⟨o, ho, hc⟩)
        rw [h] at this
        exact absurd this (by simp)
    exact hob
  · intro h
    cases hc : (scene_loop Real.sqrt ray_origin ray_direction O
        ⟨10 ^ 30, p, N, false, point, normal, color⟩).scene_has_isect with
    | false => rfl
    | true =>
      rcases hflag.1 hc with h0 | ⟨o, ho, hhit⟩
      · exact absurd h0 (by simp)
      · have := h o ho (Vec.mk 0 0 0) (Vec.mk 0 0 0)
        have hob : (obj_intersect Real.sqrt ray_origin ray_direction o (Vec.mk 0 0 0)
            (Vec.mk 0 0 0)).1 = false := this
        rw [hhit] at hob
        exact absurd hob (by simp)

/-- One iteration of the loop of `scene_intersect` keeps the following invariant, when a
successful test of the object gives `d < 1e30` at line 80: either no hit has been seen and
`nearest` is still `1e30`, or the output buffers hold the normal, the point (in this
order) and the colour of an object of `all` whose test succeeded. -/
theorem scene_step_written (sqrt : ℝ → ℝ) (ray_origin ray_direction : Vec ℝ)
    (all : List (Obj ℝ)) (s : SceneState ℝ) (o : Obj ℝ) (ho : o ∈ all)
    (hd : ∀ p N : Vec ℝ, (obj_intersect sqrt ray_origin ray_direction o p N).1 = true →
      distance2 ray_origin (obj_intersect sqrt ray_origin ray_direction o p N).2.1 < 10 ^ 30)
    (hs : (s.scene_has_isect = false ∧ s.nearest = 10 ^ 30)
      ∨ ∃ o' ∈ all, ∃ p N : Vec ℝ,
          (obj_intersect sqrt ray_origin ray_direction o' p N).1 = true
          ∧ s.point = (obj_intersect sqrt ray_origin ray_direction o' p N).2.1
          ∧ s.normal = (obj_intersect sqrt ray_origin ray_direction o' p N).2.2
          ∧ s.color = o'.color) :
    ((scene_step sqrt ray_origin ray_direction s o).scene_has_isect = false
        ∧ (scene_step sqrt ray_origin ray_direction s o).nearest = 10 ^ 30)
      ∨ ∃ o' ∈ all, ∃ p N : Vec ℝ,
          (obj_intersect sqrt ray_origin ray_direction o' p N).1 = true
          ∧ (scene_step sqrt ray_origin ray_direction s o).point
            = (obj_intersect sqrt ray_origin ray_direction o' p N).2.1
          ∧ (scene_step sqrt ray_origin ray_direction s o).normal
            = (obj_intersect sqrt ray_origin ray_direction o' p N).2.2
          ∧ (scene_step sqrt ray_origin ray_direction s o).color = o'.color := by
  cases h : (obj_intersect sqrt ray_origin ray_direction o s.p s.N).1 with
  | false =>
    have e1 : (scene_step sqrt ray_origin ray_direction s o).scene_has_isect
        = s.scene_has_isect := by simp [scene_step, h]
    have e2 : (scene_step sqrt ray_origin ray_direction s o).nearest = s.nearest := by
      simp [scene_step, h]
    have e3 : (scene_step sqrt ray_origin ray_direction s o).point = s.point := by
      simp [scene_step, h]
    have e4 : (scene_step sqrt ray_origin ray_direction s o).normal = s.normal := by
      simp [scene_step, h]
    have e5 : (scene_step sqrt ray_origin ray_direction s o).color = s.color := by
      simp [scene_step, h]
    rw [e1, e2, e3, e4, e5]
    exact hs
  | true =>
    right
    by_cases hlt : distance2 ray_origin
        (obj_intersect sqrt ray_origin ray_direction o s.p s.N).2.1 < s.nearest
    · refine ⟨o, ho, s.p, s.N, h, ?_, ?_, ?_⟩ <;> simp [scene_step, h, hlt]
    · rcases hs with ⟨_, hn⟩ | ⟨o', ho', p, N, h1, h2, h3, h4⟩
      · exact absurd (hn ▸ hd s.p s.N h) hlt
      · refine ⟨o', ho', p, N, h1, ?_, ?_, ?_⟩
        · rw [← h2]; simp [scene_step, h, hlt]
        · rw [← h3]; simp [scene_step, h, hlt]
        · rw [← h4]; simp [scene_step, h, hlt]

/-- The loop of `scene_intersect` keeps the invariant of `scene_step_written`. -/
theorem scene_loop_written (sqrt : ℝ → ℝ) (ray_origin ray_direction : Vec ℝ)
    (all : List (Obj ℝ)) :
    ∀ (objs : List (Obj ℝ)) (s : SceneState ℝ),
      (∀ o ∈ objs, o ∈ all) →
      (∀ o ∈ objs, ∀ p N : Vec ℝ,
        (obj_intersect sqrt ray_origin ray_direction o p N).1 = true →
        distance2 ray_origin (obj_intersect sqrt ray_origin ray_direction o p N).2.1
          < 10 ^ 30) →
      ((s.scene_has_isect = false ∧ s.nearest = 10 ^ 30)
        ∨ ∃ o' ∈ all, ∃ p N : Vec ℝ,
            (obj_intersect sqrt ray_origin ray_direction o' p N).1 = true
            ∧ s.point = (obj_intersect sqrt ray_origin ray_direction o' p N).2.1
            ∧ s.normal = (obj_intersect sqrt ray_origin ray_direction o' p N).2.2
            ∧ s.color = o'.color) →
      ((scene_loop sqrt ray_origin ray_direction objs s).scene_has_isect = false
          ∧ (scene_loop sqrt ray_origin ray_direction objs s).nearest = 10 ^ 30)
        ∨ ∃ o' ∈ all, ∃ p N : Vec ℝ,
            (obj_intersect sqrt ray_origin ray_direction o' p N).1 = true
            ∧ (scene_loop sqrt ray_origin ray_direction objs s).point
              = (obj_intersect sqrt ray_origin ray_direction o' p N).2.1
            ∧ (scene_loop sqrt ray_origin ray_direction objs s).normal
              = (obj_intersect sqrt ray_origin ray_direction o' p N).2.2
            ∧ (scene_loop sqrt ray_origin ray_direction objs s).color = o'.color := by
  intro objs
  induction objs with
  | nil => intro s _ _ hs; exact hs
  | cons a rest ih =>
    intro s hsub hd hs
    have hstep : scene_loop sqrt ray_origin ray_direction (a :: rest) s
        = scene_loop sqrt ray_origin ray_direction rest
            (scene_step sqrt ray_origin ray_direction s a) := rfl
    rw [hstep]
    apply ih _ (fun o ho => hsub o (List.mem_cons_of_mem a ho))
      (fun o ho => hd o (List.mem_cons_of_mem a ho))
    exact scene_step_written sqrt ray_origin ray_direction all s a
      (hsub a (List.mem_cons_self a rest)) (hd a (List.mem_cons_self a rest)) hs

/-- When every successful primitive test gives `d < 1e30` at line 80, a call of
`scene_intersect` that returns true has written its outputs: they hold the normal and the
point (in this order) written by the test of a primitive `o` of the table `O` that the ray
hits, and the colour of `o`. -/
theorem scene_intersect_written (sqrt : ℝ → ℝ)
    (ray_origin ray_direction point normal color p N : Vec ℝ)
    (hd : ∀ o ∈ (O : List (Obj ℝ)), ∀ p N : Vec ℝ,
      (obj_intersect sqrt ray_origin ray_direction o p N).1 = true →
      distance2 ray_origin (obj_intersect sqrt ray_origin ray_direction o p N).2.1 < 10 ^ 30)
    (h : (scene_intersect sqrt ray_origin ray_direction point normal color p N).1 = true) :
    ∃ o ∈ (O : List (Obj ℝ)), ∃ p' N' : Vec ℝ,
      (obj_intersect sqrt ray_origin ray_direction o p' N').1 = true
      ∧ (scene_intersect sqrt ray_origin ray_direction point normal color p N).2.1
        = (obj_intersect sqrt ray_origin ray_direction o p' N').2.1
      ∧ (scene_intersect sqrt ray_origin ray_direction point normal color p N).2.2.1
        = (obj_intersect sqrt ray_origin ray_direction o p' N').2.2
      ∧ (scene_intersect sqrt ray_origin ray_direction point normal color p N).2.2.2
        = o.color := by
  have hinv := scene_loop_written sqrt ray_origin ray_direction O O
    ⟨10 ^ 30, p, N, false, point, normal, color⟩ (fun _ ho => ho) hd (Or.inl ⟨rfl, rfl⟩)
  rcases hinv with ⟨hf, _⟩ | hw
  · have h' : (scene_loop sqrt ray_origin ray_direction O
        ⟨10 ^ 30, p, N, false, point, normal, color⟩).scene_has_isect = true := h
    rw [hf] at h'
    exact absurd h' (by simp)
  · exact hw

/-! ## The chain of trace invocations -/

/-- An invocation of `trace` at `depth ≤ maxdepth + 1` causes at most
`maxdepth + 2 - depth` invocations, itself included. -/
theorem trace_calls_length (junk : Int → Frame ℝ) (maxdepth : Int) :
    ∀ (n : Nat) (eye ray : Vec ℝ) (depth : Int),
      (maxdepth + 1 - depth).toNat ≤ n → depth ≤ maxdepth + 1 →
      ((trace_calls Real.sqrt junk eye ray depth maxdepth).length : Int)
        ≤ maxdepth + 2 - depth := by
  intro n
  induction n with
  | zero =>
    intro eye ray depth hn hd
    have hgt : depth > maxdepth := by omega
    rw [trace_calls, if_pos hgt]
    simp only [List.length_singleton]
    omega
  | succ n ih =>
    intro eye ray depth hn hd
    rw [trace_calls]
    by_cases hgt : depth > maxdepth
    · rw [if_pos hgt]
      simp only [List.length_singleton]
      omega
    · rw [if_neg hgt]
      simp only []
      split_ifs
      · simp only [List.length_singleton]
        omega
      · simp only [List.length_singleton]
        omega
      · simp only [List.length_cons]
        have := ih
          (scene_intersect Real.sqrt eye ray (junk depth).point (junk depth).normal
            (junk depth).color (junk depth).p (junk depth).N).2.1
          (reflect Real.sqrt ray
            (scene_intersect Real.sqrt eye ray (junk depth).point (junk depth).normal
              (junk depth).color (junk depth).p (junk depth).N).2.2.1)
          (depth + 1) (by omega) (by omega)
        push_cast
        omega

/-- C12, amended: for `maxdepth ≥ 0`, the top-level call `trace(eye, ray, 0, maxdepth)`
causes at most `maxdepth + 2` invocations of `trace`, itself included: one at each depth
`0, ..., maxdepth + 1`. -/
theorem trace_calls_bound (junk : Int → Frame ℝ) (eye ray : Vec ℝ) (maxdepth : Int)
    (hmax : 0 ≤ maxdepth) :
    ((trace_calls Real.sqrt junk eye ray 0 maxdepth).length : Int) ≤ maxdepth + 2 := by
  have h := trace_calls_length junk maxdepth (maxdepth + 1 - 0).toNat eye ray 0 (le_refl _)
    (by omega)
  omega

/-- The ray from `(4,1,20)` along `(0,0,-1)` hits the box `O[3]` only, on its face
`z = 13`. -/
theorem scene_intersect_box_top (point normal color p N : Vec ℝ) :
    scene_intersect Real.sqrt (Vec.mk 4 1 20) (Vec.mk 0 0 (-1)) point normal color p N
      = (true, Vec.mk 0 0 1, Vec.mk 4 1 13, Vec.mk (2 / 5) (7 / 10) 1) := by
  simp [scene_intersect, scene_loop, scene_step, obj_intersect, O, sphere_intersect,
    sphere_V, dot, distance2, box_intersect, box_loop, box_accept, box_d, box_point,
    box_normal, Vec.get, Vec.set]
  norm_num

/-- Witness of the amended C12: `maxdepth = 3`, the ray from `(4,1,20)` along
`(0,0,-1)`. -/
theorem trace_calls_bound_witness :
    (0 : Int) ≤ 3
    ∧ ((trace_calls Real.sqrt
          (fun _ => ⟨Vec.mk 0 0 0, Vec.mk 0 0 0, Vec.mk 0 0 0, Vec.mk 0 0 0, Vec.mk 0 0 0⟩)
          (Vec.mk 4 1 20) (Vec.mk 0 0 (-1)) 0 3).length : Int) ≤ 3 + 2 :=
  ⟨by decide,
   trace_calls_bound
    (fun _ => ⟨Vec.mk 0 0 0, Vec.mk 0 0 0, Vec.mk 0 0 0, Vec.mk 0 0 0, Vec.mk 0 0 0⟩)
    (Vec.mk 4 1 20) (Vec.mk 0 0 (-1)) 3 (by decide)⟩

/-- C12 as stated fails: with `maxdepth = 0`, the ray from `(4,1,20)` along `(0,0,-1)`
hits the box `O[3]`, which is not a lamp, so the top-level invocation at depth 0 calls
`trace` at depth 1, which returns at line 102: two invocations, more than
`maxdepth + 1 = 1`. -/
theorem trace_calls_counterexample :
    trace_calls Real.sqrt
        (fun _ => ⟨Vec.mk 0 0 0, Vec.mk 0 0 0, Vec.mk 0 0 0, Vec.mk 0 0 0, Vec.mk 0 0 0⟩)
        (Vec.mk 4 1 20) (Vec.mk 0 0 (-1)) 0 0
      = [(0, Vec.mk 4 1 20, Vec.mk 0 0 (-1)),
         (1, Vec.mk 0 0 1, reflect Real.sqrt (Vec.mk 0 0 (-1)) (Vec.mk 4 1 13))]
    ∧ ¬ (((trace_calls Real.sqrt
          (fun _ => ⟨Vec.mk 0 0 0, Vec.mk 0 0 0, Vec.mk 0 0 0, Vec.mk 0 0 0, Vec.mk 0 0 0⟩)
          (Vec.mk 4 1 20) (Vec.mk 0 0 (-1)) 0 0).length : Int) ≤ 0 + 1) := by
  have h : trace_calls Real.sqrt
        (fun _ => ⟨Vec.mk 0 0 0, Vec.mk 0 0 0, Vec.mk 0 0 0, Vec.mk 0 0 0, Vec.mk 0 0 0⟩)
        (Vec.mk 4 1 20) (Vec.mk 0 0 (-1)) 0 0
      = [(0, Vec.mk 4 1 20, Vec.mk 0 0 (-1)),
         (1, Vec.mk 0 0 1, reflect Real.sqrt (Vec.mk 0 0 (-1)) (Vec.mk 4 1 13))] := by
    rw [trace_calls]
    simp only [scene_intersect_box_top]
    rw [trace_calls]
    norm_num
  refine ⟨h, ?_⟩
  rw [h]
  decide

/-! ## Scene: when the outputs are written -/

/-- When the loop of `box_intersect` returns true, what it returns does not depend on the
buffers. -/
theorem box_loop_hit_indep (bmin bmax ray_origin ray_direction : Vec ℝ) :
    ∀ (l : List Nat) (normal point normal' point' : Vec ℝ),
      (box_loop bmin bmax ray_origin ray_direction l normal point).1 = true →
      box_loop bmin bmax ray_origin ray_direction l normal point
        = box_loop bmin bmax ray_origin ray_direction l normal' point' := by
  intro l
  induction l with
  | nil => intro _ _ _ _ h; simp [box_loop] at h
  | cons a rest ih =>
    intro normal point normal' point' h
    simp only [box_loop] at h ⊢
    split_ifs with h1 h2
    · rw [if_pos h1] at h
      exact ih _ _ _ _ h
    · rfl
    · rfl

/-- When the primitive test of lines 73-77 succeeds, what it returns does not depend on
the buffers. -/
theorem obj_intersect_hit_indep (sqrt : ℝ → ℝ) (ray_origin ray_direction : Vec ℝ)
    (o : Obj ℝ) (p N p' N' : Vec ℝ)
    (h : (obj_intersect sqrt ray_origin ray_direction o p N).1 = true) :
    obj_intersect sqrt ray_origin ray_direction o p N
      = obj_intersect sqrt ray_origin ray_direction o p' N' := by
  simp only [obj_intersect] at h ⊢
  split_ifs with hr
  · rw [if_pos hr] at h
    exact box_loop_hit_indep _ _ _ _ _ _ _ _ _ h
  · rw [if_neg hr] at h
    rw [sphere_intersect_eq] at h
    rw [sphere_intersect_eq, sphere_intersect_eq]
    split_ifs at h ⊢
    rfl

/-- An iteration of the loop of `scene_intersect` keeps the output buffers written: if they
hold the two buffers written by the successful test of an object of `all` and its colour,
they still do afterwards. -/
theorem scene_step_keeps_written (sqrt : ℝ → ℝ) (ray_origin ray_direction : Vec ℝ)
    (all : List (Obj ℝ)) (s : SceneState ℝ) (o : Obj ℝ) (ho : o ∈ all)
    (hs : ∃ o' ∈ all, ∃ p N : Vec ℝ,
        (obj_intersect sqrt ray_origin ray_direction o' p N).1 = true
        ∧ s.point = (obj_intersect sqrt ray_origin ray_direction o' p N).2.1
        ∧ s.normal = (obj_intersect sqrt ray_origin ray_direction o' p N).2.2
        ∧ s.color = o'.color) :
    ∃ o' ∈ all, ∃ p N : Vec ℝ,
        (obj_intersect sqrt ray_origin ray_direction o' p N).1 = true
        ∧ (scene_step sqrt ray_origin ray_direction s o).point
          = (obj_intersect sqrt ray_origin ray_direction o' p N).2.1
        ∧ (scene_step sqrt ray_origin ray_direction s o).normal
          = (obj_intersect sqrt ray_origin ray_direction o' p N).2.2
        ∧ (scene_step sqrt ray_origin ray_direction s o).color = o'.color := by
  cases h : (obj_intersect sqrt ray_origin ray_direction o s.p s.N).1 with
  | false =>
    obtain ⟨o', ho', p, N, h1, h2, h3, h4⟩ := hs
    refine ⟨o', ho', p, N, h1, ?_, ?_, ?_⟩
    · rw [← h2]; simp [scene_step, h]
    · rw [← h3]; simp [scene_step, h]
    · rw [← h4]; simp [scene_step, h]
  | true =>
    by_cases hlt : distance2 ray_origin
        (obj_intersect sqrt ray_origin ray_direction o s.p s.N).2.1 < s.nearest
    · refine ⟨o, ho, s.p, s.N, h, ?_, ?_, ?_⟩ <;> simp [scene_step, h, hlt]
    · obtain ⟨o', ho', p, N, h1, h2, h3, h4⟩ := hs
      refine ⟨o', ho', p, N, h1, ?_, ?_, ?_⟩
      · rw [← h2]; simp [scene_step, h, hlt]
      · rw [← h3]; simp [scene_step, h, hlt]
      · rw [← h4]; simp [scene_step, h, hlt]

/-- The loop of `scene_intersect` keeps the output buffers written. -/
theorem scene_loop_keeps_written (sqrt : ℝ → ℝ) (ray_origin ray_direction : Vec ℝ)
    (all : List (Obj ℝ)) :
    ∀ (objs : List (Obj ℝ)) (s : SceneState ℝ),
      (∀ o ∈ objs, o ∈ all) →
      (∃ o' ∈ all, ∃ p N : Vec ℝ,
        (obj_intersect sqrt ray_origin ray_direction o' p N).1 = true
        ∧ s.point = (obj_intersect sqrt ray_origin ray_direction o' p N).2.1
        ∧ s.normal = (obj_intersect sqrt ray_origin ray_direction o' p N).2.2
        ∧ s.color = o'.color) →
      ∃ o' ∈ all, ∃ p N : Vec ℝ,
        (obj_intersect sqrt ray_origin ray_direction o' p N).1 = true
        ∧ (scene_loop sqrt ray_origin ray_direction objs s).point
          = (obj_intersect sqrt ray_origin ray_direction o' p N).2.1
        ∧ (scene_loop sqrt ray_origin ray_direction objs s).normal
          = (obj_intersect sqrt ray_origin ray_direction o' p N).2.2
        ∧ (scene_loop sqrt ray_origin ray_direction objs s).color = o'.color := by
  intro objs
  induction objs with
  | nil => intro s _ hs; exact hs
  | cons a rest ih =>
    intro s hsub hs
    have hstep : scene_loop sqrt ray_origin ray_direction (a :: rest) s
        = scene_loop sqrt ray_origin ray_direction rest
            (scene_step sqrt ray_origin ray_direction s a) := rfl
    rw [hstep]
    exact ih _ (fun o ho => hsub o (List.mem_cons_of_mem a ho))
      (scene_step_keeps_written sqrt ray_origin ray_direction all s a
        (hsub a (List.mem_cons_self a rest)) hs)

/-- An iteration of the loop of `scene_intersect` that starts with `nearest` at its
initial value `1e30` either writes the output buffers, or leaves `nearest` at `1e30`, and
then the test of its object, if it succeeds, does not give `d < 1e30` at line 80. -/
theorem scene_step_first (sqrt : ℝ → ℝ) (ray_origin ray_direction : Vec ℝ)
    (all : List (Obj ℝ)) (s : SceneState ℝ) (o : Obj ℝ) (ho : o ∈ all)
    (hn : s.nearest = 10 ^ 30) :
    (∃ o' ∈ all, ∃ p N : Vec ℝ,
        (obj_intersect sqrt ray_origin ray_direction o' p N).1 = true
        ∧ (scene_step sqrt ray_origin ray_direction s o).point
          = (obj_intersect sqrt ray_origin ray_direction o' p N).2.1
        ∧ (scene_step sqrt ray_origin ray_direction s o).normal
          = (obj_intersect sqrt ray_origin ray_direction o' p N).2.2
        ∧ (scene_step sqrt ray_origin ray_direction s o).color = o'.color)
    ∨ ((scene_step sqrt ray_origin ray_direction s o).nearest = 10 ^ 30
      ∧ ∀ p N : Vec ℝ, (obj_intersect sqrt ray_origin ray_direction o p N).1 = true →
          ¬ distance2 ray_origin (obj_intersect sqrt ray_origin ray_direction o p N).2.1
            < 10 ^ 30) := by
  cases h : (obj_intersect sqrt ray_origin ray_direction o s.p s.N).1 with
  | false =>
    right
    refine ⟨by simp [scene_step, h, hn], ?_⟩
    intro p N hp
    rw [obj_intersect_flag sqrt ray_origin ray_direction o p N s.p s.N, h] at hp
    exact absurd hp (by simp)
  | true =>
    by_cases hlt : distance2 ray_origin
        (obj_intersect sqrt ray_origin ray_direction o s.p s.N).2.1 < s.nearest
    · left
      refine ⟨o, ho, s.p, s.N, h, ?_, ?_, ?_⟩ <;> simp [scene_step, h, hlt]
    · right
      have hlt' := hlt
      rw [hn] at hlt'
      refine ⟨by simp [scene_step, h, hn, hlt'], ?_⟩
      intro p N hp
      rw [obj_intersect_hit_indep sqrt ray_origin ray_direction o p N s.p s.N hp, ← hn]
      exact hlt

/-- The loop of `scene_intersect`, started with `nearest` at its initial value `1e30`,
either writes the output buffers or meets no object whose test succeeds with `d < 1e30`
at line 80. -/
theorem scene_loop_first (sqrt : ℝ → ℝ) (ray_origin ray_direction : Vec ℝ)
    (all : List (Obj ℝ)) :
    ∀ (objs : List (Obj ℝ)) (s : SceneState ℝ),
      (∀ o ∈ objs, o ∈ all) → s.nearest = 10 ^ 30 →
      (∃ o' ∈ all, ∃ p N : Vec ℝ,
          (obj_intersect sqrt ray_origin ray_direction o' p N).1 = true
          ∧ (scene_loop sqrt ray_origin ray_direction objs s).point
            = (obj_intersect sqrt ray_origin ray_direction o' p N).2.1
          ∧ (scene_loop sqrt ray_origin ray_direction objs s).normal
            = (obj_intersect sqrt ray_origin ray_direction o' p N).2.2
          ∧ (scene_loop sqrt ray_origin ray_direction objs s).color = o'.color)
      ∨ ((scene_loop sqrt ray_origin ray_direction objs s).nearest = 10 ^ 30
        ∧ ∀ o ∈ objs, ∀ p N : Vec ℝ,
            (obj_intersect sqrt ray_origin ray_direction o p N).1 = true →
            ¬ distance2 ray_origin (obj_intersect sqrt ray_origin ray_direction o p N).2.1
              < 10 ^ 30) := by
  intro objs
  induction objs with
  | nil =>
    intro s _ hn
    right
    exact ⟨hn, fun o ho => absurd ho (List.not_mem_nil o)⟩
  | cons a rest ih =>
    intro s hsub hn
    have hstep : scene_loop sqrt ray_origin ray_direction (a :: rest) s
        = scene_loop sqrt ray_origin ray_direction rest
            (scene_step sqrt ray_origin ray_direction s a) := rfl
    rw [hstep]
    rcases scene_step_first sqrt ray_origin ray_direction all s a
        (hsub a (List.mem_cons_self a rest)) hn with hw | ⟨hn1, hfar⟩
    · left
      exact scene_loop_keeps_written sqrt ray_origin ray_direction all rest _
        (fun o ho => hsub o (List.mem_cons_of_mem a ho)) hw
    · rcases ih _ (fun o ho => hsub o (List.mem_cons_of_mem a ho)) hn1 with hw | ⟨hn2, hfar2⟩
      · left; exact hw
      · right
        refine ⟨hn2, ?_⟩
        intro o ho
        rcases List.mem_cons.1 ho with rfl | hmem
        · exact hfar
        · exact hfar2 o hmem

/-- An iteration of the loop of `scene_intersect` that starts with `nearest` at its
initial value `1e30`, on an object whose test, if it succeeds, does not give `d < 1e30` at
line 80, leaves `nearest` and the three output buffers as they were. -/
theorem scene_step_far (sqrt : ℝ → ℝ) (ray_origin ray_direction : Vec ℝ)
    (s : SceneState ℝ) (o : Obj ℝ) (hn : s.nearest = 10 ^ 30)
    (hfar : ∀ p N : Vec ℝ, (obj_intersect sqrt ray_origin ray_direction o p N).1 = true →
      ¬ distance2 ray_origin (obj_intersect sqrt ray_origin ray_direction o p N).2.1
        < 10 ^ 30) :
    (scene_step sqrt ray_origin ray_direction s o).nearest = 10 ^ 30
    ∧ (scene_step sqrt ray_origin ray_direction s o).point = s.point
    ∧ (scene_step sqrt ray_origin ray_direction s o).normal = s.normal
    ∧ (scene_step sqrt ray_origin ray_direction s o).color = s.color := by
  cases h : (obj_intersect sqrt ray_origin ray_direction o s.p s.N).1 with
  | false => simp [scene_step, h, hn]
  | true =>
    have hlt := hfar s.p s.N h
    simp [scene_step, h, hn, hlt]

/-- The loop of `scene_intersect`, started with `nearest` at its initial value `1e30`, over
objects whose tests, if they succeed, do not give `d < 1e30` at line 80, leaves `nearest`
and the three output buffers as they were. -/
theorem scene_loop_far (sqrt : ℝ → ℝ) (ray_origin ray_direction : Vec ℝ) :
    ∀ (objs : List (Obj ℝ)) (s : SceneState ℝ),
      s.nearest = 10 ^ 30 →
      (∀ o ∈ objs, ∀ p N : Vec ℝ,
        (obj_intersect sqrt ray_origin ray_direction o p N).1 = true →
        ¬ distance2 ray_origin (obj_intersect sqrt ray_origin ray_direction o p N).2.1
          < 10 ^ 30) →
      (scene_loop sqrt ray_origin ray_direction objs s).nearest = 10 ^ 30
      ∧ (scene_loop sqrt ray_origin ray_direction objs s).point = s.point
      ∧ (scene_loop sqrt ray_origin ray_direction objs s).normal = s.normal
      ∧ (scene_loop sqrt ray_origin ray_direction objs s).color = s.color := by
  intro objs
  induction objs with
  | nil => intro s hn _; exact ⟨hn, rfl, rfl, rfl⟩
  | cons a rest ih =>
    intro s hn hfar
    have hstep : scene_loop sqrt ray_origin ray_direction (a :: rest) s
        = scene_loop sqrt ray_origin ray_direction rest
            (scene_step sqrt ray_origin ray_direction s a) := rfl
    obtain ⟨h1, h2, h3, h4⟩ := scene_step_far sqrt ray_origin ray_direction s a hn
      (hfar a (List.mem_cons_self a rest))
    obtain ⟨g1, g2, g3, g4⟩ := ih _ h1 (fun o ho => hfar o (List.mem_cons_of_mem a ho))
    rw [hstep]
    exact ⟨g1, g2.trans h2, g3.trans h3, g4.trans h4⟩

/-- C19, amended: whenever `scene_intersect` returns true and the value `d` of line 80 is
below the initial `nearest = 1e30` for at least one primitive of the table `O` that the ray
hits, the three output buffers have been overwritten with data of a primitive `o` that the
ray hits: `point` and `normal` hold the two buffers written by the test of `o` (in the
order in which `scene_intersect` passes them, see C2) and `color` holds the colour of
`o`. When `d` is not below `1e30` for any primitive that the ray hits, the three output
buffers hold at the return what they held at the call. Neither part needs the hypothesis
that the function returns true, which is the claim's. -/
theorem scene_outputs_written_when_near
    (ray_origin ray_direction point normal color p N : Vec ℝ)
    (h : (scene_intersect Real.sqrt ray_origin ray_direction point normal color p N).1 = true) :
    ((∃ o ∈ (O : List (Obj ℝ)), ∃ p' N' : Vec ℝ,
        (obj_intersect Real.sqrt ray_origin ray_direction o p' N').1 = true
        ∧ distance2 ray_origin (obj_intersect Real.sqrt ray_origin ray_direction o p' N').2.1
          < 10 ^ 30) →
      ∃ o ∈ (O : List (Obj ℝ)), ∃ p' N' : Vec ℝ,
        (obj_intersect Real.sqrt ray_origin ray_direction o p' N').1 = true
        ∧ (scene_intersect Real.sqrt ray_origin ray_direction point normal color p N).2.1
          = (obj_intersect Real.sqrt ray_origin ray_direction o p' N').2.1
        ∧ (scene_intersect Real.sqrt ray_origin ray_direction point normal color p N).2.2.1
          = (obj_intersect Real.sqrt ray_origin ray_direction o p' N').2.2
        ∧ (scene_intersect Real.sqrt ray_origin ray_direction point normal color p N).2.2.2
          = o.color)
    ∧ ((∀ o ∈ (O : List (Obj ℝ)), ∀ p' N' : Vec ℝ,
        (obj_intersect Real.sqrt ray_origin ray_direction o p' N').1 = true →
        ¬ distance2 ray_origin (obj_intersect Real.sqrt ray_origin ray_direction o p' N').2.1
          < 10 ^ 30) →
      (scene_intersect Real.sqrt ray_origin ray_direction point normal color p N).2.1 = point
      ∧ (scene_intersect Real.sqrt ray_origin ray_direction point normal color p N).2.2.1
        = normal
      ∧ (scene_intersect Real.sqrt ray_origin ray_direction point normal color p N).2.2.2
        = color) := by
  constructor
  · intro hnear
    rcases scene_loop_first Real.sqrt ray_origin ray_direction O O
      ⟨10 ^ 30, p, N, false, point, normal, color⟩ (fun _ ho => ho) rfl with hw | ⟨_, hfar⟩
    · exact hw
    · obtain ⟨o, ho, p', N', h1, h2⟩ := hnear
      exact absurd h2 (hfar o ho p' N' h1)
  · intro hfar
    obtain ⟨_, h2, h3, h4⟩ := scene_loop_far Real.sqrt ray_origin ray_direction O
      ⟨10 ^ 30, p, N, false, point, normal, color⟩ rfl hfar
    exact ⟨h2, h3, h4⟩

/-- Witness of the amended C19: the ray from `(4,1,20)` along `(0,0,-1)`, which hits the
box `O[3]` with `d = 378` at line 80, and buffers that hold `(7,7,7)`, `(8,8,8)`,
`(9,9,9)` at the call. -/
theorem scene_outputs_written_when_near_witness :
    (scene_intersect Real.sqrt (Vec.mk 4 1 20) (Vec.mk 0 0 (-1)) (Vec.mk 7 7 7) (Vec.mk 8 8 8)
        (Vec.mk 9 9 9) (Vec.mk 0 0 0) (Vec.mk 0 0 0)).1 = true
    ∧ (∃ o ∈ (O : List (Obj ℝ)), ∃ p' N' : Vec ℝ,
        (obj_intersect Real.sqrt (Vec.mk 4 1 20) (Vec.mk 0 0 (-1)) o p' N').1 = true
        ∧ distance2 (Vec.mk 4 1 20)
            (obj_intersect Real.sqrt (Vec.mk 4 1 20) (Vec.mk 0 0 (-1)) o p' N').2.1 < 10 ^ 30)
    ∧ ∃ o ∈ (O : List (Obj ℝ)), ∃ p' N' : Vec ℝ,
        (obj_intersect Real.sqrt (Vec.mk 4 1 20) (Vec.mk 0 0 (-1)) o p' N').1 = true
        ∧ (scene_intersect Real.sqrt (Vec.mk 4 1 20) (Vec.mk 0 0 (-1)) (Vec.mk 7 7 7)
            (Vec.mk 8 8 8) (Vec.mk 9 9 9) (Vec.mk 0 0 0) (Vec.mk 0 0 0)).2.1
          = (obj_intersect Real.sqrt (Vec.mk 4 1 20) (Vec.mk 0 0 (-1)) o p' N').2.1
        ∧ (scene_intersect Real.sqrt (Vec.mk 4 1 20) (Vec.mk 0 0 (-1)) (Vec.mk 7 7 7)
            (Vec.mk 8 8 8) (Vec.mk 9 9 9) (Vec.mk 0 0 0) (Vec.mk 0 0 0)).2.2.1
          = (obj_intersect Real.sqrt (Vec.mk 4 1 20) (Vec.mk 0 0 (-1)) o p' N').2.2
        ∧ (scene_intersect Real.sqrt (Vec.mk 4 1 20) (Vec.mk 0 0 (-1)) (Vec.mk 7 7 7)
            (Vec.mk 8 8 8) (Vec.mk 9 9 9) (Vec.mk 0 0 0) (Vec.mk 0 0 0)).2.2.2
          = o.color :=
  have hbox : obj_intersect Real.sqrt (Vec.mk 4 1 20) (Vec.mk 0 0 (-1))
      ⟨⟨2 / 5, 7 / 10, 1⟩, ⟨3, -4, 11⟩, ⟨7, 2, 13⟩, 0⟩ (Vec.mk 0 0 0) (Vec.mk 0 0 0)
      = (true, Vec.mk 0 0 1, Vec.mk 4 1 13) := by
    simp [obj_intersect, box_intersect, box_loop, box_accept, box_d, box_point, box_normal,
      Vec.get, Vec.set]
    norm_num
  have hnear : ∃ o ∈ (O : List (Obj ℝ)), ∃ p' N' : Vec ℝ,
      (obj_intersect Real.sqrt (Vec.mk 4 1 20) (Vec.mk 0 0 (-1)) o p' N').1 = true
      ∧ distance2 (Vec.mk 4 1 20)
          (obj_intersect Real.sqrt (Vec.mk 4 1 20) (Vec.mk 0 0 (-1)) o p' N').2.1 < 10 ^ 30 :=
    ⟨⟨⟨2 / 5, 7 / 10, 1⟩, ⟨3, -4, 11⟩, ⟨7, 2, 13⟩, 0⟩, by simp [O], Vec.mk 0 0 0, Vec.mk 0 0 0,
      by rw [hbox], by rw [hbox]; norm_num [distance2]⟩
  ⟨by rw [scene_intersect_box_top], hnear,
   (scene_outputs_written_when_near (Vec.mk 4 1 20) (Vec.mk 0 0 (-1)) (Vec.mk 7 7 7)
    (Vec.mk 8 8 8) (Vec.mk 9 9 9) (Vec.mk 0 0 0) (Vec.mk 0 0 0)
    (by rw [scene_intersect_box_top])).1 hnear⟩

/-- C19 as stated fails: for the ray from `(-2e15, 0, 12)` along `(1,0,0)` and output
buffers that hold `(7,7,7)`, `(8,8,8)`, `(9,9,9)` at the call, `scene_intersect` returns
true (the box `O[3]` is hit) and the buffers still hold `(7,7,7)`, `(8,8,8)`, `(9,9,9)`
at the return, `(9,9,9)` being the colour of no primitive: the value `d` of line 80, about
`4e30`, is not below `nearest = 1e30`, so line 81 copies nothing. This holds in exact
arithmetic and in `float` arithmetic, where the origin is the `float` nearest to
`-2e15`. -/
theorem scene_intersect_unwritten_counterexample :
    scene_intersect Real.sqrt (Vec.mk (-(2 * 10 ^ 15)) 0 12) (Vec.mk 1 0 0) (Vec.mk 7 7 7)
        (Vec.mk 8 8 8) (Vec.mk 9 9 9) (Vec.mk 0 0 0) (Vec.mk 0 0 0)
      = (true, Vec.mk 7 7 7, Vec.mk 8 8 8, Vec.mk 9 9 9)
    ∧ (∀ o ∈ (O : List (Obj ℝ)), o.color ≠ Vec.mk 9 9 9)
    ∧ F32.scene_intersect (Vec.mk (F32.f32 (-(2 * 10 ^ 15))) 0 12) (Vec.mk 1 0 0)
        (Vec.mk 7 7 7) (Vec.mk 8 8 8) (Vec.mk 9 9 9) (Vec.mk 0 0 0) (Vec.mk 0 0 0)
      = (true, Vec.mk 7 7 7, Vec.mk 8 8 8, Vec.mk 9 9 9) := by
  refine ⟨scene_intersect_far_origin _ _ _ _ _, ?_, by decide!⟩
  intro o ho
  simp only [O, List.mem_cons, List.mem_singleton, List.not_mem_nil, or_false] at ho
  rcases ho with rfl | rfl | rfl | rfl | rfl <;>
    (intro hc; have hx := congrArg Vec.x hc; norm_num at hx)

/-! ## Render: the primary ray and the ray reflected from it -/

/-- The components of a vector of squared length 1 lie between -1 and 1. -/
theorem unit_components (u : Vec ℝ) (hu : dot u u = 1) :
    (-1 ≤ u.x ∧ u.x ≤ 1) ∧ (-1 ≤ u.y ∧ u.y ≤ 1) ∧ (-1 ≤ u.z ∧ u.z ≤ 1) := by
  simp only [dot] at hu
  refine ⟨⟨?_, ?_⟩, ⟨?_, ?_⟩, ⟨?_, ?_⟩⟩ <;>
    nlinarith [mul_self_nonneg u.x, mul_self_nonneg u.y, mul_self_nonneg u.z,
      mul_self_nonneg (u.x - 1), mul_self_nonneg (u.x + 1), mul_self_nonneg (u.y - 1),
      mul_self_nonneg (u.y + 1), mul_self_nonneg (u.z - 1), mul_self_nonneg (u.z + 1)]

/-- The Cauchy-Schwarz inequality for a vector of squared length 1. -/
theorem dot_sq_le (u v : Vec ℝ) (hu : dot u u = 1) : dot u v * dot u v ≤ dot v v := by
  simp only [dot] at hu ⊢
  nlinarith [mul_self_nonneg (u.x * v.y - u.y * v.x), mul_self_nonneg (u.x * v.z - u.z * v.x),
    mul_self_nonneg (u.y * v.z - u.z * v.y), hu]

/-- A sphere hit by a ray of unit direction `u` from the origin `(0,0,0)`: the normal `n`
written has `n.n = 1` and `n.u < 0`, the point written is `t * u` with
`t = proj - sqrt(delta) > 0`, and `proj = u.c` satisfies `proj > 0`,
`proj^2 > c.c - r^2`, `proj^2 ≤ c.c`, `t ≤ proj` and `t * (2 * proj) > c.c - r^2`. -/
theorem camera_sphere_hit (center : Vec ℝ) (radius : ℝ) (u normal point : Vec ℝ)
    (hu : dot u u = 1) (hr : radius > 0)
    (h : (sphere_intersect Real.sqrt center radius (Vec.mk 0 0 0) u normal point).1 = true) :
    dot (sphere_intersect Real.sqrt center radius (Vec.mk 0 0 0) u normal point).2.1
        (sphere_intersect Real.sqrt center radius (Vec.mk 0 0 0) u normal point).2.1 = 1
    ∧ dot (sphere_intersect Real.sqrt center radius (Vec.mk 0 0 0) u normal point).2.1 u < 0
    ∧ ∃ t : ℝ, 0 < t
      ∧ (sphere_intersect Real.sqrt center radius (Vec.mk 0 0 0) u normal point).2.2
        = Vec.mk (0 + u.x * t) (0 + u.y * t) (0 + u.z * t)
      ∧ 0 < dot u center
      ∧ dot u center * dot u center > dot center center - radius * radius
      ∧ dot u center * dot u center ≤ dot center center
      ∧ t ≤ dot u center
      ∧ t * (2 * dot u center) > dot center center - radius * radius := by
  obtain ⟨hdelta, hd, hres⟩ :=
    sphere_intersect_true Real.sqrt center radius (Vec.mk 0 0 0) u normal point h
  obtain ⟨h1, h2⟩ := sphere_normal_unit center radius (Vec.mk 0 0 0) u hu (ne_of_gt hr)
    (le_of_lt hdelta)
  have hV : sphere_V center (Vec.mk 0 0 0) = center := by
    simp [sphere_V]
  have hS0 := Real.sqrt_pos.2 hdelta
  have hSS := Real.mul_self_sqrt (le_of_lt hdelta)
  rw [hres]
  refine ⟨h1, ?_, sphere_d Real.sqrt center radius (Vec.mk 0 0 0) u, hd, rfl, ?_⟩
  · rw [h2]
    exact div_neg_of_neg_of_pos (by linarith) hr
  · have hcs := dot_sq_le u center hu
    simp only [sphere_d, hV] at hd ⊢
    simp only [sphere_delta, hV] at hdelta hS0 hSS hd ⊢
    generalize Real.sqrt (radius * radius + dot u center * dot u center - dot center center)
      = S at hS0 hSS hd ⊢
    generalize dot u center = a at hS0 hSS hd hdelta hcs ⊢
    generalize dot center center = cc at hS0 hSS hd hdelta hcs ⊢
    refine ⟨by linarith, by linarith, hcs, by linarith, ?_⟩
    nlinarith

/-- Scalar facts about a sphere hit by a primary ray: from `a > 0`, `W < a^2 ≤ U^2`,
`L^2 ≤ W`, `t * (2 a) > W` and `4 U ≤ W` follow `L < a ≤ U` and `2 ≤ t`. -/
theorem hit_scalar_bounds (a t L U W : ℝ) (ha : 0 < a) (hL : L * L ≤ W)
    (h1 : a * a > W) (hU0 : 0 ≤ U) (h2 : a * a ≤ U * U) (h3 : t * (2 * a) > W)
    (h4 : 4 * U ≤ W) : L < a ∧ a ≤ U ∧ 2 ≤ t := by
  have hLa : L < a := lt_of_mul_self_lt_mul_self₀ (le_of_lt ha) (by linarith)
  have haU : a ≤ U := (mul_self_le_mul_self_iff (le_of_lt ha) hU0).2 h2
  refine ⟨hLa, haU, ?_⟩
  by_contra hcon
  push_neg at hcon
  have : t * a ≤ 2 * U := by nlinarith
  linarith

/-- A number between `lo` and `hi`, both of magnitude at most `B`, has a square of at
most `B * B`. -/
theorem mul_self_le_of_bounds (a lo hi B : ℝ) (h1 : lo ≤ a) (h2 : a ≤ hi) (hlo : -B ≤ lo)
    (hhi : hi ≤ B) : a * a ≤ B * B := by
  rw [← abs_mul_abs_self a]
  have h : |a| ≤ B := abs_le.2 ⟨by linarith, by linarith⟩
  exact mul_le_mul h h (abs_nonneg a) (le_trans (abs_nonneg a) h)

/-- A primary ray that hits the sphere `O[0]`. -/
theorem camera_O0 (u normal point : Vec ℝ) (hu : dot u u = 1)
    (h : (sphere_intersect Real.sqrt (Vec.mk 6 0 7) 2 (Vec.mk 0 0 0) u normal point).1
      = true) :
    first_hit_facts u
      (sphere_intersect Real.sqrt (Vec.mk 6 0 7) 2 (Vec.mk 0 0 0) u normal point).2.1
      (sphere_intersect Real.sqrt (Vec.mk 6 0 7) 2 (Vec.mk 0 0 0) u normal point).2.2 := by
  obtain ⟨h1, h2, t, ht, hP, ha, ha2, hcs, hta, hta2⟩ :=
    camera_sphere_hit (Vec.mk 6 0 7) 2 u normal point hu (by norm_num) h
  obtain ⟨⟨hx1, hx2⟩, ⟨hy1, hy2⟩, ⟨hz1, hz2⟩⟩ := unit_components u hu
  simp only [dot] at ha ha2 hcs hta hta2
  norm_num at ha ha2 hcs hta hta2
  obtain ⟨ha9, ha10, ht2⟩ := hit_scalar_bounds (u.x * 6 + u.z * 7) t 9 10 81 ha
    (by norm_num) (by linarith) (by norm_num) (by linarith) (by linarith)
    (by norm_num)
  exact ⟨h1, h2, by linarith, by linarith, by linarith, t, ht2, by linarith, hP⟩

/-- A primary ray that hits the sphere `O[1]`. -/
theorem camera_O1 (u normal point : Vec ℝ) (hu : dot u u = 1)
    (h : (sphere_intersect Real.sqrt (Vec.mk (14 / 5) (11 / 10) 7) (9 / 10) (Vec.mk 0 0 0) u
      normal point).1 = true) :
    first_hit_facts u
      (sphere_intersect Real.sqrt (Vec.mk (14 / 5) (11 / 10) 7) (9 / 10) (Vec.mk 0 0 0) u
        normal point).2.1
      (sphere_intersect Real.sqrt (Vec.mk (14 / 5) (11 / 10) 7) (9 / 10) (Vec.mk 0 0 0) u
        normal point).2.2 := by
  obtain ⟨h1, h2, t, ht, hP, ha, ha2, hcs, hta, hta2⟩ :=
    camera_sphere_hit (Vec.mk (14 / 5) (11 / 10) 7) (9 / 10) u normal point hu
      (by norm_num) h
  obtain ⟨⟨hx1, hx2⟩, ⟨hy1, hy2⟩, ⟨hz1, hz2⟩⟩ := unit_components u hu
  simp only [dot] at ha ha2 hcs hta hta2
  norm_num at ha ha2 hcs hta hta2
  obtain ⟨ha9, ha10, ht2⟩ := hit_scalar_bounds
    (u.x * (14 / 5) + u.y * (11 / 10) + u.z * 7) t (15 / 2) 8 (1431 / 25) ha
    (by norm_num) (by linarith) (by norm_num) (by linarith) (by linarith)
    (by norm_num)
  exact ⟨h1, h2, by linarith, by linarith, by linarith, t, ht2, by linarith, hP⟩

/-- A box with `bmin ≤ bmax` that is hit: the point written is `origin + d * direction`
with `d > 0` and lies in the closed box, and the normal written has squared length 1 and a
negative product with the direction. -/
theorem box_hit_facts (bmin bmax ray_origin ray_direction normal point : Vec ℝ)
    (hle : bmin.x ≤ bmax.x ∧ bmin.y ≤ bmax.y ∧ bmin.z ≤ bmax.z)
    (h : (box_intersect bmin bmax ray_origin ray_direction normal point).1 = true) :
    dot (box_intersect bmin bmax ray_origin ray_direction normal point).2.1
        (box_intersect bmin bmax ray_origin ray_direction normal point).2.1 = 1
    ∧ dot (box_intersect bmin bmax ray_origin ray_direction normal point).2.1
        ray_direction < 0
    ∧ ∃ d : ℝ, 0 < d
      ∧ (box_intersect bmin bmax ray_origin ray_direction normal point).2.2
        = Vec.mk (ray_origin.x + ray_direction.x * d) (ray_origin.y + ray_direction.y * d)
            (ray_origin.z + ray_direction.z * d)
      ∧ (bmin.x ≤ ray_origin.x + ray_direction.x * d
        ∧ ray_origin.x + ray_direction.x * d ≤ bmax.x)
      ∧ (bmin.y ≤ ray_origin.y + ray_direction.y * d
        ∧ ray_origin.y + ray_direction.y * d ≤ bmax.y)
      ∧ (bmin.z ≤ ray_origin.z + ray_direction.z * d
        ∧ ray_origin.z + ray_direction.z * d ≤ bmax.z) := by
  obtain ⟨i, hi, hskip, hd, hres, hface, h1, h2⟩ :=
    box_intersect_true bmin bmax ray_origin ray_direction normal point h
  have hne : ray_direction.get i ≠ 0 := by
    intro h0
    apply hskip
    rw [h0]
    norm_num
  obtain ⟨hn1, hn2⟩ := box_normal_unit ray_direction i hi hne
  rw [hres]
  refine ⟨hn1, hn2, box_d bmin bmax ray_origin ray_direction i, hd, rfl, ?_⟩
  rw [box_point_get] at hface h1 h2
  have h3 : i = 0 ∨ i = 1 ∨ i = 2 := by omega
  rcases h3 with rfl | rfl | rfl
  · norm_num [Vec.get] at hface h1 h2
    refine ⟨?_, ⟨le_of_lt h1.1, le_of_lt h1.2⟩, ⟨le_of_lt h2.1, le_of_lt h2.2⟩⟩
    rw [hface]
    split_ifs
    · exact ⟨le_refl _, hle.1⟩
    · exact ⟨hle.1, le_refl _⟩
  · norm_num [Vec.get] at hface h1 h2
    refine ⟨⟨le_of_lt h2.1, le_of_lt h2.2⟩, ?_, ⟨le_of_lt h1.1, le_of_lt h1.2⟩⟩
    rw [hface]
    split_ifs
    · exact ⟨le_refl _, hle.2.1⟩
    · exact ⟨hle.2.1, le_refl _⟩
  · norm_num [Vec.get] at hface h1 h2
    refine ⟨⟨le_of_lt h1.1, le_of_lt h1.2⟩, ⟨le_of_lt h2.1, le_of_lt h2.2⟩, ?_⟩
    rw [hface]
    split_ifs
    · exact ⟨le_refl _, hle.2.2⟩
    · exact ⟨hle.2.2, le_refl _⟩

/-- A primary ray that hits the box `O[3]`. -/
theorem camera_O3 (u normal point : Vec ℝ) (hu : dot u u = 1)
    (h : (box_intersect (Vec.mk 3 (-4) 11) (Vec.mk 7 2 13) (Vec.mk 0 0 0) u normal point).1
      = true) :
    first_hit_facts u
      (box_intersect (Vec.mk 3 (-4) 11) (Vec.mk 7 2 13) (Vec.mk 0 0 0) u normal point).2.1
      (box_intersect (Vec.mk 3 (-4) 11) (Vec.mk 7 2 13) (Vec.mk 0 0 0) u normal point).2.2 := by
  obtain ⟨h1, h2, d, hd, hP, ⟨hx1, hx2⟩, ⟨hy1, hy2⟩, ⟨hz1, hz2⟩⟩ :=
    box_hit_facts (Vec.mk 3 (-4) 11) (Vec.mk 7 2 13) (Vec.mk 0 0 0) u normal point
      (by norm_num) h
  obtain ⟨⟨ux1, ux2⟩, ⟨uy1, uy2⟩, ⟨uz1, uz2⟩⟩ := unit_components u hu
  simp only [dot] at hu
  norm_num at hx1 hx2 hy1 hy2 hz1 hz2
  have huz : u.z > 0 := (mul_pos_iff_of_pos_right hd).1 (by linarith)
  have hxx : (u.x * d) * (u.x * d) ≤ 7 * 7 :=
    mul_self_le_of_bounds _ 3 7 7 hx1 hx2 (by norm_num) (by norm_num)
  have hyy : (u.y * d) * (u.y * d) ≤ 4 * 4 :=
    mul_self_le_of_bounds _ (-4) 2 4 hy1 hy2 (by norm_num) (by norm_num)
  have hzz : (u.z * d) * (u.z * d) ≤ 13 * 13 :=
    mul_self_le_of_bounds _ 11 13 13 hz1 hz2 (by norm_num) (by norm_num)
  have hdd : d * d ≤ 234 := by
    have e : d * d = (u.x * d) * (u.x * d) + (u.y * d) * (u.y * d) + (u.z * d) * (u.z * d) := by
      linear_combination (-(d * d)) * hu
    rw [e]
    linarith
  have hzd : u.z * d ≤ d := mul_le_of_le_one_left (le_of_lt hd) uz2
  have e0 : (6 * u.x + 7 * u.z) * d = 6 * (u.x * d) + 7 * (u.z * d) := by ring
  have e1 : (14 / 5 * u.x + 11 / 10 * u.y + 7 * u.z) * d
      = 14 / 5 * (u.x * d) + 11 / 10 * (u.y * d) + 7 * (u.z * d) := by ring
  refine ⟨h1, h2, huz, ?_, ?_, d, ?_, ?_, hP⟩
  · exact nonneg_of_mul_nonneg_left (by rw [e0]; linarith) hd
  · exact nonneg_of_mul_nonneg_left (by rw [e1]; linarith) hd
  · linarith
  · exact (mul_self_le_mul_self_iff (le_of_lt hd) (by norm_num)).2 (by linarith)

/-- A primary ray that hits the box `O[4]`. -/
theorem camera_O4 (u normal point : Vec ℝ) (hu : dot u u = 1)
    (h : (box_intersect (Vec.mk 0 2 6) (Vec.mk 11 (11 / 5) 16) (Vec.mk 0 0 0) u normal
      point).1 = true) :
    first_hit_facts u
      (box_intersect (Vec.mk 0 2 6) (Vec.mk 11 (11 / 5) 16) (Vec.mk 0 0 0) u normal point).2.1
      (box_intersect (Vec.mk 0 2 6) (Vec.mk 11 (11 / 5) 16) (Vec.mk 0 0 0) u normal
        point).2.2 := by
  obtain ⟨h1, h2, d, hd, hP, ⟨hx1, hx2⟩, ⟨hy1, hy2⟩, ⟨hz1, hz2⟩⟩ :=
    box_hit_facts (Vec.mk 0 2 6) (Vec.mk 11 (11 / 5) 16) (Vec.mk 0 0 0) u normal point
      (by norm_num) h
  obtain ⟨⟨ux1, ux2⟩, ⟨uy1, uy2⟩, ⟨uz1, uz2⟩⟩ := unit_components u hu
  simp only [dot] at hu
  norm_num at hx1 hx2 hy1 hy2 hz1 hz2
  have huz : u.z > 0 := (mul_pos_iff_of_pos_right hd).1 (by linarith)
  have hxx : (u.x * d) * (u.x * d) ≤ 11 * 11 :=
    mul_self_le_of_bounds _ 0 11 11 hx1 hx2 (by norm_num) (by norm_num)
  have hyy : (u.y * d) * (u.y * d) ≤ 3 * 3 :=
    mul_self_le_of_bounds _ 2 (11 / 5) 3 hy1 hy2 (by norm_num) (by norm_num)
  have hzz : (u.z * d) * (u.z * d) ≤ 16 * 16 :=
    mul_self_le_of_bounds _ 6 16 16 hz1 hz2 (by norm_num) (by norm_num)
  have hdd : d * d ≤ 400 := by
    have e : d * d = (u.x * d) * (u.x * d) + (u.y * d) * (u.y * d) + (u.z * d) * (u.z * d) := by
      linear_combination (-(d * d)) * hu
    rw [e]
    linarith
  have hzd : u.z * d ≤ d := mul_le_of_le_one_left (le_of_lt hd) uz2
  have e0 : (6 * u.x + 7 * u.z) * d = 6 * (u.x * d) + 7 * (u.z * d) := by ring
  have e1 : (14 / 5 * u.x + 11 / 10 * u.y + 7 * u.z) * d
      = 14 / 5 * (u.x * d) + 11 / 10 * (u.y * d) + 7 * (u.z * d) := by ring
  refine ⟨h1, h2, huz, ?_, ?_, d, ?_, ?_, hP⟩
  · exact nonneg_of_mul_nonneg_left (by rw [e0]; linarith) hd
  · exact nonneg_of_mul_nonneg_left (by rw [e1]; linarith) hd
  · linarith
  · exact (mul_self_le_mul_self_iff (le_of_lt hd) (by norm_num)).2 (by linarith)

/-- For a primary ray of unit direction `u`, the normal `n` written by a successful test
of a primitive of the table `O` has squared length 1, so line 80 gives `d = 1`; and when
the primitive is not the lamp the facts of `first_hit_facts` hold. -/
theorem camera_hit (u : Vec ℝ) (hu : dot u u = 1) (o : Obj ℝ) (ho : o ∈ (O : List (Obj ℝ)))
    (p N : Vec ℝ) (h : (obj_intersect Real.sqrt (Vec.mk 0 0 0) u o p N).1 = true) :
    distance2 (Vec.mk 0 0 0) (obj_intersect Real.sqrt (Vec.mk 0 0 0) u o p N).2.1 = 1
    ∧ (o.color.x ≤ 1 →
      first_hit_facts u (obj_intersect Real.sqrt (Vec.mk 0 0 0) u o p N).2.1
        (obj_intersect Real.sqrt (Vec.mk 0 0 0) u o p N).2.2) := by
  have hdist : ∀ n : Vec ℝ, distance2 (Vec.mk 0 0 0) n = dot n n := by
    intro n; simp [distance2, dot]
  simp only [O, List.mem_cons, List.mem_singleton, List.not_mem_nil, or_false] at ho
  rcases ho with rfl | rfl | rfl | rfl | rfl
  · rw [obj_intersect_sphere _ _ _ _ _ _ (by norm_num)] at h ⊢
    have hf := camera_O0 u p N hu h
    exact ⟨by rw [hdist]; exact hf.1, fun _ => hf⟩
  · rw [obj_intersect_sphere _ _ _ _ _ _ (by norm_num)] at h ⊢
    have hf := camera_O1 u p N hu h
    exact ⟨by rw [hdist]; exact hf.1, fun _ => hf⟩
  · rw [obj_intersect_sphere _ _ _ _ _ _ (by norm_num)] at h ⊢
    have hf := camera_sphere_hit (Vec.mk 5 (-10) (-7)) 8 u p N hu (by norm_num) h
    refine ⟨by rw [hdist]; exact hf.1, fun hc => ?_⟩
    norm_num at hc
  · rw [obj_intersect_box _ _ _ _ _ _ rfl] at h ⊢
    have hf := camera_O3 u p N hu h
    exact ⟨by rw [hdist]; exact hf.1, fun _ => hf⟩
  · rw [obj_intersect_box _ _ _ _ _ _ rfl] at h ⊢
    have hf := camera_O4 u p N hu h
    exact ⟨by rw [hdist]; exact hf.1, fun _ => hf⟩

/-- The sphere test fails when `proj ≤ 0` (the centre is not in front of the origin). -/
theorem sphere_intersect_proj_nonpos (center : Vec ℝ) (radius : ℝ)
    (ray_origin ray_direction normal point : Vec ℝ)
    (h : dot ray_direction (sphere_V center ray_origin) ≤ 0) :
    (sphere_intersect Real.sqrt center radius ray_origin ray_direction normal point).1
      = false := by
  rw [sphere_intersect_eq]
  have hd : ¬ sphere_d Real.sqrt center radius ray_origin ray_direction > 0 := by
    have := Real.sqrt_nonneg (sphere_delta center radius ray_origin ray_direction)
    simp only [sphere_d]
    linarith
  split_ifs <;> rfl

/-- The reflected ray of `trace` after a primary ray of unit direction `u` whose
`scene_intersect` returned the point `t * u` in its `normal` output: `reflect` gives
`-(2 t^2 - 1)^2 * u`. -/
theorem reflect_first_hit (u : Vec ℝ) (hu : dot u u = 1) (t : ℝ) (ht : 2 ≤ t) :
    reflect Real.sqrt u (Vec.mk (0 + u.x * t) (0 + u.y * t) (0 + u.z * t))
      = Vec.mk (u.x * -((2 * t * t - 1) * (2 * t * t - 1)))
          (u.y * -((2 * t * t - 1) * (2 * t * t - 1)))
          (u.z * -((2 * t * t - 1) * (2 * t * t - 1))) := by
  have hw : dot u (Vec.mk (0 + u.x * t) (0 + u.y * t) (0 + u.z * t)) = t := by
    simp only [dot] at hu ⊢
    linear_combination t * hu
  have hpos : (0 : ℝ) ≤ 2 * t * t - 1 := by nlinarith
  simp only [reflect]
  rw [hw]
  have hRR : dot (Vec.mk (u.x - 2 * t * (0 + u.x * t)) (u.y - 2 * t * (0 + u.y * t))
      (u.z - 2 * t * (0 + u.z * t))) (Vec.mk (u.x - 2 * t * (0 + u.x * t))
      (u.y - 2 * t * (0 + u.y * t)) (u.z - 2 * t * (0 + u.z * t)))
      = (2 * t * t - 1) * (2 * t * t - 1) := by
    simp only [dot] at hu ⊢
    linear_combination (1 - 2 * t * t) ^ 2 * hu
  rw [hRR, Real.sqrt_mul_self hpos]
  congr 1 <;> ring

/-- From an eye `n` of squared length 1, a ray of direction `m * u` with `m < 0` and
`u.z > 0` hits no box whose `bmin.z` is above 1: the boxes `O[3]` and `O[4]` lie at
`z ≥ 6`. -/
theorem backward_ray_misses_box (bmin bmax u n normal point : Vec ℝ) (m : ℝ)
    (hle : bmin.x ≤ bmax.x ∧ bmin.y ≤ bmax.y ∧ bmin.z ≤ bmax.z) (hz : 1 < bmin.z)
    (hn : dot n n = 1) (huz : u.z > 0) (hm : m < 0) :
    (box_intersect bmin bmax n (Vec.mk (u.x * m) (u.y * m) (u.z * m)) normal point).1
      = false := by
  cases h : (box_intersect bmin bmax n (Vec.mk (u.x * m) (u.y * m) (u.z * m)) normal
      point).1 with
  | false => rfl
  | true =>
    exfalso
    obtain ⟨_, _, d, hd, _, _, _, ⟨hz1, _⟩⟩ :=
      box_hit_facts bmin bmax n (Vec.mk (u.x * m) (u.y * m) (u.z * m)) normal point hle h
    obtain ⟨_, _, ⟨_, nz2⟩⟩ := unit_components n hn
    have h1 : u.z * m < 0 := mul_neg_of_pos_of_neg huz hm
    have h2 : u.z * m * d < 0 := mul_neg_of_neg_of_pos h1 hd
    simp only [] at hz1
    linarith

/-- From an eye `n` with `n.u < 0`, a ray of direction `m * u` with `m < 0` misses a
sphere whose centre `c` has `u.c ≥ 0`. -/
theorem backward_ray_misses_sphere (center : Vec ℝ) (radius : ℝ) (u n normal point : Vec ℝ)
    (m : ℝ) (hc : dot u center ≥ 0) (hnu : dot n u < 0) (hm : m < 0) :
    (sphere_intersect Real.sqrt center radius n (Vec.mk (u.x * m) (u.y * m) (u.z * m))
      normal point).1 = false := by
  apply sphere_intersect_proj_nonpos
  have e : dot (Vec.mk (u.x * m) (u.y * m) (u.z * m)) (sphere_V center n)
      = m * (dot u center - dot n u) := by
    simp only [dot, sphere_V]; ring
  rw [e]
  exact le_of_lt (mul_neg_of_neg_of_pos hm (by linarith))

/-- A bound on the magnitude of a product of three numbers. -/
theorem abs_mul_three (a b c A B C : ℝ) (ha : |a| ≤ A) (hb : |b| ≤ B) (hc : |c| ≤ C) :
    |a * b * c| ≤ A * B * C := by
  rw [abs_mul, abs_mul]
  have hA : 0 ≤ A := le_trans (abs_nonneg a) ha
  have hB : 0 ≤ B := le_trans (abs_nonneg b) hb
  exact mul_le_mul (mul_le_mul ha hb (abs_nonneg b) hA) hc (abs_nonneg c) (mul_nonneg hA hB)

/-- A number of magnitude at most `E` has a square of at most `E * E`. -/
theorem mul_self_le_of_abs (e E : ℝ) (h : |e| ≤ E) : e * e ≤ E * E := by
  rw [← abs_mul_abs_self e]
  exact mul_le_mul h h (abs_nonneg e) (le_trans (abs_nonneg e) h)

/-- One term of `distance2` between the eye `n` and the normal that the sphere test of the
lamp writes, when the offset `q` of the hit point has magnitude at most `25e12`. -/
theorem lamp_term_bound (nk q ck : ℝ) (hn : -1 ≤ nk ∧ nk ≤ 1) (hc : |ck| ≤ 10)
    (hq : |q| ≤ 25 * 10 ^ 12) :
    (nk - (nk + q - ck) / 8) * (nk - (nk + q - ck) / 8) ≤ 10 ^ 13 * 10 ^ 13 := by
  apply mul_self_le_of_abs
  obtain ⟨hq1, hq2⟩ := abs_le.1 hq
  obtain ⟨hc1, hc2⟩ := abs_le.1 hc
  rw [abs_le]
  constructor <;> linarith [hn.1, hn.2]

/-- From an eye `n` of squared length 1, a ray of direction `m * u` with `u` of squared
length 1 and `-1e6 ≤ m ≤ 0`: if the sphere test of the lamp `O[2]` succeeds, the value `d`
of line 80 (the squared distance from `n` to the normal written) is below `1e30`. -/
theorem backward_lamp_written (u n normal point : Vec ℝ) (m : ℝ)
    (hu : dot u u = 1) (hn : dot n n = 1) (hm1 : -(10 ^ 6) ≤ m) (hm2 : m ≤ 0)
    (h : (sphere_intersect Real.sqrt (Vec.mk 5 (-10) (-7)) 8 n
      (Vec.mk (u.x * m) (u.y * m) (u.z * m)) normal point).1 = true) :
    distance2 n (sphere_intersect Real.sqrt (Vec.mk 5 (-10) (-7)) 8 n
      (Vec.mk (u.x * m) (u.y * m) (u.z * m)) normal point).2.1 < 10 ^ 30 := by
  obtain ⟨hdelta, hd, hres⟩ := sphere_intersect_true Real.sqrt (Vec.mk 5 (-10) (-7)) 8 n
    (Vec.mk (u.x * m) (u.y * m) (u.z * m)) normal point h
  obtain ⟨⟨ux1, ux2⟩, ⟨uy1, uy2⟩, ⟨uz1, uz2⟩⟩ := unit_components u hu
  obtain ⟨⟨nx1, nx2⟩, ⟨ny1, ny2⟩, ⟨nz1, nz2⟩⟩ := unit_components n hn
  have hS := Real.sqrt_nonneg (sphere_delta (Vec.mk 5 (-10) (-7)) 8 n
    (Vec.mk (u.x * m) (u.y * m) (u.z * m)))
  have hproj : dot (Vec.mk (u.x * m) (u.y * m) (u.z * m))
      (sphere_V (Vec.mk 5 (-10) (-7)) n)
      = m * (u.x * (5 - n.x) + u.y * (-10 - n.y) + u.z * (-7 - n.z)) := by
    simp only [dot, sphere_V]; ring
  have hs : |u.x * (5 - n.x) + u.y * (-10 - n.y) + u.z * (-7 - n.z)| ≤ 25 := by
    rw [abs_le]
    constructor <;> nlinarith
  have hmabs : |m| ≤ 10 ^ 6 := by
    rw [abs_le]; constructor <;> linarith
  have hprojB : |dot (Vec.mk (u.x * m) (u.y * m) (u.z * m))
      (sphere_V (Vec.mk 5 (-10) (-7)) n)| ≤ 10 ^ 6 * 25 := by
    rw [hproj, abs_mul]
    exact mul_le_mul hmabs hs (abs_nonneg _) (by norm_num)
  have hdB : |sphere_d Real.sqrt (Vec.mk 5 (-10) (-7)) 8 n
      (Vec.mk (u.x * m) (u.y * m) (u.z * m))| ≤ 25 * 10 ^ 6 := by
    rw [abs_of_pos hd]
    have := (abs_le.1 hprojB).2
    simp only [sphere_d] at hd ⊢
    linarith
  have hux : |u.x| ≤ 1 := abs_le.2 ⟨ux1, ux2⟩
  have huy : |u.y| ≤ 1 := abs_le.2 ⟨uy1, uy2⟩
  have huz : |u.z| ≤ 1 := abs_le.2 ⟨uz1, uz2⟩
  rw [hres]
  simp only [sphere_normal, sphere_point, distance2]
  generalize sphere_d Real.sqrt (Vec.mk 5 (-10) (-7)) 8 n
    (Vec.mk (u.x * m) (u.y * m) (u.z * m)) = d at hdB ⊢
  have hqx : |u.x * m * d| ≤ 25 * 10 ^ 12 := by
    have := abs_mul_three u.x m d 1 (10 ^ 6) (25 * 10 ^ 6) hux hmabs hdB
    norm_num at this ⊢
    exact this
  have hqy : |u.y * m * d| ≤ 25 * 10 ^ 12 := by
    have := abs_mul_three u.y m d 1 (10 ^ 6) (25 * 10 ^ 6) huy hmabs hdB
    norm_num at this ⊢
    exact this
  have hqz : |u.z * m * d| ≤ 25 * 10 ^ 12 := by
    have := abs_mul_three u.z m d 1 (10 ^ 6) (25 * 10 ^ 6) huz hmabs hdB
    norm_num at this ⊢
    exact this
  have tx := lamp_term_bound n.x (u.x * m * d) 5 ⟨nx1, nx2⟩ (by norm_num) hqx
  have ty := lamp_term_bound n.y (u.y * m * d) (-10) ⟨ny1, ny2⟩ (by norm_num) hqy
  have tz := lamp_term_bound n.z (u.z * m * d) (-7) ⟨nz1, nz2⟩ (by norm_num) hqz
  linarith

/-- After a primary ray of direction `u` that hit a primitive other than the lamp, the
second `scene_intersect` of `trace` starts from the normal `n` with the direction
`m * u`, `-1e6 ≤ m < 0`: the only primitive of the table `O` whose test can succeed is the
lamp, and then line 80 gives `d < 1e30`. -/
theorem second_level_hits (u n : Vec ℝ) (m : ℝ) (hu : dot u u = 1) (hn : dot n n = 1)
    (hnu : dot n u < 0) (huz : u.z > 0) (h0 : 6 * u.x + 7 * u.z ≥ 0)
    (h1 : 14 / 5 * u.x + 11 / 10 * u.y + 7 * u.z ≥ 0) (hm1 : -(10 ^ 6) ≤ m) (hm2 : m < 0)
    (o : Obj ℝ) (ho : o ∈ (O : List (Obj ℝ))) (p N : Vec ℝ)
    (h : (obj_intersect Real.sqrt n (Vec.mk (u.x * m) (u.y * m) (u.z * m)) o p N).1 = true) :
    o.color.x > 1
    ∧ distance2 n (obj_intersect Real.sqrt n (Vec.mk (u.x * m) (u.y * m) (u.z * m)) o p
        N).2.1 < 10 ^ 30 := by
  simp only [O, List.mem_cons, List.mem_singleton, List.not_mem_nil, or_false] at ho
  rcases ho with rfl | rfl | rfl | rfl | rfl
  · exfalso
    rw [obj_intersect_sphere _ _ _ _ _ _ (by norm_num)] at h
    rw [backward_ray_misses_sphere (Vec.mk 6 0 7) 2 u n p N m
      (by simp only [dot]; linarith) hnu hm2] at h
    exact absurd h (by simp)
  · exfalso
    rw [obj_intersect_sphere _ _ _ _ _ _ (by norm_num)] at h
    rw [backward_ray_misses_sphere (Vec.mk (14 / 5) (11 / 10) 7) (9 / 10) u n p N m
      (by simp only [dot]; linarith) hnu hm2] at h
    exact absurd h (by simp)
  · rw [obj_intersect_sphere _ _ _ _ _ _ (by norm_num)] at h ⊢
    exact ⟨by norm_num, backward_lamp_written u n p N m hu hn hm1 (le_of_lt hm2) h⟩
  · exfalso
    rw [obj_intersect_box _ _ _ _ _ _ rfl] at h
    rw [backward_ray_misses_box (Vec.mk 3 (-4) 11) (Vec.mk 7 2 13) u n p N m
      (by norm_num) (by norm_num) hn huz hm2] at h
    exact absurd h (by simp)
  · exfalso
    rw [obj_intersect_box _ _ _ _ _ _ rfl] at h
    rw [backward_ray_misses_box (Vec.mk 0 2 6) (Vec.mk 11 (11 / 5) 16) u n p N m
      (by norm_num) (by norm_num) hn huz hm2] at h
    exact absurd h (by simp)

/-- After a primary ray that hit a primitive other than the lamp, the second
`scene_intersect` of `trace` returns false, or returns true with the colour of the
lamp. -/
theorem second_level (u n P : Vec ℝ) (hu : dot u u = 1) (hf : first_hit_facts u n P)
    (point normal color p N : Vec ℝ) :
    (scene_intersect Real.sqrt n (reflect Real.sqrt u P) point normal color p N).1 = false
    ∨ (scene_intersect Real.sqrt n (reflect Real.sqrt u P) point normal color p N).2.2.2.x
      > 1 := by
  obtain ⟨hn, hnu, huz, h0, h1, t, ht2, ht20, hP⟩ := hf
  rw [hP, reflect_first_hit u hu t ht2]
  have ha7 : 7 ≤ 2 * t * t - 1 := by nlinarith
  have ha799 : 2 * t * t - 1 ≤ 799 := by nlinarith
  have hm2 : -((2 * t * t - 1) * (2 * t * t - 1)) < 0 := by nlinarith
  have hm1 : -(10 ^ 6) ≤ -((2 * t * t - 1) * (2 * t * t - 1)) := by nlinarith
  generalize -((2 * t * t - 1) * (2 * t * t - 1)) = m at hm1 hm2
  cases h : (scene_intersect Real.sqrt n (Vec.mk (u.x * m) (u.y * m) (u.z * m)) point normal
      color p N).1 with
  | false => left; rfl
  | true =>
    right
    obtain ⟨o, ho, p', N', hhit, _, _, hcol⟩ := scene_intersect_written Real.sqrt n
      (Vec.mk (u.x * m) (u.y * m) (u.z * m)) point normal color p N
      (fun o ho p' N' hh =>
        (second_level_hits u n m hu hn hnu huz h0 h1 hm1 hm2 o ho p' N' hh).2) h
    rw [hcol]
    exact (second_level_hits u n m hu hn hnu huz h0 h1 hm1 hm2 o ho p' N' hhit).1

/-- After a primary ray that hit a primitive other than the lamp, the invocation of
`trace` at depth 1 returns the ambient colour or the light colour. -/
theorem trace_second_level (junk : Int → Frame ℝ) (u n P : Vec ℝ) (hu : dot u u = 1)
    (hf : first_hit_facts u n P) :
    trace Real.sqrt junk n (reflect Real.sqrt u P) 1 3 = ambient_color
    ∨ trace Real.sqrt junk n (reflect Real.sqrt u P) 1 3 = light_color := by
  rw [trace, if_neg (by norm_num)]
  rcases second_level u n P hu hf (junk 1).point (junk 1).normal (junk 1).color (junk 1).p
    (junk 1).N with h | h
  · left
    simp only [h, Bool.not_false, if_true]
  · cases hflag : (scene_intersect Real.sqrt n (reflect Real.sqrt u P) (junk 1).point
        (junk 1).normal (junk 1).color (junk 1).p (junk 1).N).1 with
    | false =>
      left
      simp only [hflag, Bool.not_false, if_true]
    | true =>
      right
      simp only [hflag, Bool.not_true, Bool.false_eq_true, if_false, if_pos h]

/-- The colour of a primitive of the table `O` other than the lamp has its components in
`[0, 1]`. -/
theorem O_color_unit (o : Obj ℝ) (ho : o ∈ (O : List (Obj ℝ))) (hx : ¬ o.color.x > 1) :
    (0 ≤ o.color.x ∧ o.color.x ≤ 1) ∧ (0 ≤ o.color.y ∧ o.color.y ≤ 1)
      ∧ (0 ≤ o.color.z ∧ o.color.z ≤ 1) := by
  simp only [O, List.mem_cons, List.mem_singleton, List.not_mem_nil, or_false] at ho
  rcases ho with rfl | rfl | rfl | rfl | rfl <;> norm_num at hx ⊢

/-- The colour that `trace` returns for a primary ray (eye `(0,0,0)`, unit direction,
depth 0, `maxdepth = 3`) has its components in `[0, 1]`. -/
theorem trace_primary (junk : Int → Frame ℝ) (u : Vec ℝ) (hu : dot u u = 1) :
    (0 ≤ (trace Real.sqrt junk (Vec.mk 0 0 0) u 0 3).x
      ∧ (trace Real.sqrt junk (Vec.mk 0 0 0) u 0 3).x ≤ 1)
    ∧ (0 ≤ (trace Real.sqrt junk (Vec.mk 0 0 0) u 0 3).y
      ∧ (trace Real.sqrt junk (Vec.mk 0 0 0) u 0 3).y ≤ 1)
    ∧ (0 ≤ (trace Real.sqrt junk (Vec.mk 0 0 0) u 0 3).z
      ∧ (trace Real.sqrt junk (Vec.mk 0 0 0) u 0 3).z ≤ 1) := by
  rw [trace, if_neg (by norm_num)]
  cases hflag : (scene_intersect Real.sqrt (Vec.mk 0 0 0) u (junk 0).point (junk 0).normal
      (junk 0).color (junk 0).p (junk 0).N).1 with
  | false =>
    simp only [hflag, Bool.not_false, if_true, ambient_color]
    norm_num
  | true =>
    obtain ⟨o, ho, p', N', hhit, hpt, hnm, hcol⟩ := scene_intersect_written Real.sqrt
      (Vec.mk 0 0 0) u (junk 0).point (junk 0).normal (junk 0).color (junk 0).p (junk 0).N
      (fun o ho p' N' hh => by
        rw [(camera_hit u hu o ho p' N' hh).1]; norm_num) hflag
    simp only [hflag, Bool.not_true, Bool.false_eq_true, if_false, zero_add]
    by_cases hx : (scene_intersect Real.sqrt (Vec.mk 0 0 0) u (junk 0).point (junk 0).normal
        (junk 0).color (junk 0).p (junk 0).N).2.2.2.x > 1
    · rw [if_pos hx]
      simp only [light_color]
      norm_num
    · rw [if_neg hx]
      rw [hcol] at hx
      have hfacts := (camera_hit u hu o ho p' N' hhit).2 (not_lt.1 hx)
      obtain ⟨⟨cx0, cx1⟩, ⟨cy0, cy1⟩, ⟨cz0, cz1⟩⟩ := O_color_unit o ho hx
      rw [hpt, hnm, hcol]
      rcases trace_second_level junk u _ _ hu hfacts with h2 | h2
      · rw [h2]
        simp only [ambient_color]
        refine ⟨⟨?_, ?_⟩, ⟨?_, ?_⟩, ⟨?_, ?_⟩⟩ <;> nlinarith
      · rw [h2]
        simp only [light_color]
        refine ⟨⟨?_, ?_⟩, ⟨?_, ?_⟩, ⟨?_, ?_⟩⟩ <;> nlinarith

/-- C20: for all integer pixel coordinates `X` and `Y` and whatever the uninitialised
locals hold, each of the three components returned by `render` (fixed scene, `nrays = 1`,
`maxdepth = 3`) lies in `[0, 1]`. -/
theorem render_in_unit_interval (junk : Nat → Int → Frame ℝ) (X Y : Int) :
    (0 ≤ (render Real.sqrt Real.cos Real.sin Real.pi junk X Y).1
      ∧ (render Real.sqrt Real.cos Real.sin Real.pi junk X Y).1 ≤ 1)
    ∧ (0 ≤ (render Real.sqrt Real.cos Real.sin Real.pi junk X Y).2.1
      ∧ (render Real.sqrt Real.cos Real.sin Real.pi junk X Y).2.1 ≤ 1)
    ∧ (0 ≤ (render Real.sqrt Real.cos Real.sin Real.pi junk X Y).2.2
      ∧ (render Real.sqrt Real.cos Real.sin Real.pi junk X Y).2.2 ≤ 1) := by
  have h := trace_primary (junk 0) (render_ray Real.sqrt Real.cos Real.sin Real.pi X Y)
    (render_ray_unit X Y)
  have hr : List.range (nrays.toNat) = [0] := rfl
  have hn : ((nrays : Int) : ℝ) = 1 := by simp [nrays]
  have hmax : (maxdepth : Int) = 3 := rfl
  simp only [render, hr, hn, hmax, List.foldl, zero_add, div_one]
  exact h

/-- The square root of 3600 is 60. -/
theorem sqrt_3600 : Real.sqrt 3600 = 60 := by
  rw [show (3600 : ℝ) = 60 * 60 by norm_num]
  exact Real.sqrt_mul_self (by norm_num)

/-- The ray that `render` builds for the central pixel `(40, 25)` is
`(1/2, 0, sqrt(3)/2)`. -/
theorem render_ray_center :
    render_ray Real.sqrt Real.cos Real.sin Real.pi 40 25
      = Vec.mk (1 / 2) 0 (Real.sqrt 3 / 2) := by
  have hd : dot (Vec.mk (((40 : Int) : ℝ) - ((GL_width : Int) : ℝ) / 2)
      (((25 : Int) : ℝ) - ((GL_height : Int) : ℝ) / 2) (focal : ℝ))
      (Vec.mk (((40 : Int) : ℝ) - ((GL_width : Int) : ℝ) / 2)
      (((25 : Int) : ℝ) - ((GL_height : Int) : ℝ) / 2) (focal : ℝ)) = 3600 := by
    simp only [dot, GL_width, GL_height, focal]
    norm_num
  have hd2 : dot (Vec.mk (0 : ℝ) 0 60) (Vec.mk 0 0 60) = 3600 := by norm_num [dot]
  simp only [render_ray, normalize, hd, sqrt_3600, azimuth_eq, Real.cos_pi_div_six,
    Real.sin_pi_div_six, GL_width, GL_height, focal]
  norm_num
  rw [hd2, sqrt_3600]
  norm_num

/-- The primary ray of the central pixel hits the sphere `O[0]`. -/
theorem center_hits_O0 (normal point : Vec ℝ) :
    (sphere_intersect Real.sqrt (Vec.mk 6 0 7) 2 (Vec.mk 0 0 0)
      (Vec.mk (1 / 2) 0 (Real.sqrt 3 / 2)) normal point).1 = true := by
  have h3 : Real.sqrt 3 * Real.sqrt 3 = 3 := Real.mul_self_sqrt (by norm_num)
  have h3pos : 0 ≤ Real.sqrt 3 := Real.sqrt_nonneg 3
  have hlo : (17 : ℝ) / 10 < Real.sqrt 3 := by nlinarith
  have hproj : dot (Vec.mk (1 / 2) 0 (Real.sqrt 3 / 2)) (sphere_V (Vec.mk 6 0 7) (Vec.mk 0 0 0))
      = 3 + 7 * Real.sqrt 3 / 2 := by
    simp only [dot, sphere_V]; ring
  have hdelta : sphere_delta (Vec.mk 6 0 7) 2 (Vec.mk 0 0 0)
      (Vec.mk (1 / 2) 0 (Real.sqrt 3 / 2)) = 21 * Real.sqrt 3 - 141 / 4 := by
    rw [sphere_delta, hproj]
    simp only [dot, sphere_V]
    nlinarith
  have hdpos : sphere_delta (Vec.mk 6 0 7) 2 (Vec.mk 0 0 0)
      (Vec.mk (1 / 2) 0 (Real.sqrt 3 / 2)) > 0 := by
    rw [hdelta]; linarith
  have hd : sphere_d Real.sqrt (Vec.mk 6 0 7) 2 (Vec.mk 0 0 0)
      (Vec.mk (1 / 2) 0 (Real.sqrt 3 / 2)) > 0 := by
    rw [sphere_d, hproj, hdelta]
    have hS := Real.mul_self_sqrt (le_of_lt (hdelta ▸ hdpos))
    have hS0 := Real.sqrt_nonneg (21 * Real.sqrt 3 - 141 / 4)
    nlinarith
  rw [sphere_intersect_eq, if_pos hdpos, if_pos hd]

/-- The primary ray of the central pixel misses the lamp `O[2]`. -/
theorem center_misses_lamp (normal point : Vec ℝ) :
    (sphere_intersect Real.sqrt (Vec.mk 5 (-10) (-7)) 8 (Vec.mk 0 0 0)
      (Vec.mk (1 / 2) 0 (Real.sqrt 3 / 2)) normal point).1 = false := by
  apply sphere_intersect_proj_nonpos
  have h3 : Real.sqrt 3 * Real.sqrt 3 = 3 := Real.mul_self_sqrt (by norm_num)
  have h3pos : 0 ≤ Real.sqrt 3 := Real.sqrt_nonneg 3
  simp only [dot, sphere_V]
  nlinarith

/-- The list of the invocations caused by a call of `trace` starts with that call. -/
theorem trace_calls_head (junk : Int → Frame ℝ) (eye ray : Vec ℝ) (depth maxdepth : Int) :
    (depth, eye, ray) ∈ trace_calls Real.sqrt junk eye ray depth maxdepth := by
  rw [trace_calls]
  by_cases h1 : depth > maxdepth
  · rw [if_pos h1]
    exact List.mem_singleton.2 rfl
  · rw [if_neg h1]
    simp only []
    split_ifs
    · exact List.mem_singleton.2 rfl
    · exact List.mem_singleton.2 rfl
    · exact List.mem_cons_self _ _

/-- C13, evaluated at the central pixel `(40, 25)`. The primary ray hits a primitive that
is not the lamp, so `trace` calls itself at depth `1 ≤ maxdepth` and that invocation
passes its ray to `scene_intersect`. Because `scene_intersect` returns the hit point in its
`normal` output, the reflected ray is `-(2 t^2 - 1)^2` times the primary direction, `t ≥ 2`
being the distance of the hit: its squared length is above 1. -/
theorem render_reflected_ray_not_unit (junk : Int → Frame ℝ) :
    ∃ e ∈ trace_calls Real.sqrt junk (Vec.mk 0 0 0)
        (render_ray Real.sqrt Real.cos Real.sin Real.pi 40 25) 0 maxdepth,
      e.1 = 1 ∧ e.1 ≤ maxdepth ∧ dot e.2.2 e.2.2 > 1 := by
  have hu := render_ray_unit 40 25
  rw [render_ray_center] at hu ⊢
  have hmax : (maxdepth : Int) = 3 := rfl
  rw [hmax]
  have hflag : (scene_intersect Real.sqrt (Vec.mk 0 0 0) (Vec.mk (1 / 2) 0 (Real.sqrt 3 / 2))
      (junk 0).point (junk 0).normal (junk 0).color (junk 0).p (junk 0).N).1 = true := by
    have := (scene_loop_flag Real.sqrt (Vec.mk 0 0 0) (Vec.mk (1 / 2) 0 (Real.sqrt 3 / 2))
      O ⟨10 ^ 30, (junk 0).p, (junk 0).N, false, (junk 0).point, (junk 0).normal,
        (junk 0).color⟩).2
      (Or.inr ⟨⟨⟨1, 2 / 5, 3 / 5⟩, ⟨6, 0, 7⟩, ⟨0, 0, 0⟩, 2⟩, by simp [O], by
        rw [obj_intersect_sphere _ _ _ _ _ _ (by norm_num)]
        exact center_hits_O0 _ _⟩)
    exact this
  obtain ⟨o, ho, p', N', hhit, hpt, hnm, hcol⟩ := scene_intersect_written Real.sqrt
    (Vec.mk 0 0 0) (Vec.mk (1 / 2) 0 (Real.sqrt 3 / 2)) (junk 0).point (junk 0).normal
    (junk 0).color (junk 0).p (junk 0).N
    (fun o ho p' N' hh => by
      rw [(camera_hit _ hu o ho p' N' hh).1]; norm_num) hflag
  have hx : ¬ o.color.x > 1 := by
    intro hgt
    have hlamp : o = ⟨⟨2, 2, 2⟩, ⟨5, -10, -7⟩, ⟨0, 0, 0⟩, 8⟩ := by
      simp only [O, List.mem_cons, List.mem_singleton, List.not_mem_nil, or_false] at ho
      rcases ho with rfl | rfl | rfl | rfl | rfl <;> first | rfl | (norm_num at hgt)
    rw [hlamp, obj_intersect_sphere _ _ _ _ _ _ (by norm_num), center_misses_lamp] at hhit
    exact absurd hhit (by simp)
  obtain ⟨_, _, _, _, _, t, ht2, _, hP⟩ := (camera_hit _ hu o ho p' N' hhit).2 (not_lt.1 hx)
  refine ⟨(1, (obj_intersect Real.sqrt (Vec.mk 0 0 0) (Vec.mk (1 / 2) 0 (Real.sqrt 3 / 2)) o
      p' N').2.1,
    reflect Real.sqrt (Vec.mk (1 / 2) 0 (Real.sqrt 3 / 2))
      (obj_intersect Real.sqrt (Vec.mk 0 0 0) (Vec.mk (1 / 2) 0 (Real.sqrt 3 / 2)) o
        p' N').2.2), ?_, rfl, by norm_num, ?_⟩
  · rw [trace_calls, if_neg (by norm_num)]
    rw [← hcol] at hx
    simp only [hflag, Bool.not_true, Bool.false_eq_true, if_false, if_neg hx, zero_add,
      hpt, hnm]
    exact List.mem_cons_of_mem _ (trace_calls_head junk _ _ 1 3)
  · show dot (reflect Real.sqrt (Vec.mk (1 / 2) 0 (Real.sqrt 3 / 2))
        (obj_intersect Real.sqrt (Vec.mk 0 0 0) (Vec.mk (1 / 2) 0 (Real.sqrt 3 / 2)) o
          p' N').2.2)
      (reflect Real.sqrt (Vec.mk (1 / 2) 0 (Real.sqrt 3 / 2))
        (obj_intersect Real.sqrt (Vec.mk 0 0 0) (Vec.mk (1 / 2) 0 (Real.sqrt 3 / 2)) o
          p' N').2.2) > 1
    rw [hP, reflect_first_hit _ hu t ht2]
    have ha7 : 7 ≤ 2 * t * t - 1 := by nlinarith
    have hm : 49 ≤ (2 * t * t - 1) * (2 * t * t - 1) := by nlinarith
    generalize (2 * t * t - 1) * (2 * t * t - 1) = m at hm
    simp only [dot] at hu ⊢
    have e : 1 / 2 * -m * (1 / 2 * -m) + 0 * -m * (0 * -m)
        + Real.sqrt 3 / 2 * -m * (Real.sqrt 3 / 2 * -m)
        = m * m * (1 / 2 * (1 / 2) + 0 * 0 + Real.sqrt 3 / 2 * (Real.sqrt 3 / 2)) := by ring
    rw [e, hu]
    nlinarith

end Theorems


end Render
